import Mathlib

/-!
Interaction strength: the orchestrator and the scratch-buffer shell.

A shallow embedding of `CalcInteractionStrength`
(`shared/libebm/CalcInteractionStrength.cpp`) and of the two buffer getters of
`InteractionShell` (`shared/libebm/InteractionShell.cpp`).

* `size_t` values are natural numbers; every operation that can wrap is written
  with an explicit `% 2 ^ cBitsSizeT`.
* `IntEbm` and `ptrdiff_t` values are integers.
* a `double` is an IEEE 754 binary64 datum (`Dbl`); only its comparisons are
  interpreted, the arithmetic is a parameter of the embedding.
* a pointer that may be null is an `Option`.
* the calls that leave the orchestrator (index reads, buffer requests, frees,
  allocations, zeroing, kernels) are appended to a trace in program order.
* logging is not modelled.
* the conditions of `EBM_ASSERT` are not part of the step functions, as in a
  release build; the statements on them evaluate the condition on the locals
  at the program point of the assertion.
-/

namespace Ebm

/-! ## IEEE 754 binary64 -/

/-- The number of finite binary64 magnitudes: the exponent and fraction fields
read as one 63 bit number range over `0 .. 0x7FF0000000000000 - 1` for finite
values. -/
def dblFiniteCount : Nat := 0x7FF0000000000000

/-- An IEEE 754 binary64 datum. A finite value is its sign bit and the 63 bit
number formed by its exponent and fraction fields; all NaN payloads are one
value. -/
inductive Dbl where
  | nan
  | inf (neg : Bool)
  | fin (neg : Bool) (mag : Fin dblFiniteCount)
deriving DecidableEq

/-- The position of a datum in the IEEE order, `none` for NaN. For equal signs
the order of finite magnitudes is the order of their bit patterns, and both
zeros take position 0. -/
def Dbl.key : Dbl → Option Int
  | .nan => none
  | .inf false => some (dblFiniteCount : Int)
  | .inf true => some (-(dblFiniteCount : Int))
  | .fin false m => some (m.val : Int)
  | .fin true m => some (-(m.val : Int))

/-- The C++ `a <= b` on doubles: false as soon as one side is NaN. -/
def Dbl.le (a b : Dbl) : Bool :=
  match a.key, b.key with
  | some x, some y => decide (x ≤ y)
  | _, _ => false

/-- The C++ `a < b` on doubles: false as soon as one side is NaN. -/
def Dbl.lt (a b : Dbl) : Bool :=
  match a.key, b.key with
  | some x, some y => decide (x < y)
  | _, _ => false

/-- The literal `0.0`. -/
def dblZero : Dbl := .fin false ⟨0, by decide⟩

/-- The value of `std::numeric_limits<double>::max()`. -/
def dblMax : Dbl := .fin false ⟨0x7FEFFFFFFFFFFFFF, by decide⟩

/-- The value of `std::numeric_limits<double>::lowest()`. -/
def dblLowest : Dbl := .fin true ⟨0x7FEFFFFFFFFFFFFF, by decide⟩

/-- The value of `std::numeric_limits<double>::infinity()`. -/
def dblInfinity : Dbl := .inf false

/-- The literal `1.0` (biased exponent 1023, fraction 0). -/
def dblOne : Dbl := .fin false ⟨0x3FF0000000000000, by decide⟩

/-! ## Error codes, buffers, events -/

/-- The `ErrorEbm` codes the orchestrator names, and every other code a kernel
may hand back. -/
inductive ErrorEbm where
  | Error_None
  | Error_OutOfMemory
  | Error_UnexpectedInternal
  | Error_IllegalParamVal
  | Error_Other (code : Int)
deriving DecidableEq

/-- A non-null pointer returned by `AlignedAlloc`: the identity of the
allocation and the byte count it was asked for. -/
structure Buffer where
  id : Nat
  cBytes : Nat
deriving DecidableEq

/-- The fields of `BinSumsInteractionBridge` that the orchestrator fills with
numbers (the data pointers are not modelled). -/
structure BinSumsInteractionBridge where
  m_cRuntimeRealDimensions : Nat
  m_bHessian : Bool
  m_cScores : Nat
  m_cSamples : Nat
  m_acBins : List Nat
  m_acItemsPerBitPack : List Nat
  m_aFastBins : Buffer
deriving DecidableEq

/-- What the orchestrator and the shell do to the outside, in program order. -/
inductive Event where
  | readIndex (iDimension : Nat)
  | getMainBins (cBytesPerMainBin cMainBins : Nat)
  | getFastBins (cBytes : Nat)
  | free (p : Option Buffer)
  | alloc (cBytes : Nat) (r : Option Buffer)
  | zeroMain (cBytes : Nat)
  | zeroFast (iSubset cBytesPerFastBin cTensorBins : Nat)
  | binSums (iSubset : Nat) (bridge : BinSumsInteractionBridge) (r : ErrorEbm)
  | convertAddBin (iSubset cScores : Nat) (bHessian : Bool) (cBins : Nat) (bUInt64Src bDoubleSrc : Bool)
  | zeroAux (iByteAuxiliary cBytesPerMainBin cAuxillaryBins : Nat)
  | tensorTotalsBuild (bHessian : Bool) (cScores cRealDimensions : Nat) (acBins : List Nat)
  | partition2d (cRealDimensions : Nat) (acBins : List Nat) (flags cSamplesLeafMin : Nat) (r : Dbl)
deriving DecidableEq

/-- True for the two events that ask the shell for a buffer. -/
def Event.isBufferRequest : Event → Bool
  | .getMainBins _ _ => true
  | .getFastBins _ => true
  | _ => false

/-- True for the read of one entry of `featureIndexes`. -/
def Event.isReadIndex : Event → Bool
  | .readIndex _ => true
  | _ => false

/-! ## What the sources under `shared/libebm` take from headers -/

/-- Modelled from the spec: the constants, type sizes and helper functions that
`CalcInteractionStrength.cpp` and `InteractionShell.cpp` take from headers that
are not part of the sources at hand (`ebm_internal.hpp`, `libebm.h`,
`common_c.h`, `Bin.hpp`, `InteractionShell.hpp`), together with the IEEE
division and multiplication. They are parameters: nothing is assumed of them. -/
structure Env where
  cBitsSizeT : Nat
  k_cDimensionsMax : Nat
  k_illegalGainDouble : Dbl
  k_handleVerificationOk : Nat
  CalcInteractionFlags_Pure : Nat
  CalcInteractionFlags_EnableNewton : Nat
  sizeofUIntBig : Nat
  sizeofFloatBig : Nat
  sizeofUIntSmall : Nat
  sizeofFloatSmall : Nat
  sizeofUIntMain : Nat
  sizeofFloatMain : Nat
  GetCountScores : Int → Nat
  GetBinSize : Nat → Nat → Bool → Nat → Nat
  GetCountItemsBitPacked : Nat → Nat → Nat
  fdiv : Dbl → Dbl → Dbl
  fmul : Dbl → Dbl → Dbl

/-- The value of `std::numeric_limits<size_t>::max()`. -/
def SIZE_MAX (env : Env) : Nat := 2 ^ env.cBitsSizeT - 1

/-- Modelled from the spec: `IsAddError(a, b)` of `common_cpp.hpp`, true when the
sum of two `size_t` values does not fit in `size_t`. -/
def IsAddError (env : Env) (a b : Nat) : Bool := decide (SIZE_MAX env < a + b)

/-- Modelled from the spec: `IsMultiplyError(a, b)` of `common_cpp.hpp`, true when
the product of two `size_t` values does not fit in `size_t`. -/
def IsMultiplyError (env : Env) (a b : Nat) : Bool := decide (SIZE_MAX env < a * b)

/-- Modelled from the spec: `IsConvertError<size_t>(v)` of `common_cpp.hpp` for an
`IntEbm` argument, true when the value is not representable in `size_t`. -/
def IsConvertErrorSizeT (env : Env) (v : Int) : Bool :=
  decide (v < 0 ∨ (SIZE_MAX env : Int) < v)

/-- The conversion `static_cast<size_t>(v)` of an `IntEbm`: reduction modulo
`2 ^ cBitsSizeT`. -/
def toSizeT (env : Env) (v : Int) : Nat := (v % ((2 ^ env.cBitsSizeT : Nat) : Int)).toNat

/-- Modelled from the spec: `EbmMax(v1, v2)` of `common_cpp.hpp`. -/
def EbmMax (v1 v2 : Nat) : Nat := if v1 < v2 then v2 else v1

/-! ## The detector behind a handle -/

/-- The part of `FeatureInteraction` the orchestrator reads. -/
structure FeatureInteraction where
  m_cBins : Nat
  m_cBitsRequiredMin : Nat
deriving DecidableEq

/-- One `DataSubsetInteraction`: the widths of its objective wrapper, its sample
count, and the error code its accumulation kernel returns for a bridge. -/
structure DataSubsetInteraction where
  m_cUIntBytes : Nat
  m_cFloatBytes : Nat
  m_cSamples : Nat
  BinSumsInteraction : BinSumsInteractionBridge → ErrorEbm

/-- The `InteractionCore` with its `DataSetInteraction`. The subsets are the
first one and the list of the others (`1 <= GetCountSubsets()` is asserted by
the orchestrator). `m_aFeatures` is the feature array as memory, of which the
first `m_cFeatures` cells are features. `PartitionTwoDimensionalInteraction`
gives the raw gain the two-dimensional searcher returns on the tensor built for
a tuple of feature cells, from the arguments it is called with. -/
structure InteractionCore where
  m_cClasses : Int
  m_bHessian : Bool
  m_cFeatures : Nat
  m_aFeatures : Nat → FeatureInteraction
  m_cSamples : Nat
  m_weightTotal : Dbl
  m_subsetFirst : DataSubsetInteraction
  m_aSubsetsRest : List DataSubsetInteraction
  HessianConstant : Dbl
  GainAdjustmentHessianBoosting : Dbl
  GainAdjustmentGradientBoosting : Dbl
  GradientConstant : Dbl
  PartitionTwoDimensionalInteraction : List Nat → List Nat → Nat → Nat → Dbl

/-- The `InteractionShell`: its verification tag, its core, the two scratch
buffers and their recorded capacities. -/
structure InteractionShell where
  m_handleVerification : Nat
  m_pInteractionCore : InteractionCore
  m_aInteractionFastBinsTemp : Option Buffer
  m_cBytesFastBins : Nat
  m_aInteractionMainBins : Option Buffer
  m_cAllocatedMainBins : Nat

/-- The outside of a call: how many allocations were attempted so far and the
trace of events. -/
structure World where
  cAllocs : Nat
  trace : List Event
deriving DecidableEq

/-- Append one event to the trace. -/
def World.emit (w : World) (e : Event) : World :=
  { w with trace := w.trace ++ [e] }

/-- The call `AlignedAlloc(cBytes)`. Whether the n-th attempt succeeds is given by
`alloc n cBytes`; a successful attempt returns a fresh buffer of that size. -/
def AlignedAlloc (alloc : Nat → Nat → Bool) (w : World) (cBytes : Nat) : Option Buffer × World :=
  let r : Option Buffer := if alloc w.cAllocs cBytes then some { id := w.cAllocs, cBytes := cBytes } else none
  (r, { cAllocs := w.cAllocs + 1, trace := w.trace ++ [Event.alloc cBytes r] })

/-- Modelled from the spec: `InteractionShell::GetInteractionShellFromHandle` of
`InteractionShell.hpp`, which rejects a null handle and a handle whose
verification tag is not the live one. -/
def GetInteractionShellFromHandle (env : Env) (interactionHandle : Option InteractionShell) :
    Option InteractionShell :=
  match interactionHandle with
  | none => none
  | some shell => if shell.m_handleVerification = env.k_handleVerificationOk then some shell else none

/-! ## `InteractionShell.cpp` -/

/-- The method `InteractionShell::GetInteractionFastBinsTemp(cBytes)`. -/
def GetInteractionFastBinsTemp (env : Env) (alloc : Nat → Nat → Bool)
    (shell : InteractionShell) (w : World) (cBytes : Nat) :
    Option Buffer × InteractionShell × World :=
  let w := w.emit (Event.getFastBins cBytes)
  let aBuffer := shell.m_aInteractionFastBinsTemp
  if shell.m_cBytesFastBins < cBytes then
    let w := w.emit (Event.free aBuffer)
    let shell := { shell with m_aInteractionFastBinsTemp := none }
    if IsAddError env cBytes cBytes then
      (none, shell, w)
    else
      let cNewAllocatedFastBins := cBytes + cBytes
      let shell := { shell with m_cBytesFastBins := cNewAllocatedFastBins }
      match AlignedAlloc alloc w cNewAllocatedFastBins with
      | (none, w) => (none, shell, w)
      | (some aBuffer, w) => (some aBuffer, { shell with m_aInteractionFastBinsTemp := some aBuffer }, w)
  else
    (aBuffer, shell, w)

/-- The method `InteractionShell::GetInteractionMainBins(cBytesPerMainBin, cMainBins)`. -/
def GetInteractionMainBins (env : Env) (alloc : Nat → Nat → Bool)
    (shell : InteractionShell) (w : World) (cBytesPerMainBin cMainBins : Nat) :
    Option Buffer × InteractionShell × World :=
  let w := w.emit (Event.getMainBins cBytesPerMainBin cMainBins)
  let aBuffer := shell.m_aInteractionMainBins
  if shell.m_cAllocatedMainBins < cMainBins then
    let w := w.emit (Event.free aBuffer)
    let shell := { shell with m_aInteractionMainBins := none }
    let cItemsGrowth := (cMainBins >>> 2) + 16
    if IsAddError env cItemsGrowth cMainBins then
      (none, shell, w)
    else
      let cNewAllocatedMainBins := cMainBins + cItemsGrowth
      let shell := { shell with m_cAllocatedMainBins := cNewAllocatedMainBins }
      if IsMultiplyError env cBytesPerMainBin cNewAllocatedMainBins then
        (none, shell, w)
      else
        match AlignedAlloc alloc w (cBytesPerMainBin * cNewAllocatedMainBins) with
        | (none, w) => (none, shell, w)
        | (some aBuffer, w) => (some aBuffer, { shell with m_aInteractionMainBins := some aBuffer }, w)
  else
    (aBuffer, shell, w)

/-! ## `CalcInteractionStrength.cpp` -/

/-- What a call of `CalcInteractionStrength` leaves behind: the returned code, the
content of `*avgInteractionStrengthOut` (`none` for a null pointer), the shell
behind the handle, and the outside. -/
structure Result where
  error : ErrorEbm
  avgInteractionStrengthOut : Option Dbl
  shell : Option InteractionShell
  world : World

/-- The statement `if(nullptr != avgInteractionStrengthOut) *avgInteractionStrengthOut = v;`. -/
def storeOut : Option Dbl → Dbl → Option Dbl
  | none, _ => none
  | some _, v => some v

/-- Lines 128-139: the effective ceiling `cCardinalityMax`. -/
def cCardinalityMaxOf (env : Env) (maxCardinality : Int) : Nat :=
  let cCardinalityMax := SIZE_MAX env
  if 0 ≤ maxCardinality then
    if 0 ≠ maxCardinality then
      if !IsConvertErrorSizeT env maxCardinality then
        toSizeT env maxCardinality
      else cCardinalityMax
    else cCardinalityMax
  else cCardinalityMax

/-- Lines 141-151: the threshold `cSamplesLeafMin`. -/
def cSamplesLeafMinOf (env : Env) (minSamplesLeaf : Int) : Nat :=
  let cSamplesLeafMin := 1
  if 1 ≤ minSamplesLeaf then
    let cSamplesLeafMin := toSizeT env minSamplesLeaf
    if IsConvertErrorSizeT env minSamplesLeaf then
      SIZE_MAX env
    else cSamplesLeafMin
  else cSamplesLeafMin

/-- The locals of the shape loop (lines 210-261): `cAuxillaryBinsForBuildFastTotals`,
`cTensorBins`, the filled part of `binSums.m_acBins`, and the feature cells
`iFeature` read so far. -/
structure Shape where
  cAuxillaryBinsForBuildFastTotals : Nat
  cTensorBins : Nat
  acBins : List Nat
  aiFeatures : List Nat
deriving DecidableEq

/-- How one pass through the body of the shape loop, or the whole loop, ends:
with a `return` (the code and the output location at that point), or by
falling through with new locals. -/
inductive ShapeOutcome where
  | ret (error : ErrorEbm) (out : Option Dbl) (w : World)
  | next (s : Shape) (w : World)
deriving DecidableEq

/-- Lines 214-258: the body of the shape loop at `iDimension`. The casts of
`indexFeature` and of the feature count are exact: the index lies in
`0 .. countFeatures - 1` when it is cast, and the feature count is a `size_t`
that `IntEbm` holds. -/
def shapeBody (env : Env) (core : InteractionCore) (featureIndexes : Nat → Int)
    (out : Option Dbl) (iDimension : Nat) (s : Shape) (w : World) : ShapeOutcome :=
  let countFeatures : Int := (core.m_cFeatures : Int)
  let indexFeature := featureIndexes iDimension
  let w := w.emit (Event.readIndex iDimension)
  if indexFeature < 0 then
    .ret .Error_IllegalParamVal out w
  else if countFeatures ≤ indexFeature then
    .ret .Error_IllegalParamVal out w
  else
    let iFeature := indexFeature.toNat
    let pFeature := core.m_aFeatures iFeature
    let cBins := pFeature.m_cBins
    if cBins ≤ 1 then
      .ret .Error_None (storeOut out dblZero) w
    else
      let acBins := s.acBins ++ [cBins]
      let cAuxillaryBinsForBuildFastTotals :=
        (s.cAuxillaryBinsForBuildFastTotals + s.cTensorBins) % 2 ^ env.cBitsSizeT
      if IsMultiplyError env s.cTensorBins cBins then
        .ret .Error_None (storeOut out dblZero) w
      else
        let cTensorBins := (s.cTensorBins * cBins) % 2 ^ env.cBitsSizeT
        .next { cAuxillaryBinsForBuildFastTotals := cAuxillaryBinsForBuildFastTotals,
                cTensorBins := cTensorBins, acBins := acBins,
                aiFeatures := s.aiFeatures ++ [iFeature] } w

/-- Lines 213-261: `do { body; ++iDimension; } while(cDimensions != iDimension);`.
The first argument is `cDimensions - iDimension - 1`, the number of passes that
follow the current one, so that the loop condition holds exactly when it is not 0. -/
def shapeLoop (env : Env) (core : InteractionCore) (featureIndexes : Nat → Int)
    (out : Option Dbl) : Nat → Nat → Shape → World → ShapeOutcome
  | 0, iDimension, s, w => shapeBody env core featureIndexes out iDimension s w
  | cFollowing + 1, iDimension, s, w =>
    match shapeBody env core featureIndexes out iDimension s w with
    | .ret error out w => .ret error out w
    | .next s w => shapeLoop env core featureIndexes out cFollowing (iDimension + 1) s w

/-- Lines 342-354: the loop that fills `binSums.m_acItemsPerBitPack` for one subset,
reading `featureIndexes` again. The first argument counts the passes that follow
the current one. -/
def packLoop (env : Env) (core : InteractionCore) (subset : DataSubsetInteraction)
    (featureIndexes : Nat → Int) : Nat → Nat → List Nat → World → List Nat × World
  | 0, iDimensionLoop, acItemsPerBitPack, w =>
    let indexFeature := featureIndexes iDimensionLoop
    let w := w.emit (Event.readIndex iDimensionLoop)
    let pFeature := core.m_aFeatures indexFeature.toNat
    (acItemsPerBitPack ++ [env.GetCountItemsBitPacked pFeature.m_cBitsRequiredMin subset.m_cUIntBytes], w)
  | cFollowing + 1, iDimensionLoop, acItemsPerBitPack, w =>
    let indexFeature := featureIndexes iDimensionLoop
    let w := w.emit (Event.readIndex iDimensionLoop)
    let pFeature := core.m_aFeatures indexFeature.toNat
    packLoop env core subset featureIndexes cFollowing (iDimensionLoop + 1)
      (acItemsPerBitPack ++ [env.GetCountItemsBitPacked pFeature.m_cBitsRequiredMin subset.m_cUIntBytes]) w

/-- Lines 306-322: the bin size of the fast buffer of one subset. -/
def cBytesPerFastBinOf (env : Env) (subset : DataSubsetInteraction) (bHessian : Bool) (cScores : Nat) : Nat :=
  if env.sizeofUIntBig = subset.m_cUIntBytes then
    if env.sizeofFloatBig = subset.m_cFloatBytes then
      env.GetBinSize env.sizeofFloatBig env.sizeofUIntBig bHessian cScores
    else
      env.GetBinSize env.sizeofFloatSmall env.sizeofUIntBig bHessian cScores
  else
    if env.sizeofFloatBig = subset.m_cFloatBytes then
      env.GetBinSize env.sizeofFloatBig env.sizeofUIntSmall bHessian cScores
    else
      env.GetBinSize env.sizeofFloatSmall env.sizeofUIntSmall bHessian cScores

/-- How one pass through the body of the subset loop, or the whole loop, ends. -/
inductive SubsetOutcome where
  | ret (error : ErrorEbm) (shell : InteractionShell) (w : World)
  | next (shell : InteractionShell) (w : World)

/-- Lines 306-382: the body of the subset loop for the subset number `iSubset`. -/
def subsetBody (env : Env) (alloc : Nat → Nat → Bool) (core : InteractionCore)
    (featureIndexes : Nat → Int) (cDimensions cScores : Nat) (s : Shape)
    (iSubset : Nat) (subset : DataSubsetInteraction) (shell : InteractionShell) (w : World) :
    SubsetOutcome :=
  let bHessian := core.m_bHessian
  let cBytesPerFastBin := cBytesPerFastBinOf env subset bHessian cScores
  if IsMultiplyError env cBytesPerFastBin s.cTensorBins then
    .ret .Error_OutOfMemory shell w
  else
    match GetInteractionFastBinsTemp env alloc shell w
        ((cBytesPerFastBin * s.cTensorBins) % 2 ^ env.cBitsSizeT) with
    | (none, shell, w) => .ret .Error_OutOfMemory shell w
    | (some aFastBins, shell, w) =>
      let w := w.emit (Event.zeroFast iSubset cBytesPerFastBin s.cTensorBins)
      match packLoop env core subset featureIndexes (cDimensions - 1) 0 [] w with
      | (acItemsPerBitPack, w) =>
        let binSums : BinSumsInteractionBridge :=
          { m_cRuntimeRealDimensions := cDimensions, m_bHessian := core.m_bHessian,
            m_cScores := cScores, m_cSamples := subset.m_cSamples, m_acBins := s.acBins,
            m_acItemsPerBitPack := acItemsPerBitPack, m_aFastBins := aFastBins }
        let error := subset.BinSumsInteraction binSums
        let w := w.emit (Event.binSums iSubset binSums error)
        if ErrorEbm.Error_None ≠ error then
          .ret error shell w
        else
          let w := w.emit (Event.convertAddBin iSubset cScores core.m_bHessian s.cTensorBins
            (decide (env.sizeofUIntBig = subset.m_cUIntBytes))
            (decide (env.sizeofFloatBig = subset.m_cFloatBytes)))
          .next shell w

/-- Lines 305-385: `do { body; ++pSubset; } while(pSubsetsEnd != pSubset);` over the
current subset and the list of those that follow it. -/
def subsetLoop (env : Env) (alloc : Nat → Nat → Bool) (core : InteractionCore)
    (featureIndexes : Nat → Int) (cDimensions cScores : Nat) (s : Shape) :
    Nat → DataSubsetInteraction → List DataSubsetInteraction → InteractionShell → World → SubsetOutcome
  | iSubset, subset, [], shell, w =>
    subsetBody env alloc core featureIndexes cDimensions cScores s iSubset subset shell w
  | iSubset, subset, following :: others, shell, w =>
    match subsetBody env alloc core featureIndexes cDimensions cScores s iSubset subset shell w with
    | .ret error shell w => .ret error shell w
    | .next shell w =>
      subsetLoop env alloc core featureIndexes cDimensions cScores s (iSubset + 1) following others shell w

/-- Lines 444-453: the normalisation of the raw gain. -/
def normalizeGain (env : Env) (core : InteractionCore) (flags : Nat) (bestGain : Dbl) : Dbl :=
  let totalWeight := core.m_weightTotal
  let bestGain := env.fdiv bestGain totalWeight
  let bestGain :=
    if 0 ≠ (flags &&& env.CalcInteractionFlags_EnableNewton) then
      env.fmul (env.fdiv bestGain core.HessianConstant) core.GainAdjustmentHessianBoosting
    else
      env.fmul bestGain core.GainAdjustmentGradientBoosting
  let gradientConstant := core.GradientConstant
  env.fmul (env.fmul bestGain gradientConstant) gradientConstant

/-- Lines 455-476: the clamp of the normalised gain. -/
def clampGain (env : Env) (bestGain : Dbl) : Dbl :=
  if !(Dbl.le bestGain dblMax) then
    env.k_illegalGainDouble
  else if Dbl.lt bestGain dblZero then
    if Dbl.le dblLowest bestGain then dblZero else env.k_illegalGainDouble
  else
    bestGain

/-- Lines 271-505: everything after the ceiling check, for the shape `s`. -/
def evaluateTensor (env : Env) (alloc : Nat → Nat → Bool) (shell : InteractionShell)
    (core : InteractionCore) (featureIndexes : Nat → Int) (flags : Nat)
    (cSamplesLeafMin cDimensions : Nat) (out : Option Dbl) (s : Shape) (w : World) : Result :=
  let cTensorBins := s.cTensorBins
  let cScores := env.GetCountScores core.m_cClasses
  let cAuxillaryBinsForSplitting := 4
  let cAuxillaryBins := EbmMax s.cAuxillaryBinsForBuildFastTotals cAuxillaryBinsForSplitting
  if IsAddError env cTensorBins cAuxillaryBins then
    { error := .Error_OutOfMemory, avgInteractionStrengthOut := out, shell := some shell, world := w }
  else
    let cTotalMainBins := (cTensorBins + cAuxillaryBins) % 2 ^ env.cBitsSizeT
    let cBytesPerMainBin := env.GetBinSize env.sizeofFloatMain env.sizeofUIntMain core.m_bHessian cScores
    if IsMultiplyError env cBytesPerMainBin cTotalMainBins then
      { error := .Error_OutOfMemory, avgInteractionStrengthOut := out, shell := some shell, world := w }
    else
      match GetInteractionMainBins env alloc shell w cBytesPerMainBin cTotalMainBins with
      | (none, shell, w) =>
        { error := .Error_OutOfMemory, avgInteractionStrengthOut := out, shell := some shell, world := w }
      | (some _, shell, w) =>
        let w := w.emit (Event.zeroMain ((cBytesPerMainBin * cTensorBins) % 2 ^ env.cBitsSizeT))
        match subsetLoop env alloc core featureIndexes cDimensions cScores s 0
            core.m_subsetFirst core.m_aSubsetsRest shell w with
        | .ret error shell w =>
          { error := error, avgInteractionStrengthOut := out, shell := some shell, world := w }
        | .next shell w =>
          let w := w.emit (Event.zeroAux ((cBytesPerMainBin * cTensorBins) % 2 ^ env.cBitsSizeT)
            cBytesPerMainBin cAuxillaryBins)
          let w := w.emit (Event.tensorTotalsBuild core.m_bHessian cScores cDimensions s.acBins)
          if 2 = cDimensions then
            let bestGain := core.PartitionTwoDimensionalInteraction s.aiFeatures s.acBins flags cSamplesLeafMin
            let w := w.emit (Event.partition2d cDimensions s.acBins flags cSamplesLeafMin bestGain)
            let bestGain := clampGain env (normalizeGain env core flags bestGain)
            { error := .Error_None, avgInteractionStrengthOut := storeOut out bestGain,
              shell := some shell, world := w }
          else
            { error := .Error_None, avgInteractionStrengthOut := out, shell := some shell, world := w }

/-- Lines 263-505: what follows the shape loop, from the way the loop ended. -/
def afterShapeLoop (env : Env) (alloc : Nat → Nat → Bool) (shell : InteractionShell)
    (core : InteractionCore) (featureIndexes : Nat → Int) (flags : Nat)
    (cCardinalityMax cSamplesLeafMin cDimensions : Nat) (out : Option Dbl) : ShapeOutcome → Result
  | .ret error out w =>
    { error := error, avgInteractionStrengthOut := out, shell := some shell, world := w }
  | .next s w =>
    if cCardinalityMax < s.cTensorBins then
      { error := .Error_None, avgInteractionStrengthOut := storeOut out dblZero,
        shell := some shell, world := w }
    else
      evaluateTensor env alloc shell core featureIndexes flags cSamplesLeafMin cDimensions out s w

/-- The function `CalcInteractionStrength` (lines 72-506). `interactionHandle` is the
shell the handle points to (`none` for a null handle), `featureIndexes` the index
array as memory (`none` for a null pointer), `flags` the flag word read as
unsigned, `avgInteractionStrengthOut` the content of the output location
(`none` for a null pointer). The cast of `countDimensions` is exact: it is
taken when `0 < countDimensions <= k_cDimensionsMax`, a `size_t` constant. -/
def CalcInteractionStrength (env : Env) (alloc : Nat → Nat → Bool)
    (interactionHandle : Option InteractionShell) (w : World)
    (countDimensions : Int) (featureIndexes : Option (Nat → Int)) (flags : Nat)
    (maxCardinality minSamplesLeaf : Int) (avgInteractionStrengthOut : Option Dbl) : Result :=
  let out := storeOut avgInteractionStrengthOut env.k_illegalGainDouble
  match GetInteractionShellFromHandle env interactionHandle with
  | none =>
    { error := .Error_IllegalParamVal, avgInteractionStrengthOut := out,
      shell := interactionHandle, world := w }
  | some shell =>
    let cCardinalityMax := cCardinalityMaxOf env maxCardinality
    let cSamplesLeafMin := cSamplesLeafMinOf env minSamplesLeaf
    if countDimensions ≤ 0 then
      if 0 = countDimensions then
        { error := .Error_None, avgInteractionStrengthOut := storeOut out dblZero,
          shell := some shell, world := w }
      else
        { error := .Error_IllegalParamVal, avgInteractionStrengthOut := out,
          shell := some shell, world := w }
    else
      match featureIndexes with
      | none =>
        { error := .Error_IllegalParamVal, avgInteractionStrengthOut := out,
          shell := some shell, world := w }
      | some featureIndexes =>
        if (env.k_cDimensionsMax : Int) < countDimensions then
          { error := .Error_OutOfMemory, avgInteractionStrengthOut := out,
            shell := some shell, world := w }
        else
          let cDimensions := countDimensions.toNat
          let core := shell.m_pInteractionCore
          let cClasses := core.m_cClasses
          if 0 = cClasses ∨ 1 = cClasses then
            { error := .Error_None, avgInteractionStrengthOut := storeOut out dblZero,
              shell := some shell, world := w }
          else if 0 = core.m_cSamples then
            { error := .Error_None, avgInteractionStrengthOut := storeOut out dblZero,
              shell := some shell, world := w }
          else
            afterShapeLoop env alloc shell core featureIndexes flags cCardinalityMax
              cSamplesLeafMin cDimensions out
              (shapeLoop env core featureIndexes out (cDimensions - 1) 0
                { cAuxillaryBinsForBuildFastTotals := 0, cTensorBins := 1, acBins := [],
                  aiFeatures := [] } w)

/-! ## Vocabulary of the statements -/

/-- The bin count of the feature that entry `i` of the tuple refers to. -/
def binsAt (core : InteractionCore) (featureIndexes : Nat → Int) (i : Nat) : Nat :=
  (core.m_aFeatures (featureIndexes i).toNat).m_cBins

/-- Entry `i` of the tuple is a feature index of the core. -/
def inRangeAt (core : InteractionCore) (featureIndexes : Nat → Int) (i : Nat) : Prop :=
  0 ≤ featureIndexes i ∧ featureIndexes i < (core.m_cFeatures : Int)

instance (core : InteractionCore) (featureIndexes : Nat → Int) (i : Nat) :
    Decidable (inRangeAt core featureIndexes i) := by
  unfold inRangeAt; infer_instance

/-- The exact product of the bin counts of the entries `i, i + 1, ..., i + c - 1`
of the tuple. -/
def binsProduct (core : InteractionCore) (featureIndexes : Nat → Int) : Nat → Nat → Nat
  | _, 0 => 1
  | i, c + 1 => binsAt core featureIndexes i * binsProduct core featureIndexes (i + 1) c

/-- The locals of the shape loop after a pass that falls through, for a feature
cell `iFeature` with `cBins` bins whose product with `cTensorBins` fits in
`size_t`. -/
def Shape.advance (env : Env) (s : Shape) (cBins iFeature : Nat) : Shape :=
  { cAuxillaryBinsForBuildFastTotals :=
      (s.cAuxillaryBinsForBuildFastTotals + s.cTensorBins) % 2 ^ env.cBitsSizeT,
    cTensorBins := s.cTensorBins * cBins,
    acBins := s.acBins ++ [cBins],
    aiFeatures := s.aiFeatures ++ [iFeature] }

/-- The world in which a pass of the subset loop, or the loop, ends. -/
def SubsetOutcome.world : SubsetOutcome → World
  | .ret _ _ w => w
  | .next _ w => w

/-- The world `w2` is the world `w1` after reads of feature indexes and nothing
else: no allocation was attempted and every added event is a read. -/
def onlyReads (w1 w2 : World) : Prop :=
  w2.cAllocs = w1.cAllocs ∧
    ∃ evs : List Event, w2.trace = w1.trace ++ evs ∧ ∀ e ∈ evs, e.isReadIndex = true

/-! ## A concrete detector -/

/-- A 64 bit environment. The arithmetic stand-ins are exact when the second
operand is `1.0`, which is the only way the concrete detector uses them. -/
def demoEnv : Env :=
  { cBitsSizeT := 64, k_cDimensionsMax := 30, k_illegalGainDouble := dblLowest,
    k_handleVerificationOk := 10995, CalcInteractionFlags_Pure := 1,
    CalcInteractionFlags_EnableNewton := 2, sizeofUIntBig := 8, sizeofFloatBig := 8,
    sizeofUIntSmall := 4, sizeofFloatSmall := 4, sizeofUIntMain := 8, sizeofFloatMain := 8,
    GetCountScores := fun cClasses => if cClasses ≤ 2 then 1 else cClasses.toNat,
    GetBinSize := fun cFloat cUInt bHessian cScores =>
      cUInt + cFloat + cScores * ((if bHessian then 2 else 1) * cFloat),
    GetCountItemsBitPacked := fun cBits cUIntBytes => cUIntBytes * 8 / cBits,
    fdiv := fun a b => if b = dblOne then a else Dbl.nan,
    fmul := fun a b => if b = dblOne then a else Dbl.nan }

/-- Four features: 3 bins, 4 bins, 1 bin and 2 ^ 40 bins. -/
def demoFeatures : Nat → FeatureInteraction
  | 0 => { m_cBins := 3, m_cBitsRequiredMin := 2 }
  | 1 => { m_cBins := 4, m_cBitsRequiredMin := 2 }
  | 2 => { m_cBins := 1, m_cBitsRequiredMin := 1 }
  | 3 => { m_cBins := 2 ^ 40, m_cBitsRequiredMin := 40 }
  | _ => { m_cBins := 0, m_cBitsRequiredMin := 0 }

/-- A subset of 100 samples in the wide representation whose kernel succeeds. -/
def demoSubset : DataSubsetInteraction :=
  { m_cUIntBytes := 8, m_cFloatBytes := 8, m_cSamples := 100,
    BinSumsInteraction := fun _ => ErrorEbm.Error_None }

/-- A three class detector over `demoFeatures` with one subset, all constants
`1.0`, whose searcher always reports the raw gain `1.0`. -/
def demoCore : InteractionCore :=
  { m_cClasses := 3, m_bHessian := true, m_cFeatures := 4, m_aFeatures := demoFeatures,
    m_cSamples := 100, m_weightTotal := dblOne, m_subsetFirst := demoSubset,
    m_aSubsetsRest := [], HessianConstant := dblOne, GainAdjustmentHessianBoosting := dblOne,
    GainAdjustmentGradientBoosting := dblOne, GradientConstant := dblOne,
    PartitionTwoDimensionalInteraction := fun _ _ _ _ => dblOne }

/-- A live shell over `demoCore` with no buffer yet. -/
def demoShell : InteractionShell :=
  { m_handleVerification := 10995, m_pInteractionCore := demoCore,
    m_aInteractionFastBinsTemp := none, m_cBytesFastBins := 0,
    m_aInteractionMainBins := none, m_cAllocatedMainBins := 0 }

/-- The same detector with a single outcome class. -/
def demoShellOneClass : InteractionShell :=
  { demoShell with m_pInteractionCore := { demoCore with m_cClasses := 1 } }

/-- The outside before the first call. -/
def demoWorld : World := { cAllocs := 0, trace := [] }

/-- An allocator that never fails. -/
def demoAlloc : Nat → Nat → Bool := fun _ _ => true

/-- The index array holding the entries of a list, followed by zeros. -/
def indexArray (l : List Int) : Nat → Int := fun i => l.getD i 0

/-! ## Vocabulary of the statements on the searcher and on the shell -/

/-- True for the events that happen up to the end of accumulation (lines 210-385):
every event but the zeroing of the auxiliary bins, the totals build and the
search. -/
def Event.isAccumulation : Event → Bool
  | .zeroAux _ _ _ => false
  | .tensorTotalsBuild _ _ _ _ => false
  | .partition2d _ _ _ _ _ => false
  | _ => true

/-- True for a call of `PartitionTwoDimensionalInteraction`. -/
def Event.isPartition : Event → Bool
  | .partition2d _ _ _ _ _ => true
  | _ => false

/-- The world in which a pass of the shape loop, or the loop, ends. -/
def ShapeOutcome.world : ShapeOutcome → World
  | .ret _ _ w => w
  | .next _ w => w

/-- Modelled from the spec: `PartitionTwoDimensionalInteraction` is declared and
called, but not defined, in the sources at hand. The spec gives the flag word
two meaningful bits, "pure" and "enable second-order term", and has the other
bits ignored: the raw gain is the same for two flag words that agree on these
two bits. -/
def searcherReadsKnownFlags (env : Env) (core : InteractionCore) : Prop :=
  ∀ (aiFeatures acBins : List Nat) (flags1 flags2 cSamplesLeafMin : Nat),
    flags1 &&& env.CalcInteractionFlags_Pure = flags2 &&& env.CalcInteractionFlags_Pure →
    flags1 &&& env.CalcInteractionFlags_EnableNewton
      = flags2 &&& env.CalcInteractionFlags_EnableNewton →
    core.PartitionTwoDimensionalInteraction aiFeatures acBins flags1 cSamplesLeafMin
      = core.PartitionTwoDimensionalInteraction aiFeatures acBins flags2 cSamplesLeafMin

/-- One call of a buffer getter of the shell. -/
inductive ShellCall where
  | fast (cBytes : Nat)
  | main (cBytesPerMainBin cMainBins : Nat)
deriving DecidableEq

/-- Run one call of a buffer getter. -/
def ShellCall.run (env : Env) (alloc : Nat → Nat → Bool) (c : ShellCall)
    (shell : InteractionShell) (w : World) : Option Buffer × InteractionShell × World :=
  match c with
  | .fast cBytes => GetInteractionFastBinsTemp env alloc shell w cBytes
  | .main cBytesPerMainBin cMainBins =>
    GetInteractionMainBins env alloc shell w cBytesPerMainBin cMainBins

/-- Run a sequence of calls of the buffer getters on one shell, first call first. -/
def runCalls (env : Env) (alloc : Nat → Nat → Bool) :
    List ShellCall → InteractionShell → World → InteractionShell × World
  | [], shell, w => (shell, w)
  | c :: cs, shell, w =>
    runCalls env alloc cs (c.run env alloc shell w).2.1 (c.run env alloc shell w).2.2

/-- The bin sizes passed by the main-buffer calls of a sequence. -/
def mainBinSizes : List ShellCall → List Nat
  | [] => []
  | .fast _ :: cs => mainBinSizes cs
  | .main cBytesPerMainBin _ :: cs => cBytesPerMainBin :: mainBinSizes cs

/-- The empty state of the shell: both buffers null, both capacities 0. -/
def InteractionShell.isEmpty (shell : InteractionShell) : Prop :=
  shell.m_aInteractionFastBinsTemp = none ∧ shell.m_cBytesFastBins = 0
    ∧ shell.m_aInteractionMainBins = none ∧ shell.m_cAllocatedMainBins = 0

/-- The same detector as `demoCore` with a searcher that finds no valid split and
reports the most negative finite double. -/
def demoCoreNoSplit : InteractionCore :=
  { demoCore with PartitionTwoDimensionalInteraction := fun _ _ _ _ => dblLowest }

/-- A live shell over `demoCoreNoSplit` with no buffer yet. -/
def demoShellNoSplit : InteractionShell :=
  { demoShell with m_pInteractionCore := demoCoreNoSplit }

/-- An allocator whose first attempt fails and whose later attempts succeed. -/
def demoAllocFirstFails : Nat → Nat → Bool := fun n _ => decide (n ≠ 0)

/-- The world `w2` is the world `w1` followed by events that all satisfy `P`. -/
def grows (P : Event → Bool) (w1 w2 : World) : Prop :=
  ∃ evs : List Event, w2.trace = w1.trace ++ evs ∧ ∀ e ∈ evs, P e = true

/-- The fast buffer of the shell, when there is one, is an allocation of as many
bytes as the recorded capacity. -/
def fastConsistent (shell : InteractionShell) : Prop :=
  ∀ b, shell.m_aInteractionFastBinsTemp = some b → b.cBytes = shell.m_cBytesFastBins

/-- The main buffer of the shell, when there is one, is an allocation of as many
bins as the recorded capacity, of one of the listed bin sizes. -/
def mainConsistent (shell : InteractionShell) (sizes : List Nat) : Prop :=
  ∀ b, shell.m_aInteractionMainBins = some b →
    ∃ x, x ∈ sizes ∧ b.cBytes = x * shell.m_cAllocatedMainBins

/-- The world `w2` is the world `w1` followed by events that all have the property `P`. -/
def growsBy (P : Event → Prop) (w1 w2 : World) : Prop :=
  ∃ evs : List Event, w2.trace = w1.trace ++ evs ∧ ∀ e ∈ evs, P e

/-- The events a call added to the trace of the world `w` it started in. -/
def addedEvents (w : World) (r : Result) : List Event :=
  r.world.trace.drop w.trace.length

/-! ## Vocabulary of the statements on the shape loop and on the order of the steps -/

/-- Lines 210-212: the locals with which the shape loop is entered. -/
def shapeInit : Shape :=
  { cAuxillaryBinsForBuildFastTotals := 0, cTensorBins := 1, acBins := [], aiFeatures := [] }

/-- The exact sum of the products of the proper prefixes of the entries
`i, i + 1, ..., i + c - 1` of the tuple: `1 + b0 + b0 * b1 + ...`, with `c` terms. -/
def auxSum (core : InteractionCore) (featureIndexes : Nat → Int) (i : Nat) : Nat → Nat
  | 0 => 0
  | c + 1 => auxSum core featureIndexes i c + binsProduct core featureIndexes i c

/-- The bin counts of the entries `i, i + 1, ..., i + c - 1` of the tuple. -/
def binsFrom (core : InteractionCore) (featureIndexes : Nat → Int) : Nat → Nat → List Nat
  | _, 0 => []
  | i, c + 1 => binsAt core featureIndexes i :: binsFrom core featureIndexes (i + 1) c

/-- The locals and the outside at the top of the pass `iDimension` of the shape
loop, `none` when an earlier pass returned. The pass 0 starts from the initial
locals; the pass `i + 1` starts from what the passes `0 .. i` hand on. -/
def shapeAt (env : Env) (core : InteractionCore) (featureIndexes : Nat → Int)
    (out : Option Dbl) (w : World) : Nat → Option (Shape × World)
  | 0 => some (shapeInit, w)
  | i + 1 =>
    match shapeLoop env core featureIndexes out i 0 shapeInit w with
    | .ret _ _ _ => none
    | .next s w2 => some (s, w2)

/-- Lines 239 and 258: the condition of
`EBM_ASSERT(0 == cTensorBins || cAuxillaryBinsForBuildFastTotals < cTensorBins)`. -/
def assertAuxBelowTensor (s : Shape) : Bool :=
  decide (0 = s.cTensorBins) || decide (s.cAuxillaryBinsForBuildFastTotals < s.cTensorBins)

/-- Line 242: the condition of
`EBM_ASSERT(!IsAddError(cAuxillaryBinsForBuildFastTotals, cTensorBins))`. -/
def assertNoAddError (env : Env) (s : Shape) : Bool :=
  !IsAddError env s.cAuxillaryBinsForBuildFastTotals s.cTensorBins

/-- The steps of one evaluation whose order the statements are about: an event
without the reads of indexes, the frees and the allocations, and, for a kernel,
without its bridge. -/
inductive Step where
  | requestMain (cBytesPerMainBin cMainBins : Nat)
  | zeroMain (cBytes : Nat)
  | requestFast (cBytes : Nat)
  | zeroFast (iSubset cBytesPerFastBin cTensorBins : Nat)
  | kernel (iSubset : Nat) (r : ErrorEbm)
  | addToMain (iSubset cTensorBins : Nat)
  | zeroAux (iByteAuxiliary cBytesPerMainBin cAuxillaryBins : Nat)
  | totals (cRealDimensions : Nat) (acBins : List Nat)
  | search (cRealDimensions : Nat) (acBins : List Nat)
deriving DecidableEq

/-- The step an event stands for, `none` for a read, a free or an allocation. -/
def Event.step : Event → Option Step
  | .readIndex _ => none
  | .getMainBins cBytesPerMainBin cMainBins => some (.requestMain cBytesPerMainBin cMainBins)
  | .getFastBins cBytes => some (.requestFast cBytes)
  | .free _ => none
  | .alloc _ _ => none
  | .zeroMain cBytes => some (.zeroMain cBytes)
  | .zeroFast iSubset cBytesPerFastBin cTensorBins =>
    some (.zeroFast iSubset cBytesPerFastBin cTensorBins)
  | .binSums iSubset _ r => some (.kernel iSubset r)
  | .convertAddBin iSubset _ _ cBins _ _ => some (.addToMain iSubset cBins)
  | .zeroAux iByteAuxiliary cBytesPerMainBin cAuxillaryBins =>
    some (.zeroAux iByteAuxiliary cBytesPerMainBin cAuxillaryBins)
  | .tensorTotalsBuild _ _ cRealDimensions acBins => some (.totals cRealDimensions acBins)
  | .partition2d cRealDimensions acBins _ _ _ => some (.search cRealDimensions acBins)

/-- The steps of a list of events, in order. -/
def stepsOf (evs : List Event) : List Step := evs.filterMap Event.step

/-- The steps of the subset loop when every pass succeeds, for the subsets of a
list numbered from `iSubset` and a tensor of `cTensorBins` bins: for each
subset, in turn, the request for the fast buffer, its zeroing, the kernel and
the addition into the main buffer. -/
def subsetSteps (env : Env) (core : InteractionCore) (cScores cTensorBins : Nat) :
    Nat → List DataSubsetInteraction → List Step
  | _, [] => []
  | iSubset, subset :: others =>
    [Step.requestFast (cBytesPerFastBinOf env subset core.m_bHessian cScores * cTensorBins),
     Step.zeroFast iSubset (cBytesPerFastBinOf env subset core.m_bHessian cScores) cTensorBins,
     Step.kernel iSubset ErrorEbm.Error_None,
     Step.addToMain iSubset cTensorBins]
      ++ subsetSteps env core cScores cTensorBins (iSubset + 1) others

/-- True for the four steps of a pass of the subset loop. -/
def Step.isSubsetStep : Step → Bool
  | .requestFast _ => true
  | .zeroFast _ _ _ => true
  | .kernel _ _ => true
  | .addToMain _ _ => true
  | _ => false

/-- The world `w2` is the world `w1` followed by events whose steps are `l`. -/
def addsSteps (w1 w2 : World) (l : List Step) : Prop :=
  ∃ evs : List Event, w2.trace = w1.trace ++ evs ∧ stepsOf evs = l

/-- The steps `l` of a subset loop that returned the code `error` before the
subset number `iLast` was added into the main buffer: the code is not
`Error_None`, the steps are steps of passes of the loop, only subsets before
`iLast` were added, every kernel that ran returned `Error_None` or the code the
loop returned, and that code is `Error_OutOfMemory` or the code of a kernel
that ran. -/
def failedAccumulation (l : List Step) (error : ErrorEbm) (iLast : Nat) : Prop :=
  error ≠ ErrorEbm.Error_None
    ∧ (∀ st, st ∈ l → st.isSubsetStep = true)
    ∧ (∀ k c, Step.addToMain k c ∈ l → k < iLast)
    ∧ (∀ k r, Step.kernel k r ∈ l → r = ErrorEbm.Error_None ∨ r = error)
    ∧ (error = ErrorEbm.Error_OutOfMemory ∨ ∃ k, Step.kernel k error ∈ l)

/-- Three features whose bin counts an `IntEbm` holds: 2 ^ 32 + 1 bins,
2 ^ 32 - 1 bins and 2 bins. The product of the first two is 2 ^ 64 - 1. -/
def demoFeaturesWide : Nat → FeatureInteraction
  | 0 => { m_cBins := 2 ^ 32 + 1, m_cBitsRequiredMin := 33 }
  | 1 => { m_cBins := 2 ^ 32 - 1, m_cBitsRequiredMin := 32 }
  | 2 => { m_cBins := 2, m_cBitsRequiredMin := 1 }
  | _ => { m_cBins := 0, m_cBitsRequiredMin := 0 }

/-- The detector of `demoCore` over `demoFeaturesWide`. -/
def demoCoreWide : InteractionCore :=
  { demoCore with m_cFeatures := 3, m_aFeatures := demoFeaturesWide }

/-- A live shell over `demoCoreWide` with no buffer yet. -/
def demoShellWide : InteractionShell :=
  { demoShell with m_pInteractionCore := demoCoreWide }

/-! ## Elementary facts -/

theorem storeOut_storeOut (o : Option Dbl) (a b : Dbl) :
    storeOut (storeOut o a) b = storeOut o b := by
  cases o <;> rfl

theorem storeOut_some (v0 v : Dbl) : storeOut (some v0) v = some v := rfl

theorem SIZE_MAX_lt (env : Env) : SIZE_MAX env < 2 ^ env.cBitsSizeT := by
  unfold SIZE_MAX
  have h : 0 < 2 ^ env.cBitsSizeT := Nat.pow_pos (by decide)
  omega

theorem mod_of_le_SIZE_MAX (env : Env) {n : Nat} (h : n ≤ SIZE_MAX env) :
    n % 2 ^ env.cBitsSizeT = n :=
  Nat.mod_eq_of_lt (lt_of_le_of_lt h (SIZE_MAX_lt env))

theorem onlyReads_refl (w : World) : onlyReads w w :=
  ⟨rfl, [], by simp, by simp⟩

theorem onlyReads_emit (w : World) (i : Nat) : onlyReads w (w.emit (Event.readIndex i)) :=
  ⟨rfl, [Event.readIndex i], rfl, by simp [Event.isReadIndex]⟩

theorem onlyReads_trans {w1 w2 w3 : World} (h12 : onlyReads w1 w2) (h23 : onlyReads w2 w3) :
    onlyReads w1 w3 := by
  obtain ⟨ha, e1, ht1, hr1⟩ := h12
  obtain ⟨hb, e2, ht2, hr2⟩ := h23
  refine ⟨hb.trans ha, e1 ++ e2, ?_, ?_⟩
  · rw [ht2, ht1, List.append_assoc]
  · intro e he
    rcases List.mem_append.mp he with h | h
    · exact hr1 e h
    · exact hr2 e h

theorem onlyReads_emit_left {w w2 : World} (i : Nat)
    (h : onlyReads (w.emit (Event.readIndex i)) w2) : onlyReads w w2 :=
  onlyReads_trans (onlyReads_emit w i) h

/-- A world reached by reads only holds no buffer request that was not there before. -/
theorem onlyReads_no_request {w1 w2 : World} (h : onlyReads w1 w2) (e : Event)
    (he : e ∈ w2.trace) (hreq : e.isBufferRequest = true) : e ∈ w1.trace := by
  obtain ⟨_, evs, ht, hr⟩ := h
  rw [ht] at he
  rcases List.mem_append.mp he with h1 | h1
  · exact h1
  · have := hr e h1
    cases e <;> simp_all [Event.isReadIndex, Event.isBufferRequest]

/-! ## One pass of the shape loop -/

theorem shapeBody_outOfRange (env : Env) (core : InteractionCore) (f : Nat → Int)
    (out : Option Dbl) (i : Nat) (s : Shape) (w : World) (h : ¬ inRangeAt core f i) :
    shapeBody env core f out i s w
      = .ret .Error_IllegalParamVal out (w.emit (Event.readIndex i)) := by
  unfold inRangeAt at h
  unfold shapeBody
  by_cases h1 : f i < 0
  · simp [h1]
  · have h2 : (core.m_cFeatures : Int) ≤ f i := by omega
    simp [h1, h2]

theorem shapeBody_small (env : Env) (core : InteractionCore) (f : Nat → Int)
    (out : Option Dbl) (i : Nat) (s : Shape) (w : World) (h : inRangeAt core f i)
    (hb : binsAt core f i ≤ 1) :
    shapeBody env core f out i s w
      = .ret .Error_None (storeOut out dblZero) (w.emit (Event.readIndex i)) := by
  unfold inRangeAt at h
  unfold binsAt at hb
  unfold shapeBody
  have h1 : ¬ f i < 0 := by omega
  have h2 : ¬ (core.m_cFeatures : Int) ≤ f i := by omega
  simp [h1, h2, hb]

theorem shapeBody_overflow (env : Env) (core : InteractionCore) (f : Nat → Int)
    (out : Option Dbl) (i : Nat) (s : Shape) (w : World) (h : inRangeAt core f i)
    (hb : 2 ≤ binsAt core f i) (ho : SIZE_MAX env < s.cTensorBins * binsAt core f i) :
    shapeBody env core f out i s w
      = .ret .Error_None (storeOut out dblZero) (w.emit (Event.readIndex i)) := by
  unfold inRangeAt at h
  unfold binsAt at hb ho
  unfold shapeBody
  have h1 : ¬ f i < 0 := by omega
  have h2 : ¬ (core.m_cFeatures : Int) ≤ f i := by omega
  have h3 : ¬ (core.m_aFeatures (f i).toNat).m_cBins ≤ 1 := by omega
  simp [h1, h2, h3, IsMultiplyError, ho]

theorem shapeBody_next (env : Env) (core : InteractionCore) (f : Nat → Int)
    (out : Option Dbl) (i : Nat) (s : Shape) (w : World) (h : inRangeAt core f i)
    (hb : 2 ≤ binsAt core f i) (ho : s.cTensorBins * binsAt core f i ≤ SIZE_MAX env) :
    shapeBody env core f out i s w
      = .next (s.advance env (binsAt core f i) (f i).toNat)
          (w.emit (Event.readIndex i)) := by
  unfold Shape.advance
  have hm := mod_of_le_SIZE_MAX env ho
  unfold inRangeAt at h
  unfold binsAt at hb ho hm ⊢
  unfold shapeBody
  have h1 : ¬ f i < 0 := by omega
  have h2 : ¬ (core.m_cFeatures : Int) ≤ f i := by omega
  have h3 : ¬ (core.m_aFeatures (f i).toNat).m_cBins ≤ 1 := by omega
  have h4 : ¬ SIZE_MAX env < s.cTensorBins * (core.m_aFeatures (f i).toNat).m_cBins := by omega
  simp [h1, h2, h3, IsMultiplyError, h4, hm]

/-! ## The shape loop -/

theorem shapeLoop_zero (env : Env) (core : InteractionCore) (f : Nat → Int) (out : Option Dbl)
    (i : Nat) (s : Shape) (w : World) :
    shapeLoop env core f out 0 i s w = shapeBody env core f out i s w := rfl

theorem shapeLoop_succ (env : Env) (core : InteractionCore) (f : Nat → Int) (out : Option Dbl)
    (k i : Nat) (s : Shape) (w : World) :
    shapeLoop env core f out (k + 1) i s w =
      match shapeBody env core f out i s w with
      | .ret error out w => .ret error out w
      | .next s w => shapeLoop env core f out k (i + 1) s w := rfl

theorem binsProduct_pos (core : InteractionCore) (f : Nat → Int) :
    ∀ (c i : Nat), (∀ j, i ≤ j → j < i + c → 2 ≤ binsAt core f j) → 0 < binsProduct core f i c := by
  intro c
  induction c with
  | zero => intro i _; simp [binsProduct]
  | succ c ih =>
    intro i h
    have hb : 2 ≤ binsAt core f i := h i (le_refl i) (by omega)
    have hr : 0 < binsProduct core f (i + 1) c := ih (i + 1) (fun j h1 h2 => h j (by omega) (by omega))
    simp only [binsProduct]
    exact Nat.mul_pos (by omega) hr

/-- The product of a longer run of entries with at least 2 bins each is at least
the product of a shorter run from the same start. -/
theorem binsProduct_mono (core : InteractionCore) (f : Nat → Int) :
    ∀ (c i d : Nat), (∀ j, i ≤ j → j < i + (c + d) → 2 ≤ binsAt core f j) →
      binsProduct core f i c ≤ binsProduct core f i (c + d) := by
  intro c
  induction c with
  | zero =>
    intro i d h
    have := binsProduct_pos core f d i (fun j h1 h2 => h j h1 (by omega))
    simp only [binsProduct, Nat.zero_add]
    omega
  | succ c ih =>
    intro i d h
    have e : c + 1 + d = (c + d) + 1 := by omega
    rw [e]
    simp only [binsProduct]
    exact Nat.mul_le_mul_left _ (ih (i + 1) d (fun j h1 h2 => h j (by omega) (by omega)))

/-- If all entries of the run are in range and one of them has fewer than 2 bins,
the loop returns success with 0.0 after reads only. -/
theorem shapeLoop_small (env : Env) (core : InteractionCore) (f : Nat → Int) (out : Option Dbl) :
    ∀ (k i : Nat) (s : Shape) (w : World) (p : Nat),
      (∀ j, i ≤ j → j ≤ i + k → inRangeAt core f j) → i ≤ p → p ≤ i + k →
      binsAt core f p ≤ 1 →
      ∃ w2, shapeLoop env core f out k i s w = .ret .Error_None (storeOut out dblZero) w2
        ∧ onlyReads w w2 := by
  intro k
  induction k with
  | zero =>
    intro i s w p hr h1 h2 hb
    have hp : p = i := by omega
    subst hp
    exact ⟨_, by rw [shapeLoop_zero, shapeBody_small env core f out p s w (hr p h1 h2) hb],
      onlyReads_emit w p⟩
  | succ k ih =>
    intro i s w p hr h1 h2 hb
    have hi : inRangeAt core f i := hr i (le_refl i) (by omega)
    by_cases hs : binsAt core f i ≤ 1
    · exact ⟨_, by rw [shapeLoop_succ, shapeBody_small env core f out i s w hi hs],
        onlyReads_emit w i⟩
    · have hb2 : 2 ≤ binsAt core f i := by omega
      by_cases ho : SIZE_MAX env < s.cTensorBins * binsAt core f i
      · exact ⟨_, by rw [shapeLoop_succ, shapeBody_overflow env core f out i s w hi hb2 ho],
          onlyReads_emit w i⟩
      · have hne : p ≠ i := by intro e; subst e; omega
        rw [shapeLoop_succ, shapeBody_next env core f out i s w hi hb2 (by omega)]
        obtain ⟨w2, he, hw⟩ := ih (i + 1) (s.advance env (binsAt core f i) (f i).toNat)
          (w.emit (Event.readIndex i)) p
          (fun j a b => hr j (by omega) (by omega)) (by omega) (by omega) hb
        exact ⟨w2, he, onlyReads_emit_left i hw⟩

/-- If all entries of the run are in range with at least 2 bins and the exact
product does not fit in `size_t`, the loop returns success with 0.0 after reads
only. -/
theorem shapeLoop_overflow (env : Env) (core : InteractionCore) (f : Nat → Int) (out : Option Dbl) :
    ∀ (k i : Nat) (s : Shape) (w : World),
      (∀ j, i ≤ j → j ≤ i + k → inRangeAt core f j ∧ 2 ≤ binsAt core f j) →
      SIZE_MAX env < s.cTensorBins * binsProduct core f i (k + 1) →
      ∃ w2, shapeLoop env core f out k i s w = .ret .Error_None (storeOut out dblZero) w2
        ∧ onlyReads w w2 := by
  intro k
  induction k with
  | zero =>
    intro i s w hr ho
    obtain ⟨hi, hb⟩ := hr i (le_refl i) (by omega)
    simp only [binsProduct, Nat.mul_one] at ho
    exact ⟨_, by rw [shapeLoop_zero, shapeBody_overflow env core f out i s w hi hb ho],
      onlyReads_emit w i⟩
  | succ k ih =>
    intro i s w hr ho
    obtain ⟨hi, hb⟩ := hr i (le_refl i) (by omega)
    by_cases ho1 : SIZE_MAX env < s.cTensorBins * binsAt core f i
    · exact ⟨_, by rw [shapeLoop_succ, shapeBody_overflow env core f out i s w hi hb ho1],
        onlyReads_emit w i⟩
    · rw [shapeLoop_succ, shapeBody_next env core f out i s w hi hb (by omega)]
      have e : binsProduct core f i (k + 1 + 1)
          = binsAt core f i * binsProduct core f (i + 1) (k + 1) := rfl
      rw [e, ← Nat.mul_assoc] at ho
      obtain ⟨w2, he, hw⟩ := ih (i + 1) (s.advance env (binsAt core f i) (f i).toNat)
        (w.emit (Event.readIndex i))
        (fun j a b => hr j (by omega) (by omega)) ho
      exact ⟨w2, he, onlyReads_emit_left i hw⟩

/-- If all entries of the run are in range with at least 2 bins and the exact
product fits in `size_t`, the loop falls through with `cTensorBins` multiplied by
that product, after reads only. -/
theorem shapeLoop_exact (env : Env) (core : InteractionCore) (f : Nat → Int) (out : Option Dbl) :
    ∀ (k i : Nat) (s : Shape) (w : World),
      (∀ j, i ≤ j → j ≤ i + k → inRangeAt core f j ∧ 2 ≤ binsAt core f j) →
      s.cTensorBins * binsProduct core f i (k + 1) ≤ SIZE_MAX env →
      ∃ s2 w2, shapeLoop env core f out k i s w = .next s2 w2
        ∧ s2.cTensorBins = s.cTensorBins * binsProduct core f i (k + 1)
        ∧ onlyReads w w2 := by
  intro k
  induction k with
  | zero =>
    intro i s w hr ho
    obtain ⟨hi, hb⟩ := hr i (le_refl i) (by omega)
    simp only [binsProduct, Nat.mul_one] at ho ⊢
    exact ⟨_, _, by rw [shapeLoop_zero, shapeBody_next env core f out i s w hi hb ho], rfl,
      onlyReads_emit w i⟩
  | succ k ih =>
    intro i s w hr ho
    obtain ⟨hi, hb⟩ := hr i (le_refl i) (by omega)
    have e : binsProduct core f i (k + 1 + 1)
        = binsAt core f i * binsProduct core f (i + 1) (k + 1) := rfl
    rw [e, ← Nat.mul_assoc] at ho ⊢
    have hpos : 0 < binsProduct core f (i + 1) (k + 1) :=
      binsProduct_pos core f (k + 1) (i + 1) (fun j a b => (hr j (by omega) (by omega)).2)
    have ho1 : s.cTensorBins * binsAt core f i ≤ SIZE_MAX env :=
      le_trans (Nat.le_mul_of_pos_right _ hpos) ho
    rw [shapeLoop_succ, shapeBody_next env core f out i s w hi hb ho1]
    obtain ⟨s2, w2, he, hc, hw⟩ := ih (i + 1) (s.advance env (binsAt core f i) (f i).toNat)
      (w.emit (Event.readIndex i))
      (fun j a b => hr j (by omega) (by omega)) ho
    exact ⟨s2, w2, he, hc, onlyReads_emit_left i hw⟩

/-- If the first `m` entries of the run are in range with at least 2 bins and a
product that fits in `size_t`, and the next entry is out of range, the loop
returns `Error_IllegalParamVal` without writing, after reads only. -/
theorem shapeLoop_outOfRange (env : Env) (core : InteractionCore) (f : Nat → Int)
    (out : Option Dbl) :
    ∀ (m k i : Nat) (s : Shape) (w : World), m ≤ k →
      (∀ j, i ≤ j → j < i + m → inRangeAt core f j ∧ 2 ≤ binsAt core f j) →
      s.cTensorBins * binsProduct core f i m ≤ SIZE_MAX env →
      ¬ inRangeAt core f (i + m) →
      ∃ w2, shapeLoop env core f out k i s w = .ret .Error_IllegalParamVal out w2
        ∧ onlyReads w w2 := by
  intro m
  induction m with
  | zero =>
    intro k i s w _ _ _ hbad
    cases k with
    | zero =>
      exact ⟨_, by rw [shapeLoop_zero, shapeBody_outOfRange env core f out i s w hbad],
        onlyReads_emit w i⟩
    | succ k =>
      exact ⟨_, by rw [shapeLoop_succ, shapeBody_outOfRange env core f out i s w hbad],
        onlyReads_emit w i⟩
  | succ m ih =>
    intro k i s w hk hr ho hbad
    obtain ⟨k, rfl⟩ : ∃ k2, k = k2 + 1 := ⟨k - 1, by omega⟩
    obtain ⟨hi, hb⟩ := hr i (le_refl i) (by omega)
    have e : binsProduct core f i (m + 1)
        = binsAt core f i * binsProduct core f (i + 1) m := rfl
    rw [e, ← Nat.mul_assoc] at ho
    have hpos : 0 < binsProduct core f (i + 1) m :=
      binsProduct_pos core f m (i + 1) (fun j a b => (hr j (by omega) (by omega)).2)
    have ho1 : s.cTensorBins * binsAt core f i ≤ SIZE_MAX env :=
      le_trans (Nat.le_mul_of_pos_right _ hpos) ho
    rw [shapeLoop_succ, shapeBody_next env core f out i s w hi hb ho1]
    have hbad2 : ¬ inRangeAt core f (i + 1 + m) := by
      have e2 : i + 1 + m = i + (m + 1) := by omega
      rw [e2]; exact hbad
    obtain ⟨w2, he, hw⟩ := ih k (i + 1) (s.advance env (binsAt core f i) (f i).toNat)
      (w.emit (Event.readIndex i)) (by omega)
      (fun j a b => hr j (by omega) (by omega)) ho hbad2
    exact ⟨w2, he, onlyReads_emit_left i hw⟩

/-- A return inside one pass of the shape loop is either success with 0.0
written, or `Error_IllegalParamVal` with the output location untouched. -/
theorem shapeBody_ret (env : Env) (core : InteractionCore) (f : Nat → Int) (out : Option Dbl)
    (i : Nat) (s : Shape) (w : World) (error : ErrorEbm) (o : Option Dbl) (w2 : World)
    (h : shapeBody env core f out i s w = .ret error o w2) :
    (error = .Error_None ∧ o = storeOut out dblZero)
      ∨ (error = .Error_IllegalParamVal ∧ o = out) := by
  unfold shapeBody at h
  simp only at h
  split at h
  · injection h with h1 h2 h3; exact Or.inr ⟨h1.symm, h2.symm⟩
  · split at h
    · injection h with h1 h2 h3; exact Or.inr ⟨h1.symm, h2.symm⟩
    · split at h
      · injection h with h1 h2 h3; exact Or.inl ⟨h1.symm, h2.symm⟩
      · split at h
        · injection h with h1 h2 h3; exact Or.inl ⟨h1.symm, h2.symm⟩
        · exact ShapeOutcome.noConfusion h

/-- A return inside the shape loop is either success with 0.0 written, or
`Error_IllegalParamVal` with the output location untouched. -/
theorem shapeLoop_ret (env : Env) (core : InteractionCore) (f : Nat → Int) (out : Option Dbl) :
    ∀ (k i : Nat) (s : Shape) (w : World) (error : ErrorEbm) (o : Option Dbl) (w2 : World),
      shapeLoop env core f out k i s w = .ret error o w2 →
      (error = .Error_None ∧ o = storeOut out dblZero)
        ∨ (error = .Error_IllegalParamVal ∧ o = out) := by
  intro k
  induction k with
  | zero =>
    intro i s w error o w2 h
    exact shapeBody_ret env core f out i s w error o w2 h
  | succ k ih =>
    intro i s w error o w2 h
    rw [shapeLoop_succ] at h
    cases hb : shapeBody env core f out i s w with
    | ret e1 o1 w1 =>
      rw [hb] at h
      simp only at h
      injection h with h1 h2 h3
      subst h1; subst h2
      exact shapeBody_ret env core f out i s w e1 o1 w1 hb
    | next s1 w1 =>
      rw [hb] at h
      exact ih (i + 1) s1 w1 error o w2 h

/-! ## The paths of `CalcInteractionStrength` before the shape loop -/

theorem calc_invalid_handle (env : Env) (alloc : Nat → Nat → Bool) (h : Option InteractionShell)
    (w : World) (cd : Int) (fi : Option (Nat → Int)) (flags : Nat) (maxC minS : Int)
    (avg : Option Dbl) (hbad : GetInteractionShellFromHandle env h = none) :
    CalcInteractionStrength env alloc h w cd fi flags maxC minS avg
      = { error := .Error_IllegalParamVal,
          avgInteractionStrengthOut := storeOut avg env.k_illegalGainDouble,
          shell := h, world := w } := by
  unfold CalcInteractionStrength
  simp only [hbad]

theorem calc_zero_dimensions (env : Env) (alloc : Nat → Nat → Bool) (h : Option InteractionShell)
    (shell : InteractionShell) (w : World) (fi : Option (Nat → Int)) (flags : Nat)
    (maxC minS : Int) (avg : Option Dbl)
    (hvalid : GetInteractionShellFromHandle env h = some shell) :
    CalcInteractionStrength env alloc h w 0 fi flags maxC minS avg
      = { error := .Error_None, avgInteractionStrengthOut := storeOut avg dblZero,
          shell := some shell, world := w } := by
  unfold CalcInteractionStrength
  simp [hvalid, storeOut_storeOut]

theorem calc_negative_dimensions (env : Env) (alloc : Nat → Nat → Bool)
    (h : Option InteractionShell) (shell : InteractionShell) (w : World) (cd : Int)
    (fi : Option (Nat → Int)) (flags : Nat) (maxC minS : Int) (avg : Option Dbl)
    (hvalid : GetInteractionShellFromHandle env h = some shell) (hneg : cd < 0) :
    CalcInteractionStrength env alloc h w cd fi flags maxC minS avg
      = { error := .Error_IllegalParamVal,
          avgInteractionStrengthOut := storeOut avg env.k_illegalGainDouble,
          shell := some shell, world := w } := by
  unfold CalcInteractionStrength
  have h1 : cd ≤ 0 := by omega
  have h2 : ¬ 0 = cd := by omega
  simp [hvalid, h1, h2]

theorem calc_null_indexes (env : Env) (alloc : Nat → Nat → Bool)
    (h : Option InteractionShell) (shell : InteractionShell) (w : World) (cd : Int)
    (flags : Nat) (maxC minS : Int) (avg : Option Dbl)
    (hvalid : GetInteractionShellFromHandle env h = some shell) (hpos : 0 < cd) :
    CalcInteractionStrength env alloc h w cd none flags maxC minS avg
      = { error := .Error_IllegalParamVal,
          avgInteractionStrengthOut := storeOut avg env.k_illegalGainDouble,
          shell := some shell, world := w } := by
  unfold CalcInteractionStrength
  have h1 : ¬ cd ≤ 0 := by omega
  simp [hvalid, h1]

theorem calc_too_many_dimensions (env : Env) (alloc : Nat → Nat → Bool)
    (h : Option InteractionShell) (shell : InteractionShell) (w : World) (cd : Int)
    (fi : Nat → Int) (flags : Nat) (maxC minS : Int) (avg : Option Dbl)
    (hvalid : GetInteractionShellFromHandle env h = some shell)
    (hbig : (env.k_cDimensionsMax : Int) < cd) :
    CalcInteractionStrength env alloc h w cd (some fi) flags maxC minS avg
      = { error := .Error_OutOfMemory,
          avgInteractionStrengthOut := storeOut avg env.k_illegalGainDouble,
          shell := some shell, world := w } := by
  unfold CalcInteractionStrength
  have h1 : ¬ cd ≤ 0 := by omega
  simp [hvalid, h1, hbig]

theorem calc_degenerate (env : Env) (alloc : Nat → Nat → Bool)
    (h : Option InteractionShell) (shell : InteractionShell) (w : World) (n : Nat)
    (fi : Nat → Int) (flags : Nat) (maxC minS : Int) (avg : Option Dbl)
    (hvalid : GetInteractionShellFromHandle env h = some shell)
    (h1 : 1 ≤ n) (h2 : n ≤ env.k_cDimensionsMax)
    (hdeg : shell.m_pInteractionCore.m_cClasses = 0 ∨ shell.m_pInteractionCore.m_cClasses = 1
      ∨ shell.m_pInteractionCore.m_cSamples = 0) :
    CalcInteractionStrength env alloc h w (n : Int) (some fi) flags maxC minS avg
      = { error := .Error_None, avgInteractionStrengthOut := storeOut avg dblZero,
          shell := some shell, world := w } := by
  unfold CalcInteractionStrength
  have a1 : ¬ (n : Int) ≤ 0 := by omega
  have a2 : ¬ (env.k_cDimensionsMax : Int) < (n : Int) := by omega
  by_cases hc : 0 = shell.m_pInteractionCore.m_cClasses ∨ 1 = shell.m_pInteractionCore.m_cClasses
  · simp [hvalid, a1, a2, hc, storeOut_storeOut]
  · have hs : 0 = shell.m_pInteractionCore.m_cSamples := by
      rcases hdeg with h0 | h0 | h0
      · exact absurd (Or.inl h0.symm) hc
      · exact absurd (Or.inr h0.symm) hc
      · exact h0.symm
    simp [hvalid, a1, a2, hc, hs, storeOut_storeOut]

theorem calc_run (env : Env) (alloc : Nat → Nat → Bool)
    (h : Option InteractionShell) (shell : InteractionShell) (w : World) (n : Nat)
    (fi : Nat → Int) (flags : Nat) (maxC minS : Int) (avg : Option Dbl)
    (hvalid : GetInteractionShellFromHandle env h = some shell)
    (h1 : 1 ≤ n) (h2 : n ≤ env.k_cDimensionsMax)
    (hc0 : shell.m_pInteractionCore.m_cClasses ≠ 0) (hc1 : shell.m_pInteractionCore.m_cClasses ≠ 1)
    (hs : shell.m_pInteractionCore.m_cSamples ≠ 0) :
    CalcInteractionStrength env alloc h w (n : Int) (some fi) flags maxC minS avg
      = afterShapeLoop env alloc shell shell.m_pInteractionCore fi flags
          (cCardinalityMaxOf env maxC) (cSamplesLeafMinOf env minS) n
          (storeOut avg env.k_illegalGainDouble)
          (shapeLoop env shell.m_pInteractionCore fi (storeOut avg env.k_illegalGainDouble)
            (n - 1) 0
            { cAuxillaryBinsForBuildFastTotals := 0, cTensorBins := 1, acBins := [],
              aiFeatures := [] } w) := by
  unfold CalcInteractionStrength
  have a1 : ¬ (n : Int) ≤ 0 := by omega
  have a2 : ¬ (env.k_cDimensionsMax : Int) < (n : Int) := by omega
  have a3 : ¬ (0 = shell.m_pInteractionCore.m_cClasses ∨ 1 = shell.m_pInteractionCore.m_cClasses) := by
    intro hh
    rcases hh with h0 | h0
    · exact hc0 h0.symm
    · exact hc1 h0.symm
  have a4 : ¬ 0 = shell.m_pInteractionCore.m_cSamples := fun e => hs e.symm
  simp [hvalid, a1, a2, a3, a4]

/-! ## The clamp -/

theorem Dbl.le_zero_zero : Dbl.le dblZero dblZero = true := by decide

theorem Dbl.le_zero_max : Dbl.le dblZero dblMax = true := by decide

/-- A datum that is at most the largest finite value is neither NaN nor
positive infinity. -/
theorem Dbl.finite_of_le_max (g : Dbl) (h : Dbl.le g dblMax = true) :
    g ≠ Dbl.nan ∧ g ≠ dblInfinity := by
  constructor
  · intro e; subst e; revert h; decide
  · intro e; subst e; revert h; decide

/-- A datum that is at most the largest finite value and not below zero is at
least zero. -/
theorem Dbl.nonneg_of_not_lt (g : Dbl) (h1 : Dbl.le g dblMax = true)
    (h2 : Dbl.lt g dblZero = false) : Dbl.le dblZero g = true := by
  cases g with
  | nan => revert h1; decide
  | inf neg =>
    cases neg
    · revert h1; decide
    · revert h2; decide
  | fin neg m =>
    cases neg
    · simp [Dbl.le, Dbl.key, dblZero]
    · simp only [Dbl.lt, Dbl.key, dblZero, decide_eq_false_iff_not] at h2
      simp only [Dbl.le, Dbl.key, dblZero, decide_eq_true_eq]
      omega

/-- The clamp yields the sentinel or a finite value that is at least zero. -/
theorem clampGain_range (env : Env) (g : Dbl) :
    clampGain env g = env.k_illegalGainDouble
      ∨ (Dbl.le dblZero (clampGain env g) = true ∧ Dbl.le (clampGain env g) dblMax = true) := by
  unfold clampGain
  by_cases h1 : Dbl.le g dblMax = true
  · by_cases h2 : Dbl.lt g dblZero = true
    · by_cases h3 : Dbl.le dblLowest g = true
      · simp [h1, h2, h3, Dbl.le_zero_zero, Dbl.le_zero_max]
      · simp [h1, h2, h3]
    · have h2f : Dbl.lt g dblZero = false := by simpa using h2
      have := Dbl.nonneg_of_not_lt g h1 h2f
      simp [h1, h2f, this]
  · simp [h1]

/-! ## What follows the shape loop -/

/-- Everything after the ceiling check either leaves the output location as it
was, or returns success with a clamped gain stored. -/
theorem evaluateTensor_out (env : Env) (alloc : Nat → Nat → Bool) (shell : InteractionShell)
    (core : InteractionCore) (fi : Nat → Int) (flags : Nat) (cSamplesLeafMin cDimensions : Nat)
    (out : Option Dbl) (s : Shape) (w : World) :
    (evaluateTensor env alloc shell core fi flags cSamplesLeafMin cDimensions out s w).avgInteractionStrengthOut
        = out
      ∨ ((evaluateTensor env alloc shell core fi flags cSamplesLeafMin cDimensions out s w).error
            = .Error_None
          ∧ ∃ g, (evaluateTensor env alloc shell core fi flags cSamplesLeafMin cDimensions out s w).avgInteractionStrengthOut
            = storeOut out (clampGain env g)) := by
  unfold evaluateTensor
  simp only
  split
  · exact Or.inl rfl
  · split
    · exact Or.inl rfl
    · split
      · exact Or.inl rfl
      · split
        · exact Or.inl rfl
        · split
          · exact Or.inr ⟨rfl, _, rfl⟩
          · exact Or.inl rfl

/-- The output location after a call holds what was stored last: the sentinel,
0.0, or a clamped gain; and it is null exactly when it was null before. -/
theorem calc_out_cases (env : Env) (alloc : Nat → Nat → Bool) (h : Option InteractionShell)
    (w : World) (cd : Int) (fi : Option (Nat → Int)) (flags : Nat) (maxC minS : Int)
    (avg : Option Dbl) :
    ∃ v, (v = env.k_illegalGainDouble ∨ v = dblZero ∨ ∃ g, v = clampGain env g)
      ∧ (CalcInteractionStrength env alloc h w cd fi flags maxC minS avg).avgInteractionStrengthOut
          = storeOut avg v := by
  cases hg : GetInteractionShellFromHandle env h with
  | none => exact ⟨_, Or.inl rfl, by rw [calc_invalid_handle _ _ _ _ _ _ _ _ _ _ hg]⟩
  | some shell =>
    by_cases hneg : cd < 0
    · exact ⟨_, Or.inl rfl, by rw [calc_negative_dimensions _ _ _ _ _ _ _ _ _ _ _ hg hneg]⟩
    by_cases hzero : cd = 0
    · subst hzero
      exact ⟨_, Or.inr (Or.inl rfl), by rw [calc_zero_dimensions _ _ _ _ _ _ _ _ _ _ hg]⟩
    have hpos : 0 < cd := by omega
    cases fi with
    | none => exact ⟨_, Or.inl rfl, by rw [calc_null_indexes _ _ _ _ _ _ _ _ _ _ hg hpos]⟩
    | some fi2 =>
      by_cases hbig : (env.k_cDimensionsMax : Int) < cd
      · exact ⟨_, Or.inl rfl, by rw [calc_too_many_dimensions _ _ _ _ _ _ _ _ _ _ _ hg hbig]⟩
      obtain ⟨n, rfl⟩ : ∃ n : Nat, cd = (n : Int) := ⟨cd.toNat, by omega⟩
      have h1 : 1 ≤ n := by omega
      have h2 : n ≤ env.k_cDimensionsMax := by omega
      by_cases hdeg : shell.m_pInteractionCore.m_cClasses = 0
          ∨ shell.m_pInteractionCore.m_cClasses = 1 ∨ shell.m_pInteractionCore.m_cSamples = 0
      · exact ⟨_, Or.inr (Or.inl rfl), by
          rw [calc_degenerate _ _ _ _ _ _ _ _ _ _ _ hg h1 h2 hdeg]⟩
      have hc0 : shell.m_pInteractionCore.m_cClasses ≠ 0 := fun e => hdeg (Or.inl e)
      have hc1 : shell.m_pInteractionCore.m_cClasses ≠ 1 := fun e => hdeg (Or.inr (Or.inl e))
      have hs : shell.m_pInteractionCore.m_cSamples ≠ 0 := fun e => hdeg (Or.inr (Or.inr e))
      rw [calc_run _ _ _ _ _ _ _ _ _ _ _ hg h1 h2 hc0 hc1 hs]
      generalize hso : shapeLoop env shell.m_pInteractionCore fi2
        (storeOut avg env.k_illegalGainDouble) (n - 1) 0
        { cAuxillaryBinsForBuildFastTotals := 0, cTensorBins := 1, acBins := [],
          aiFeatures := [] } w = so
      cases so with
      | ret error o w2 =>
        rcases shapeLoop_ret _ _ _ _ _ _ _ _ _ _ _ hso with ⟨_, ho⟩ | ⟨_, ho⟩
        · exact ⟨_, Or.inr (Or.inl rfl), by
            simp only [afterShapeLoop, ho, storeOut_storeOut]⟩
        · exact ⟨_, Or.inl rfl, by simp only [afterShapeLoop, ho]⟩
      | next s2 w2 =>
        simp only [afterShapeLoop]
        split
        · exact ⟨_, Or.inr (Or.inl rfl), storeOut_storeOut _ _ _⟩
        · rcases evaluateTensor_out env alloc shell shell.m_pInteractionCore fi2 flags
            (cSamplesLeafMinOf env minS) n
            (storeOut avg env.k_illegalGainDouble) s2 w2 with he | ⟨_, g, he⟩
          · exact ⟨_, Or.inl rfl, he⟩
          · exact ⟨_, Or.inr (Or.inr ⟨g, rfl⟩), by rw [he, storeOut_storeOut]⟩

/-! ## The trace only grows -/

theorem emit_mem (w : World) (e0 e : Event) (h : e ∈ w.trace ∨ e = e0) : e ∈ (w.emit e0).trace := by
  unfold World.emit
  simp only [List.mem_append, List.mem_singleton]
  exact h

theorem AlignedAlloc_mem (alloc : Nat → Nat → Bool) (w : World) (cBytes : Nat) (e : Event)
    (h : e ∈ w.trace) : e ∈ (AlignedAlloc alloc w cBytes).2.trace := by
  unfold AlignedAlloc
  simp only [List.mem_append]
  exact Or.inl h

theorem GetInteractionMainBins_mem (env : Env) (alloc : Nat → Nat → Bool) (shell : InteractionShell)
    (w : World) (cBytesPerMainBin cMainBins : Nat) (e : Event)
    (h : e ∈ w.trace ∨ e = Event.getMainBins cBytesPerMainBin cMainBins) :
    e ∈ (GetInteractionMainBins env alloc shell w cBytesPerMainBin cMainBins).2.2.trace := by
  have h0 := emit_mem w (Event.getMainBins cBytesPerMainBin cMainBins) e h
  unfold GetInteractionMainBins
  simp only
  split
  · have h1 := emit_mem _ (Event.free shell.m_aInteractionMainBins) e (Or.inl h0)
    split
    · exact h1
    · split
      · exact h1
      · have h2 := AlignedAlloc_mem alloc _
          (cBytesPerMainBin * (cMainBins + ((cMainBins >>> 2) + 16))) e h1
        split
        · rename_i heq; rw [heq] at h2; exact h2
        · rename_i heq; rw [heq] at h2; exact h2
  · exact h0

theorem GetInteractionFastBinsTemp_mem (env : Env) (alloc : Nat → Nat → Bool)
    (shell : InteractionShell) (w : World) (cBytes : Nat) (e : Event)
    (h : e ∈ w.trace ∨ e = Event.getFastBins cBytes) :
    e ∈ (GetInteractionFastBinsTemp env alloc shell w cBytes).2.2.trace := by
  have h0 := emit_mem w (Event.getFastBins cBytes) e h
  unfold GetInteractionFastBinsTemp
  simp only
  split
  · have h1 := emit_mem _ (Event.free shell.m_aInteractionFastBinsTemp) e (Or.inl h0)
    split
    · exact h1
    · have h2 := AlignedAlloc_mem alloc _ (cBytes + cBytes) e h1
      split
      · rename_i heq; rw [heq] at h2; exact h2
      · rename_i heq; rw [heq] at h2; exact h2
  · exact h0

theorem packLoop_mem (env : Env) (core : InteractionCore) (subset : DataSubsetInteraction)
    (fi : Nat → Int) (e : Event) :
    ∀ (k i : Nat) (ac : List Nat) (w : World), e ∈ w.trace →
      e ∈ (packLoop env core subset fi k i ac w).2.trace := by
  intro k
  induction k with
  | zero =>
    intro i ac w h
    exact emit_mem w _ e (Or.inl h)
  | succ k ih =>
    intro i ac w h
    exact ih (i + 1) _ _ (emit_mem w (Event.readIndex i) e (Or.inl h))

theorem subsetBody_mem (env : Env) (alloc : Nat → Nat → Bool) (core : InteractionCore)
    (fi : Nat → Int) (cDimensions cScores : Nat) (s : Shape) (iSubset : Nat)
    (subset : DataSubsetInteraction) (shell : InteractionShell) (w : World) (e : Event)
    (h : e ∈ w.trace) :
    e ∈ (subsetBody env alloc core fi cDimensions cScores s iSubset subset shell w).world.trace := by
  unfold subsetBody
  simp only
  by_cases hm : IsMultiplyError env (cBytesPerFastBinOf env subset core.m_bHessian cScores)
      s.cTensorBins = true
  · rw [if_pos hm]; exact h
  · have h1 := GetInteractionFastBinsTemp_mem env alloc shell w
      ((cBytesPerFastBinOf env subset core.m_bHessian cScores * s.cTensorBins) % 2 ^ env.cBitsSizeT)
      e (Or.inl h)
    rw [if_neg hm]
    generalize GetInteractionFastBinsTemp env alloc shell w
      ((cBytesPerFastBinOf env subset core.m_bHessian cScores * s.cTensorBins) % 2 ^ env.cBitsSizeT)
      = r at h1 ⊢
    obtain ⟨o, shell2, w2⟩ := r
    cases o with
    | none => exact h1
    | some aFastBins =>
      have h2 := packLoop_mem env core subset fi e (cDimensions - 1) 0 []
        (w2.emit (Event.zeroFast iSubset (cBytesPerFastBinOf env subset core.m_bHessian cScores)
          s.cTensorBins)) (emit_mem _ _ e (Or.inl h1))
      simp only
      split
      · exact emit_mem _ _ e (Or.inl h2)
      · exact emit_mem _ _ e (Or.inl (emit_mem _ _ e (Or.inl h2)))

theorem subsetLoop_mem (env : Env) (alloc : Nat → Nat → Bool) (core : InteractionCore)
    (fi : Nat → Int) (cDimensions cScores : Nat) (s : Shape) (e : Event) :
    ∀ (others : List DataSubsetInteraction) (iSubset : Nat) (subset : DataSubsetInteraction)
      (shell : InteractionShell) (w : World), e ∈ w.trace →
      e ∈ (subsetLoop env alloc core fi cDimensions cScores s iSubset subset others shell w).world.trace := by
  intro others
  induction others with
  | nil =>
    intro iSubset subset shell w h
    exact subsetBody_mem env alloc core fi cDimensions cScores s iSubset subset shell w e h
  | cons following others ih =>
    intro iSubset subset shell w h
    have hb := subsetBody_mem env alloc core fi cDimensions cScores s iSubset subset shell w e h
    unfold subsetLoop
    cases hbody : subsetBody env alloc core fi cDimensions cScores s iSubset subset shell w with
    | ret error shell2 w2 =>
      rw [hbody] at hb
      exact hb
    | next shell2 w2 =>
      rw [hbody] at hb
      exact ih (iSubset + 1) following shell2 w2 hb

/-- Everything after the ceiling check either returns `Error_OutOfMemory` or has
asked the shell for the main buffer. -/
theorem evaluateTensor_requests (env : Env) (alloc : Nat → Nat → Bool) (shell : InteractionShell)
    (core : InteractionCore) (fi : Nat → Int) (flags : Nat) (cSamplesLeafMin cDimensions : Nat)
    (out : Option Dbl) (s : Shape) (w : World) :
    (evaluateTensor env alloc shell core fi flags cSamplesLeafMin cDimensions out s w).error
        = .Error_OutOfMemory
      ∨ ∃ b c, Event.getMainBins b c
          ∈ (evaluateTensor env alloc shell core fi flags cSamplesLeafMin cDimensions out s w).world.trace := by
  unfold evaluateTensor
  simp only
  generalize env.GetBinSize env.sizeofFloatMain env.sizeofUIntMain core.m_bHessian
    (env.GetCountScores core.m_cClasses) = cBytesPerMainBin
  generalize (s.cTensorBins + EbmMax s.cAuxillaryBinsForBuildFastTotals 4) % 2 ^ env.cBitsSizeT
    = cTotalMainBins
  by_cases ha : IsAddError env s.cTensorBins (EbmMax s.cAuxillaryBinsForBuildFastTotals 4) = true
  · rw [if_pos ha]; exact Or.inl rfl
  rw [if_neg ha]
  by_cases hm : IsMultiplyError env cBytesPerMainBin cTotalMainBins = true
  · rw [if_pos hm]; exact Or.inl rfl
  rw [if_neg hm]
  have h1 := GetInteractionMainBins_mem env alloc shell w cBytesPerMainBin cTotalMainBins
    _ (Or.inr rfl)
  generalize GetInteractionMainBins env alloc shell w cBytesPerMainBin cTotalMainBins = r at h1 ⊢
  obtain ⟨o, shell2, w2⟩ := r
  cases o with
  | none => exact Or.inl rfl
  | some aMainBins =>
    right
    refine ⟨cBytesPerMainBin, cTotalMainBins, ?_⟩
    have h2 := subsetLoop_mem env alloc core fi cDimensions (env.GetCountScores core.m_cClasses) s
      _ core.m_aSubsetsRest 0 core.m_subsetFirst shell2
      (w2.emit (Event.zeroMain ((cBytesPerMainBin * s.cTensorBins) % 2 ^ env.cBitsSizeT)))
      (emit_mem _ _ _ (Or.inl h1))
    simp only
    generalize subsetLoop env alloc core fi cDimensions (env.GetCountScores core.m_cClasses) s 0
      core.m_subsetFirst core.m_aSubsetsRest shell2
      (w2.emit (Event.zeroMain ((cBytesPerMainBin * s.cTensorBins) % 2 ^ env.cBitsSizeT)))
      = so at h2 ⊢
    cases so with
    | ret error shell3 w3 => exact h2
    | next shell3 w3 =>
      simp only
      split
      · exact emit_mem _ _ _ (Or.inl (emit_mem _ _ _ (Or.inl (emit_mem _ _ _ (Or.inl h2)))))
      · exact emit_mem _ _ _ (Or.inl (emit_mem _ _ _ (Or.inl h2)))

/-! ## The ceiling -/

theorem toSizeT_of_representable (env : Env) (v : Int) (h0 : 0 ≤ v)
    (h1 : v ≤ (SIZE_MAX env : Int)) : toSizeT env v = v.toNat := by
  unfold toSizeT
  have hlt : v < ((2 ^ env.cBitsSizeT : Nat) : Int) := by
    have := SIZE_MAX_lt env
    omega
  rw [Int.emod_eq_of_lt h0 hlt]

theorem cCardinalityMaxOf_ceiling (env : Env) (maxC : Int) (hpos : 0 < maxC)
    (hrep : maxC ≤ (SIZE_MAX env : Int)) : cCardinalityMaxOf env maxC = maxC.toNat := by
  unfold cCardinalityMaxOf IsConvertErrorSizeT
  have a1 : 0 ≤ maxC := by omega
  have a2 : ¬ 0 = maxC := by omega
  have a3 : ¬ (maxC < 0 ∨ (SIZE_MAX env : Int) < maxC) := by omega
  simp [a1, a2, a3, toSizeT_of_representable env maxC a1 hrep]

theorem cCardinalityMaxOf_off (env : Env) : cCardinalityMaxOf env 0 = SIZE_MAX env := by
  simp [cCardinalityMaxOf]

/-- A positive ceiling below a cardinality that fits in `size_t` is the effective
ceiling, and it is below that cardinality. -/
theorem cCardinalityMaxOf_lt (env : Env) (maxC : Int) (c : Nat) (hpos : 0 < maxC)
    (hlt : maxC < (c : Int)) (hfit : c ≤ SIZE_MAX env) : cCardinalityMaxOf env maxC < c := by
  rw [cCardinalityMaxOf_ceiling env maxC hpos (by omega)]
  omega

/-! ## Short-circuits of the whole call -/

/-- When the shape loop returns success with 0.0, or falls through with a
cardinality above the effective ceiling, after reads only, the call returns
success with 0.0, leaves the shell as it was and has only read indexes. The
call does the same, reading nothing, for a degenerate model. -/
theorem calc_zero_of_shape (env : Env) (alloc : Nat → Nat → Bool)
    (h : Option InteractionShell) (shell : InteractionShell) (w : World) (n : Nat)
    (fi : Nat → Int) (flags : Nat) (maxC minS : Int) (avg : Option Dbl)
    (hvalid : GetInteractionShellFromHandle env h = some shell)
    (h1 : 1 ≤ n) (h2 : n ≤ env.k_cDimensionsMax)
    (hz : ∃ w2, onlyReads w w2 ∧
      (shapeLoop env shell.m_pInteractionCore fi (storeOut avg env.k_illegalGainDouble) (n - 1) 0
          { cAuxillaryBinsForBuildFastTotals := 0, cTensorBins := 1, acBins := [],
            aiFeatures := [] } w
          = .ret .Error_None (storeOut (storeOut avg env.k_illegalGainDouble) dblZero) w2
        ∨ ∃ s2, shapeLoop env shell.m_pInteractionCore fi (storeOut avg env.k_illegalGainDouble)
            (n - 1) 0
            { cAuxillaryBinsForBuildFastTotals := 0, cTensorBins := 1, acBins := [],
              aiFeatures := [] } w = .next s2 w2
          ∧ cCardinalityMaxOf env maxC < s2.cTensorBins)) :
    (CalcInteractionStrength env alloc h w (n : Int) (some fi) flags maxC minS avg).error
        = .Error_None
      ∧ (CalcInteractionStrength env alloc h w (n : Int) (some fi) flags maxC minS avg).avgInteractionStrengthOut
        = storeOut avg dblZero
      ∧ (CalcInteractionStrength env alloc h w (n : Int) (some fi) flags maxC minS avg).shell
        = some shell
      ∧ onlyReads w
          (CalcInteractionStrength env alloc h w (n : Int) (some fi) flags maxC minS avg).world := by
  by_cases hdeg : shell.m_pInteractionCore.m_cClasses = 0
      ∨ shell.m_pInteractionCore.m_cClasses = 1 ∨ shell.m_pInteractionCore.m_cSamples = 0
  · rw [calc_degenerate _ _ _ _ _ _ _ _ _ _ _ hvalid h1 h2 hdeg]
    exact ⟨rfl, rfl, rfl, onlyReads_refl w⟩
  have hc0 : shell.m_pInteractionCore.m_cClasses ≠ 0 := fun e => hdeg (Or.inl e)
  have hc1 : shell.m_pInteractionCore.m_cClasses ≠ 1 := fun e => hdeg (Or.inr (Or.inl e))
  have hs : shell.m_pInteractionCore.m_cSamples ≠ 0 := fun e => hdeg (Or.inr (Or.inr e))
  rw [calc_run _ _ _ _ _ _ _ _ _ _ _ hvalid h1 h2 hc0 hc1 hs]
  obtain ⟨w2, hw, hso | ⟨s2, hso, hceil⟩⟩ := hz
  · rw [hso]
    exact ⟨rfl, storeOut_storeOut _ _ _, rfl, hw⟩
  · rw [hso]
    have e : afterShapeLoop env alloc shell shell.m_pInteractionCore fi flags
        (cCardinalityMaxOf env maxC) (cSamplesLeafMinOf env minS) n
        (storeOut avg env.k_illegalGainDouble) (ShapeOutcome.next s2 w2)
        = { error := .Error_None,
            avgInteractionStrengthOut := storeOut (storeOut avg env.k_illegalGainDouble) dblZero,
            shell := some shell, world := w2 } := by
      simp only [afterShapeLoop, if_pos hceil]
    rw [e]
    exact ⟨rfl, storeOut_storeOut _ _ _, rfl, hw⟩

/-- When the shape loop falls through with a cardinality that is not above the
effective ceiling, the call is what follows the ceiling check. -/
theorem calc_proceeds (env : Env) (alloc : Nat → Nat → Bool)
    (h : Option InteractionShell) (shell : InteractionShell) (w : World) (n : Nat)
    (fi : Nat → Int) (flags : Nat) (maxC minS : Int) (avg : Option Dbl)
    (hvalid : GetInteractionShellFromHandle env h = some shell)
    (h1 : 1 ≤ n) (h2 : n ≤ env.k_cDimensionsMax)
    (hc0 : shell.m_pInteractionCore.m_cClasses ≠ 0) (hc1 : shell.m_pInteractionCore.m_cClasses ≠ 1)
    (hs : shell.m_pInteractionCore.m_cSamples ≠ 0)
    (hr : ∀ i, i < n → inRangeAt shell.m_pInteractionCore fi i ∧ 2 ≤ binsAt shell.m_pInteractionCore fi i)
    (hfit : binsProduct shell.m_pInteractionCore fi 0 n ≤ SIZE_MAX env)
    (hceil : binsProduct shell.m_pInteractionCore fi 0 n ≤ cCardinalityMaxOf env maxC) :
    ∃ s2 w2, s2.cTensorBins = binsProduct shell.m_pInteractionCore fi 0 n ∧ onlyReads w w2
      ∧ CalcInteractionStrength env alloc h w (n : Int) (some fi) flags maxC minS avg
        = evaluateTensor env alloc shell shell.m_pInteractionCore fi flags
            (cSamplesLeafMinOf env minS) n (storeOut avg env.k_illegalGainDouble) s2 w2 := by
  obtain ⟨k, rfl⟩ : ∃ k, n = k + 1 := ⟨n - 1, by omega⟩
  obtain ⟨s2, w2, hso, hc, hw⟩ := shapeLoop_exact env shell.m_pInteractionCore fi
    (storeOut avg env.k_illegalGainDouble) k 0
    { cAuxillaryBinsForBuildFastTotals := 0, cTensorBins := 1, acBins := [], aiFeatures := [] } w
    (fun j _ b => hr j (by omega)) (by simpa using hfit)
  have hc2 : s2.cTensorBins = binsProduct shell.m_pInteractionCore fi 0 (k + 1) := by
    rw [hc]; simp
  refine ⟨s2, w2, hc2, hw, ?_⟩
  rw [calc_run _ _ _ _ _ _ _ _ _ _ _ hvalid h1 h2 hc0 hc1 hs]
  have e : k + 1 - 1 = k := rfl
  rw [e, hso]
  have hn : ¬ cCardinalityMaxOf env maxC < s2.cTensorBins := by rw [hc2]; omega
  simp only [afterShapeLoop, if_neg hn]

/-! ## The claims -/

/-- C1: whenever `CalcInteractionStrength` is called with a non-null output
location, the value it leaves there is the sentinel `k_illegalGainDouble` or a
value that is at least 0.0 and at most the largest finite double, hence not
NaN, not positive infinity and not negative. This holds for every returned
code, so in particular for `Error_None`, for every raw gain the searcher
returns, and for every weight, every scale constant and every result of the
divisions and multiplications. -/
theorem C1_strength_is_sentinel_or_nonnegative (env : Env) (alloc : Nat → Nat → Bool)
    (h : Option InteractionShell) (w : World) (cd : Int) (fi : Option (Nat → Int)) (flags : Nat)
    (maxC minS : Int) (v0 : Dbl) :
    ∃ v, (CalcInteractionStrength env alloc h w cd fi flags maxC minS (some v0)).avgInteractionStrengthOut
          = some v
      ∧ (v = env.k_illegalGainDouble
          ∨ (Dbl.le dblZero v = true ∧ Dbl.le v dblMax = true ∧ v ≠ Dbl.nan ∧ v ≠ dblInfinity)) := by
  obtain ⟨v, hv, he⟩ := calc_out_cases env alloc h w cd fi flags maxC minS (some v0)
  refine ⟨v, he, ?_⟩
  rcases hv with hv | hv | ⟨g, hv⟩
  · exact Or.inl hv
  · subst hv
    exact Or.inr ⟨Dbl.le_zero_zero, Dbl.le_zero_max, Dbl.finite_of_le_max _ Dbl.le_zero_max⟩
  · subst hv
    rcases clampGain_range env g with hc | ⟨hc1, hc2⟩
    · exact Or.inl hc
    · exact Or.inr ⟨hc1, hc2, Dbl.finite_of_le_max _ hc2⟩

/-- C2: for a valid handle and a tuple of 1 to `k_cDimensionsMax` in-range indexes
of which one, at any position `p`, refers to a feature with fewer than 2 bins,
`CalcInteractionStrength` returns `Error_None` and stores 0.0, whatever the bin
counts of the other features are; the shell is left as it was and nothing but
indexes was read. (The class and sample counts of the model play no part.) -/
theorem C2_feature_with_fewer_than_two_bins (env : Env) (alloc : Nat → Nat → Bool)
    (h : Option InteractionShell) (shell : InteractionShell) (w : World) (n : Nat)
    (fi : Nat → Int) (flags : Nat) (maxC minS : Int) (avg : Option Dbl) (p : Nat)
    (hvalid : GetInteractionShellFromHandle env h = some shell)
    (h1 : 1 ≤ n) (h2 : n ≤ env.k_cDimensionsMax)
    (hr : ∀ i, i < n → inRangeAt shell.m_pInteractionCore fi i)
    (hp : p < n) (hb : binsAt shell.m_pInteractionCore fi p < 2) :
    (CalcInteractionStrength env alloc h w (n : Int) (some fi) flags maxC minS avg).error = .Error_None
      ∧ (CalcInteractionStrength env alloc h w (n : Int) (some fi) flags maxC minS avg).avgInteractionStrengthOut
          = storeOut avg dblZero
      ∧ (CalcInteractionStrength env alloc h w (n : Int) (some fi) flags maxC minS avg).shell = some shell
      ∧ onlyReads w (CalcInteractionStrength env alloc h w (n : Int) (some fi) flags maxC minS avg).world := by
  apply calc_zero_of_shape env alloc h shell w n fi flags maxC minS avg hvalid h1 h2
  obtain ⟨w2, hso, hw⟩ := shapeLoop_small env shell.m_pInteractionCore fi
    (storeOut avg env.k_illegalGainDouble) (n - 1) 0
    { cAuxillaryBinsForBuildFastTotals := 0, cTensorBins := 1, acBins := [], aiFeatures := [] } w p
    (fun j _ b => hr j (by omega)) (Nat.zero_le p) (by omega) (by omega)
  exact ⟨w2, hw, Or.inl hso⟩

/-- C3: for a valid handle and a tuple of 1 to `k_cDimensionsMax` in-range features
with at least 2 bins each whose exact bin-count product does not fit in
`size_t`, `CalcInteractionStrength` returns `Error_None` (not an error code) and
stores 0.0; up to its return it has only read indexes, so no buffer was
requested from the shell with a wrapped size, and the shell is as it was. -/
theorem C3_cardinality_overflow (env : Env) (alloc : Nat → Nat → Bool)
    (h : Option InteractionShell) (shell : InteractionShell) (w : World) (n : Nat)
    (fi : Nat → Int) (flags : Nat) (maxC minS : Int) (avg : Option Dbl)
    (hvalid : GetInteractionShellFromHandle env h = some shell)
    (h1 : 1 ≤ n) (h2 : n ≤ env.k_cDimensionsMax)
    (hr : ∀ i, i < n → inRangeAt shell.m_pInteractionCore fi i
      ∧ 2 ≤ binsAt shell.m_pInteractionCore fi i)
    (hov : SIZE_MAX env < binsProduct shell.m_pInteractionCore fi 0 n) :
    (CalcInteractionStrength env alloc h w (n : Int) (some fi) flags maxC minS avg).error = .Error_None
      ∧ (CalcInteractionStrength env alloc h w (n : Int) (some fi) flags maxC minS avg).avgInteractionStrengthOut
          = storeOut avg dblZero
      ∧ (CalcInteractionStrength env alloc h w (n : Int) (some fi) flags maxC minS avg).shell = some shell
      ∧ onlyReads w (CalcInteractionStrength env alloc h w (n : Int) (some fi) flags maxC minS avg).world := by
  apply calc_zero_of_shape env alloc h shell w n fi flags maxC minS avg hvalid h1 h2
  obtain ⟨k, rfl⟩ : ∃ k, n = k + 1 := ⟨n - 1, by omega⟩
  obtain ⟨w2, hso, hw⟩ := shapeLoop_overflow env shell.m_pInteractionCore fi
    (storeOut avg env.k_illegalGainDouble) k 0
    { cAuxillaryBinsForBuildFastTotals := 0, cTensorBins := 1, acBins := [], aiFeatures := [] } w
    (fun j _ b => hr j (by omega)) (by simpa using hov)
  exact ⟨w2, hw, Or.inl hso⟩

/-- C4: for a valid handle, a positive `maxCardinality` and a tuple of in-range
features with at least 2 bins each whose bin-count product fits in `size_t`:
if the product is strictly greater than `maxCardinality`, the call returns
`Error_None`, stores 0.0, and has only read indexes (no buffer was requested);
if the product equals `maxCardinality`, the ceiling does not short-circuit the
call: its result is the one obtained with the ceiling switched off
(`maxCardinality = 0`), and for a model with at least 2 classes (or
regression) and at least 1 sample the call goes on to the sizing of the tensor,
where it either returns `Error_OutOfMemory` or requests the main buffer. -/
theorem C4_cardinality_ceiling (env : Env) (alloc : Nat → Nat → Bool)
    (h : Option InteractionShell) (shell : InteractionShell) (w : World) (n : Nat)
    (fi : Nat → Int) (flags : Nat) (maxC minS : Int) (avg : Option Dbl)
    (hvalid : GetInteractionShellFromHandle env h = some shell)
    (h1 : 1 ≤ n) (h2 : n ≤ env.k_cDimensionsMax)
    (hr : ∀ i, i < n → inRangeAt shell.m_pInteractionCore fi i
      ∧ 2 ≤ binsAt shell.m_pInteractionCore fi i)
    (hpos : 0 < maxC)
    (hfit : binsProduct shell.m_pInteractionCore fi 0 n ≤ SIZE_MAX env) :
    (maxC < (binsProduct shell.m_pInteractionCore fi 0 n : Int) →
      (CalcInteractionStrength env alloc h w (n : Int) (some fi) flags maxC minS avg).error = .Error_None
        ∧ (CalcInteractionStrength env alloc h w (n : Int) (some fi) flags maxC minS avg).avgInteractionStrengthOut
            = storeOut avg dblZero
        ∧ (CalcInteractionStrength env alloc h w (n : Int) (some fi) flags maxC minS avg).shell = some shell
        ∧ onlyReads w (CalcInteractionStrength env alloc h w (n : Int) (some fi) flags maxC minS avg).world)
    ∧ ((binsProduct shell.m_pInteractionCore fi 0 n : Int) = maxC →
      CalcInteractionStrength env alloc h w (n : Int) (some fi) flags maxC minS avg
          = CalcInteractionStrength env alloc h w (n : Int) (some fi) flags 0 minS avg
        ∧ (shell.m_pInteractionCore.m_cClasses ≠ 0 → shell.m_pInteractionCore.m_cClasses ≠ 1 →
            shell.m_pInteractionCore.m_cSamples ≠ 0 →
            (CalcInteractionStrength env alloc h w (n : Int) (some fi) flags maxC minS avg).error
                = .Error_OutOfMemory
              ∨ ∃ b c, Event.getMainBins b c
                  ∈ (CalcInteractionStrength env alloc h w (n : Int) (some fi) flags maxC minS avg).world.trace)) := by
  obtain ⟨k, rfl⟩ : ∃ k, n = k + 1 := ⟨n - 1, by omega⟩
  obtain ⟨s2, w2, hso, hc, hw⟩ := shapeLoop_exact env shell.m_pInteractionCore fi
    (storeOut avg env.k_illegalGainDouble) k 0
    { cAuxillaryBinsForBuildFastTotals := 0, cTensorBins := 1, acBins := [], aiFeatures := [] } w
    (fun j _ b => hr j (by omega)) (by simpa using hfit)
  have hc2 : s2.cTensorBins = binsProduct shell.m_pInteractionCore fi 0 (k + 1) := by
    rw [hc]; simp
  constructor
  · intro hlt
    apply calc_zero_of_shape env alloc h shell w (k + 1) fi flags maxC minS avg hvalid h1 h2
    refine ⟨w2, hw, Or.inr ⟨s2, hso, ?_⟩⟩
    rw [hc2]
    exact cCardinalityMaxOf_lt env maxC _ hpos hlt hfit
  · intro heq
    have hceil : binsProduct shell.m_pInteractionCore fi 0 (k + 1) ≤ cCardinalityMaxOf env maxC := by
      rw [cCardinalityMaxOf_ceiling env maxC hpos (by omega)]
      omega
    constructor
    · by_cases hdeg : shell.m_pInteractionCore.m_cClasses = 0
          ∨ shell.m_pInteractionCore.m_cClasses = 1 ∨ shell.m_pInteractionCore.m_cSamples = 0
      · rw [calc_degenerate _ _ _ _ _ _ _ _ _ _ _ hvalid h1 h2 hdeg,
          calc_degenerate _ _ _ _ _ _ _ _ _ _ _ hvalid h1 h2 hdeg]
      · have hc0 : shell.m_pInteractionCore.m_cClasses ≠ 0 := fun e => hdeg (Or.inl e)
        have hc1 : shell.m_pInteractionCore.m_cClasses ≠ 1 := fun e => hdeg (Or.inr (Or.inl e))
        have hs : shell.m_pInteractionCore.m_cSamples ≠ 0 := fun e => hdeg (Or.inr (Or.inr e))
        rw [calc_run _ _ _ _ _ _ _ _ _ _ _ hvalid h1 h2 hc0 hc1 hs,
          calc_run _ _ _ _ _ _ _ _ _ _ _ hvalid h1 h2 hc0 hc1 hs]
        have e : k + 1 - 1 = k := rfl
        rw [e, hso]
        have hn1 : ¬ cCardinalityMaxOf env maxC < s2.cTensorBins := by rw [hc2]; omega
        have hn2 : ¬ cCardinalityMaxOf env 0 < s2.cTensorBins := by
          rw [hc2, cCardinalityMaxOf_off]; omega
        simp only [afterShapeLoop, if_neg hn1, if_neg hn2]
    · intro hc0 hc1 hs
      obtain ⟨s3, w3, _, _, he⟩ := calc_proceeds env alloc h shell w (k + 1) fi flags maxC minS avg
        hvalid h1 h2 hc0 hc1 hs hr hfit hceil
      rw [he]
      exact evaluateTensor_requests _ _ _ _ _ _ _ _ _ _ _

/-- C5, as the code has it: the ceiling is compared with the cardinality of the whole
tuple once the tuple has been walked. For a valid handle and a tuple of 1 to
`k_cDimensionsMax` entries that are all in range, if the product of the bin
counts of the first `m` entries exceeds a positive `maxCardinality`, the call
returns `Error_None` and stores 0.0, whatever the bin counts of the remaining
entries are. -/
theorem C5_ceiling_after_walk (env : Env) (alloc : Nat → Nat → Bool)
    (h : Option InteractionShell) (shell : InteractionShell) (w : World) (n : Nat)
    (fi : Nat → Int) (flags : Nat) (maxC minS : Int) (avg : Option Dbl) (m : Nat)
    (hvalid : GetInteractionShellFromHandle env h = some shell)
    (h1 : 1 ≤ n) (h2 : n ≤ env.k_cDimensionsMax)
    (hr : ∀ i, i < n → inRangeAt shell.m_pInteractionCore fi i)
    (hpos : 0 < maxC) (hm : m ≤ n)
    (hlt : maxC < (binsProduct shell.m_pInteractionCore fi 0 m : Int)) :
    (CalcInteractionStrength env alloc h w (n : Int) (some fi) flags maxC minS avg).error = .Error_None
      ∧ (CalcInteractionStrength env alloc h w (n : Int) (some fi) flags maxC minS avg).avgInteractionStrengthOut
          = storeOut avg dblZero
      ∧ (CalcInteractionStrength env alloc h w (n : Int) (some fi) flags maxC minS avg).shell = some shell
      ∧ onlyReads w (CalcInteractionStrength env alloc h w (n : Int) (some fi) flags maxC minS avg).world := by
  apply calc_zero_of_shape env alloc h shell w n fi flags maxC minS avg hvalid h1 h2
  by_cases hsmall : ∃ p, p < n ∧ binsAt shell.m_pInteractionCore fi p ≤ 1
  · obtain ⟨p, hp, hb⟩ := hsmall
    obtain ⟨w2, hso, hw⟩ := shapeLoop_small env shell.m_pInteractionCore fi
      (storeOut avg env.k_illegalGainDouble) (n - 1) 0 { cAuxillaryBinsForBuildFastTotals := 0, cTensorBins := 1, acBins := [], aiFeatures := [] } w p
      (fun j _ b => hr j (by omega)) (Nat.zero_le p) (by omega) hb
    exact ⟨w2, hw, Or.inl hso⟩
  · have hall : ∀ i, i < n → inRangeAt shell.m_pInteractionCore fi i
        ∧ 2 ≤ binsAt shell.m_pInteractionCore fi i := by
      intro i hi
      refine ⟨hr i hi, ?_⟩
      by_contra hc
      exact hsmall ⟨i, hi, by omega⟩
    obtain ⟨k, rfl⟩ : ∃ k, n = k + 1 := ⟨n - 1, by omega⟩
    by_cases hov : SIZE_MAX env < binsProduct shell.m_pInteractionCore fi 0 (k + 1)
    · obtain ⟨w2, hso, hw⟩ := shapeLoop_overflow env shell.m_pInteractionCore fi
        (storeOut avg env.k_illegalGainDouble) k 0 { cAuxillaryBinsForBuildFastTotals := 0, cTensorBins := 1, acBins := [], aiFeatures := [] } w
        (fun j _ b => hall j (by omega)) (by simpa using hov)
      exact ⟨w2, hw, Or.inl hso⟩
    · have hfit : binsProduct shell.m_pInteractionCore fi 0 (k + 1) ≤ SIZE_MAX env := by omega
      obtain ⟨s2, w2, hso, hc, hw⟩ := shapeLoop_exact env shell.m_pInteractionCore fi
        (storeOut avg env.k_illegalGainDouble) k 0 { cAuxillaryBinsForBuildFastTotals := 0, cTensorBins := 1, acBins := [], aiFeatures := [] } w
        (fun j _ b => hall j (by omega)) (by simpa using hfit)
      have hc2 : s2.cTensorBins = binsProduct shell.m_pInteractionCore fi 0 (k + 1) := by
        rw [hc]; simp
      obtain ⟨d, hd⟩ : ∃ d, k + 1 = m + d := ⟨k + 1 - m, by omega⟩
      have hmono : binsProduct shell.m_pInteractionCore fi 0 m
          ≤ binsProduct shell.m_pInteractionCore fi 0 (k + 1) := by
        rw [hd]
        exact binsProduct_mono shell.m_pInteractionCore fi m 0 d
          (fun j _ b => (hall j (by omega)).2)
      refine ⟨w2, hw, Or.inr ⟨s2, hso, ?_⟩⟩
      rw [hc2]
      exact cCardinalityMaxOf_lt env maxC _ hpos (by omega) hfit

/-- C6: for a valid handle whose model has 0 or 1 outcome classes, or whose dataset
has 0 samples, and for every non-null index array with 1 to `k_cDimensionsMax`
entries of any value, `CalcInteractionStrength` returns `Error_None` and stores
0.0; the outside is as before the call (no index was read, no event happened)
and the shell is untouched. -/
theorem C6_degenerate_model (env : Env) (alloc : Nat → Nat → Bool)
    (h : Option InteractionShell) (shell : InteractionShell) (w : World) (n : Nat)
    (fi : Nat → Int) (flags : Nat) (maxC minS : Int) (avg : Option Dbl)
    (hvalid : GetInteractionShellFromHandle env h = some shell)
    (h1 : 1 ≤ n) (h2 : n ≤ env.k_cDimensionsMax)
    (hdeg : shell.m_pInteractionCore.m_cClasses = 0 ∨ shell.m_pInteractionCore.m_cClasses = 1
      ∨ shell.m_pInteractionCore.m_cSamples = 0) :
    CalcInteractionStrength env alloc h w (n : Int) (some fi) flags maxC minS avg
      = { error := .Error_None, avgInteractionStrengthOut := storeOut avg dblZero,
          shell := some shell, world := w } :=
  calc_degenerate env alloc h shell w n fi flags maxC minS avg hvalid h1 h2 hdeg

/-- C7: for a valid handle, `countDimensions == 0` makes `CalcInteractionStrength`
return `Error_None` and store 0.0, whatever the index pointer (null or not), the
flags, `maxCardinality` and `minSamplesLeaf` are and whatever the model behind
the handle is; nothing is read and the shell is untouched. -/
theorem C7_zero_dimensions (env : Env) (alloc : Nat → Nat → Bool) (h : Option InteractionShell)
    (shell : InteractionShell) (w : World) (fi : Option (Nat → Int)) (flags : Nat)
    (maxC minS : Int) (avg : Option Dbl)
    (hvalid : GetInteractionShellFromHandle env h = some shell) :
    CalcInteractionStrength env alloc h w 0 fi flags maxC minS avg
      = { error := .Error_None, avgInteractionStrengthOut := storeOut avg dblZero,
          shell := some shell, world := w } :=
  calc_zero_dimensions env alloc h shell w fi flags maxC minS avg hvalid

/-- C8: for a valid handle, a negative `countDimensions` returns
`Error_IllegalParamVal`; a positive `countDimensions` with a null index pointer
returns `Error_IllegalParamVal`, also when it exceeds `k_cDimensionsMax`; a
`countDimensions` above `k_cDimensionsMax` with a non-null index pointer returns
`Error_OutOfMemory`. In the three cases the whole result is fixed by these
arguments: the output location holds the sentinel, the outside is as before the
call (no index was read) and the shell is untouched, whatever the model is. -/
theorem C8_illegal_dimension_count (env : Env) (alloc : Nat → Nat → Bool)
    (h : Option InteractionShell) (shell : InteractionShell) (w : World) (cd : Int)
    (fi : Nat → Int) (optIndexes : Option (Nat → Int)) (flags : Nat) (maxC minS : Int)
    (avg : Option Dbl)
    (hvalid : GetInteractionShellFromHandle env h = some shell) :
    (cd < 0 →
      CalcInteractionStrength env alloc h w cd optIndexes flags maxC minS avg
        = { error := .Error_IllegalParamVal,
            avgInteractionStrengthOut := storeOut avg env.k_illegalGainDouble,
            shell := some shell, world := w })
    ∧ (0 < cd →
      CalcInteractionStrength env alloc h w cd none flags maxC minS avg
        = { error := .Error_IllegalParamVal,
            avgInteractionStrengthOut := storeOut avg env.k_illegalGainDouble,
            shell := some shell, world := w })
    ∧ ((env.k_cDimensionsMax : Int) < cd →
      CalcInteractionStrength env alloc h w cd (some fi) flags maxC minS avg
        = { error := .Error_OutOfMemory,
            avgInteractionStrengthOut := storeOut avg env.k_illegalGainDouble,
            shell := some shell, world := w }) :=
  ⟨calc_negative_dimensions env alloc h shell w cd optIndexes flags maxC minS avg hvalid,
   calc_null_indexes env alloc h shell w cd flags maxC minS avg hvalid,
   calc_too_many_dimensions env alloc h shell w cd fi flags maxC minS avg hvalid⟩

/-- C9: for a valid handle whose model has neither 0 nor 1 classes and at least 1
sample, and a tuple in which entry `p` is negative or not below the feature
count while every earlier entry is in range, has at least 2 bins, and the
product of the earlier bin counts fits in `size_t`, `CalcInteractionStrength`
returns `Error_IllegalParamVal`; the output location holds the sentinel, the
shell is untouched and nothing but indexes was read (no buffer was requested). -/
theorem C9_out_of_range_index (env : Env) (alloc : Nat → Nat → Bool)
    (h : Option InteractionShell) (shell : InteractionShell) (w : World) (n : Nat)
    (fi : Nat → Int) (flags : Nat) (maxC minS : Int) (avg : Option Dbl) (p : Nat)
    (hvalid : GetInteractionShellFromHandle env h = some shell)
    (hc0 : shell.m_pInteractionCore.m_cClasses ≠ 0) (hc1 : shell.m_pInteractionCore.m_cClasses ≠ 1)
    (hs : shell.m_pInteractionCore.m_cSamples ≠ 0)
    (h1 : 1 ≤ n) (h2 : n ≤ env.k_cDimensionsMax) (hp : p < n)
    (hbad : fi p < 0 ∨ (shell.m_pInteractionCore.m_cFeatures : Int) ≤ fi p)
    (hr : ∀ j, j < p → inRangeAt shell.m_pInteractionCore fi j
      ∧ 2 ≤ binsAt shell.m_pInteractionCore fi j)
    (hfit : binsProduct shell.m_pInteractionCore fi 0 p ≤ SIZE_MAX env) :
    (CalcInteractionStrength env alloc h w (n : Int) (some fi) flags maxC minS avg).error = .Error_IllegalParamVal
      ∧ (CalcInteractionStrength env alloc h w (n : Int) (some fi) flags maxC minS avg).avgInteractionStrengthOut
          = storeOut avg env.k_illegalGainDouble
      ∧ (CalcInteractionStrength env alloc h w (n : Int) (some fi) flags maxC minS avg).shell = some shell
      ∧ onlyReads w (CalcInteractionStrength env alloc h w (n : Int) (some fi) flags maxC minS avg).world := by
  have hnot : ¬ inRangeAt shell.m_pInteractionCore fi (0 + p) := by
    rw [Nat.zero_add]
    unfold inRangeAt
    omega
  obtain ⟨w2, hso, hw⟩ := shapeLoop_outOfRange env shell.m_pInteractionCore fi
    (storeOut avg env.k_illegalGainDouble) p (n - 1) 0 { cAuxillaryBinsForBuildFastTotals := 0, cTensorBins := 1, acBins := [], aiFeatures := [] } w (by omega)
    (fun j _ b => hr j (by omega)) (by simpa using hfit) hnot
  rw [calc_run _ _ _ _ _ _ _ _ _ _ _ hvalid h1 h2 hc0 hc1 hs, hso]
  exact ⟨rfl, rfl, rfl, hw⟩

/-- C10, as the code has it: a tuple is not checked for distinct features. For a valid
handle whose model has neither 0 nor 1 classes and at least 1 sample, and a
tuple in which the same feature index occurs at two positions `p < q`, with
all entries in range, at least 2 bins each, and a bin-count product (a repeated
feature counted once per occurrence) that fits in `size_t` and is not above
the effective ceiling, the call does not short-circuit: it goes on to the
sizing of the tensor with `cTensorBins` equal to that product, where it either
returns `Error_OutOfMemory` or requests the main buffer from the shell. -/
theorem C10_repeated_feature_is_evaluated (env : Env) (alloc : Nat → Nat → Bool)
    (h : Option InteractionShell) (shell : InteractionShell) (w : World) (n : Nat)
    (fi : Nat → Int) (flags : Nat) (maxC minS : Int) (avg : Option Dbl) (p q : Nat)
    (hvalid : GetInteractionShellFromHandle env h = some shell)
    (hc0 : shell.m_pInteractionCore.m_cClasses ≠ 0) (hc1 : shell.m_pInteractionCore.m_cClasses ≠ 1)
    (hs : shell.m_pInteractionCore.m_cSamples ≠ 0)
    (h1 : 1 ≤ n) (h2 : n ≤ env.k_cDimensionsMax)
    (_hpq : p < q) (_hq : q < n) (_hdup : fi p = fi q)
    (hr : ∀ i, i < n → inRangeAt shell.m_pInteractionCore fi i
      ∧ 2 ≤ binsAt shell.m_pInteractionCore fi i)
    (hfit : binsProduct shell.m_pInteractionCore fi 0 n ≤ SIZE_MAX env)
    (hceil : binsProduct shell.m_pInteractionCore fi 0 n ≤ cCardinalityMaxOf env maxC) :
    (∃ s2 w2, s2.cTensorBins = binsProduct shell.m_pInteractionCore fi 0 n ∧ onlyReads w w2
        ∧ CalcInteractionStrength env alloc h w (n : Int) (some fi) flags maxC minS avg
          = evaluateTensor env alloc shell shell.m_pInteractionCore fi flags
              (cSamplesLeafMinOf env minS) n (storeOut avg env.k_illegalGainDouble) s2 w2)
      ∧ ((CalcInteractionStrength env alloc h w (n : Int) (some fi) flags maxC minS avg).error
            = .Error_OutOfMemory
          ∨ ∃ b c, Event.getMainBins b c
              ∈ (CalcInteractionStrength env alloc h w (n : Int) (some fi) flags maxC minS avg).world.trace) := by
  obtain ⟨s2, w2, hc, hw, he⟩ := calc_proceeds env alloc h shell w n fi flags maxC minS avg
    hvalid h1 h2 hc0 hc1 hs hr hfit hceil
  refine ⟨⟨s2, w2, hc, hw, he⟩, ?_⟩
  rw [he]
  exact evaluateTensor_requests _ _ _ _ _ _ _ _ _ _ _

/-! ## The claims at concrete inputs -/

/-- The tuple (0, 2) over the concrete detector: feature 2 has 1 bin, the call
returns success with 0.0. -/
theorem C2_feature_with_fewer_than_two_bins_witness :
    (GetInteractionShellFromHandle demoEnv (some demoShell) = some demoShell
      ∧ (∀ i, i < 2 → inRangeAt demoShell.m_pInteractionCore (indexArray [0, 2]) i)
      ∧ binsAt demoShell.m_pInteractionCore (indexArray [0, 2]) 1 < 2)
    ∧ (CalcInteractionStrength demoEnv demoAlloc (some demoShell) demoWorld ((2 : Nat) : Int) (some (indexArray [0, 2])) 0 0 0 (some dblOne)).error
        = ErrorEbm.Error_None
    ∧ (CalcInteractionStrength demoEnv demoAlloc (some demoShell) demoWorld ((2 : Nat) : Int) (some (indexArray [0, 2])) 0 0 0 (some dblOne)).avgInteractionStrengthOut
        = some dblZero :=
  ⟨⟨rfl, by decide, by decide⟩,
   (C2_feature_with_fewer_than_two_bins demoEnv demoAlloc (some demoShell) demoShell demoWorld 2
      (indexArray [0, 2]) 0 0 0 (some dblOne) 1 rfl (by decide) (by decide) (by decide)
      (by decide) (by decide)).1,
   (C2_feature_with_fewer_than_two_bins demoEnv demoAlloc (some demoShell) demoShell demoWorld 2
      (indexArray [0, 2]) 0 0 0 (some dblOne) 1 rfl (by decide) (by decide) (by decide)
      (by decide) (by decide)).2.1⟩

/-- The tuple (3, 3) over the concrete detector: 2 ^ 40 times 2 ^ 40 bins do not fit
in 64 bits, the call returns success with 0.0. -/
theorem C3_cardinality_overflow_witness :
    (GetInteractionShellFromHandle demoEnv (some demoShell) = some demoShell
      ∧ (∀ i, i < 2 → inRangeAt demoShell.m_pInteractionCore (indexArray [3, 3]) i
          ∧ 2 ≤ binsAt demoShell.m_pInteractionCore (indexArray [3, 3]) i)
      ∧ SIZE_MAX demoEnv < binsProduct demoShell.m_pInteractionCore (indexArray [3, 3]) 0 2)
    ∧ (CalcInteractionStrength demoEnv demoAlloc (some demoShell) demoWorld ((2 : Nat) : Int) (some (indexArray [3, 3])) 0 0 0 (some dblOne)).error
        = ErrorEbm.Error_None
    ∧ (CalcInteractionStrength demoEnv demoAlloc (some demoShell) demoWorld ((2 : Nat) : Int) (some (indexArray [3, 3])) 0 0 0 (some dblOne)).avgInteractionStrengthOut
        = some dblZero :=
  ⟨⟨rfl, by decide, by decide⟩,
   (C3_cardinality_overflow demoEnv demoAlloc (some demoShell) demoShell demoWorld 2
      (indexArray [3, 3]) 0 0 0 (some dblOne) rfl (by decide) (by decide) (by decide)
      (by decide)).1,
   (C3_cardinality_overflow demoEnv demoAlloc (some demoShell) demoShell demoWorld 2
      (indexArray [3, 3]) 0 0 0 (some dblOne) rfl (by decide) (by decide) (by decide)
      (by decide)).2.1⟩

/-- The tuple (0, 1) over the concrete detector has 12 cells: the ceiling 5 gives
success with 0.0, the ceiling 12 gives the result of the call without ceiling. -/
theorem C4_cardinality_ceiling_witness :
    (GetInteractionShellFromHandle demoEnv (some demoShell) = some demoShell
      ∧ binsProduct demoShell.m_pInteractionCore (indexArray [0, 1]) 0 2 = 12
      ∧ binsProduct demoShell.m_pInteractionCore (indexArray [0, 1]) 0 2 ≤ SIZE_MAX demoEnv)
    ∧ (CalcInteractionStrength demoEnv demoAlloc (some demoShell) demoWorld ((2 : Nat) : Int) (some (indexArray [0, 1])) 0 5 0 (some dblOne)).error
        = ErrorEbm.Error_None
    ∧ (CalcInteractionStrength demoEnv demoAlloc (some demoShell) demoWorld ((2 : Nat) : Int) (some (indexArray [0, 1])) 0 5 0 (some dblOne)).avgInteractionStrengthOut
        = some dblZero
    ∧ CalcInteractionStrength demoEnv demoAlloc (some demoShell) demoWorld ((2 : Nat) : Int) (some (indexArray [0, 1])) 0 12 0 (some dblOne)
        = CalcInteractionStrength demoEnv demoAlloc (some demoShell) demoWorld ((2 : Nat) : Int) (some (indexArray [0, 1])) 0 0 0 (some dblOne) :=
  ⟨⟨rfl, by decide, by decide⟩,
   ((C4_cardinality_ceiling demoEnv demoAlloc (some demoShell) demoShell demoWorld 2
      (indexArray [0, 1]) 0 5 0 (some dblOne) rfl (by decide) (by decide) (by decide)
      (by decide) (by decide)).1 (by decide)).1,
   ((C4_cardinality_ceiling demoEnv demoAlloc (some demoShell) demoShell demoWorld 2
      (indexArray [0, 1]) 0 5 0 (some dblOne) rfl (by decide) (by decide) (by decide)
      (by decide) (by decide)).1 (by decide)).2.1,
   ((C4_cardinality_ceiling demoEnv demoAlloc (some demoShell) demoShell demoWorld 2
      (indexArray [0, 1]) 0 12 0 (some dblOne) rfl (by decide) (by decide) (by decide)
      (by decide) (by decide)).2 (by decide)).1⟩

/-- The claim C5 fails on the tuple (0, -1) with the ceiling 2 over the concrete
detector: the first entry alone has 3 bins, above the ceiling, and yet the
call returns `Error_IllegalParamVal` and leaves the sentinel, not 0.0, in the
output location. -/
theorem C5_counterexample :
    (0 : Int) < 2
    ∧ (2 : Int) < (binsProduct demoCore (indexArray [0, -1]) 0 1 : Int)
    ∧ (CalcInteractionStrength demoEnv demoAlloc (some demoShell) demoWorld 2 (some (indexArray [0, -1])) 0 2 0 (some dblOne)).error
        = ErrorEbm.Error_IllegalParamVal
    ∧ (CalcInteractionStrength demoEnv demoAlloc (some demoShell) demoWorld 2 (some (indexArray [0, -1])) 0 2 0 (some dblOne)).error
        ≠ ErrorEbm.Error_None
    ∧ (CalcInteractionStrength demoEnv demoAlloc (some demoShell) demoWorld 2 (some (indexArray [0, -1])) 0 2 0 (some dblOne)).avgInteractionStrengthOut
        ≠ some dblZero := by
  decide

/-- The tuple (0, 1) with the ceiling 2 over the concrete detector: the first entry
alone has 3 bins, the call returns success with 0.0. -/
theorem C5_ceiling_after_walk_witness :
    (GetInteractionShellFromHandle demoEnv (some demoShell) = some demoShell
      ∧ (∀ i, i < 2 → inRangeAt demoShell.m_pInteractionCore (indexArray [0, 1]) i)
      ∧ (2 : Int) < (binsProduct demoShell.m_pInteractionCore (indexArray [0, 1]) 0 1 : Int))
    ∧ (CalcInteractionStrength demoEnv demoAlloc (some demoShell) demoWorld ((2 : Nat) : Int) (some (indexArray [0, 1])) 0 2 0 (some dblOne)).error
        = ErrorEbm.Error_None
    ∧ (CalcInteractionStrength demoEnv demoAlloc (some demoShell) demoWorld ((2 : Nat) : Int) (some (indexArray [0, 1])) 0 2 0 (some dblOne)).avgInteractionStrengthOut
        = some dblZero :=
  ⟨⟨rfl, by decide, by decide⟩,
   (C5_ceiling_after_walk demoEnv demoAlloc (some demoShell) demoShell demoWorld 2
      (indexArray [0, 1]) 0 2 0 (some dblOne) 1 rfl (by decide) (by decide) (by decide)
      (by decide) (by decide) (by decide)).1,
   (C5_ceiling_after_walk demoEnv demoAlloc (some demoShell) demoShell demoWorld 2
      (indexArray [0, 1]) 0 2 0 (some dblOne) 1 rfl (by decide) (by decide) (by decide)
      (by decide) (by decide) (by decide)).2.1⟩

/-- A detector with a single class and the tuple (-5, 99): success with 0.0 and
nothing read. -/
theorem C6_degenerate_model_witness :
    (GetInteractionShellFromHandle demoEnv (some demoShellOneClass) = some demoShellOneClass
      ∧ demoShellOneClass.m_pInteractionCore.m_cClasses = 1)
    ∧ CalcInteractionStrength demoEnv demoAlloc (some demoShellOneClass) demoWorld ((2 : Nat) : Int) (some (indexArray [-5, 99])) 0 0 0 (some dblOne)
        = { error := ErrorEbm.Error_None, avgInteractionStrengthOut := some dblZero,
            shell := some demoShellOneClass, world := demoWorld } :=
  ⟨⟨rfl, rfl⟩,
   C6_degenerate_model demoEnv demoAlloc (some demoShellOneClass) demoShellOneClass demoWorld 2
     (indexArray [-5, 99]) 0 0 0 (some dblOne) rfl (by decide) (by decide) (Or.inr (Or.inl rfl))⟩

/-- The concrete detector with no dimensions and a null index pointer: success
with 0.0. -/
theorem C7_zero_dimensions_witness :
    GetInteractionShellFromHandle demoEnv (some demoShell) = some demoShell
    ∧ CalcInteractionStrength demoEnv demoAlloc (some demoShell) demoWorld 0 none 0 0 0 (some dblOne)
        = { error := ErrorEbm.Error_None, avgInteractionStrengthOut := some dblZero,
            shell := some demoShell, world := demoWorld } :=
  ⟨rfl, C7_zero_dimensions demoEnv demoAlloc (some demoShell) demoShell demoWorld none 0 0 0
    (some dblOne) rfl⟩

/-- The concrete detector with -1 dimensions, with 31 dimensions and a null index
pointer, and with 31 dimensions and an index array. -/
theorem C8_illegal_dimension_count_witness :
    GetInteractionShellFromHandle demoEnv (some demoShell) = some demoShell
    ∧ (CalcInteractionStrength demoEnv demoAlloc (some demoShell) demoWorld (-1) (some (indexArray [0, 1])) 0 0 0 (some dblOne)).error
        = ErrorEbm.Error_IllegalParamVal
    ∧ (CalcInteractionStrength demoEnv demoAlloc (some demoShell) demoWorld 31 none 0 0 0 (some dblOne)).error
        = ErrorEbm.Error_IllegalParamVal
    ∧ (CalcInteractionStrength demoEnv demoAlloc (some demoShell) demoWorld 31 (some (indexArray [0, 1])) 0 0 0 (some dblOne)).error
        = ErrorEbm.Error_OutOfMemory :=
  ⟨rfl,
   congrArg Result.error ((C8_illegal_dimension_count demoEnv demoAlloc (some demoShell) demoShell
     demoWorld (-1) (indexArray [0, 1]) (some (indexArray [0, 1])) 0 0 0 (some dblOne) rfl).1
     (by decide)),
   congrArg Result.error ((C8_illegal_dimension_count demoEnv demoAlloc (some demoShell) demoShell
     demoWorld 31 (indexArray [0, 1]) none 0 0 0 (some dblOne) rfl).2.1 (by decide)),
   congrArg Result.error ((C8_illegal_dimension_count demoEnv demoAlloc (some demoShell) demoShell
     demoWorld 31 (indexArray [0, 1]) none 0 0 0 (some dblOne) rfl).2.2 (by decide))⟩

/-- The tuple (0, 7) over the concrete detector, which has 4 features: the call
returns `Error_IllegalParamVal` and the sentinel stays in the output location. -/
theorem C9_out_of_range_index_witness :
    (GetInteractionShellFromHandle demoEnv (some demoShell) = some demoShell
      ∧ (demoShell.m_pInteractionCore.m_cFeatures : Int) ≤ indexArray [0, 7] 1
      ∧ binsProduct demoShell.m_pInteractionCore (indexArray [0, 7]) 0 1 ≤ SIZE_MAX demoEnv)
    ∧ (CalcInteractionStrength demoEnv demoAlloc (some demoShell) demoWorld ((2 : Nat) : Int) (some (indexArray [0, 7])) 0 0 0 (some dblOne)).error
        = ErrorEbm.Error_IllegalParamVal
    ∧ (CalcInteractionStrength demoEnv demoAlloc (some demoShell) demoWorld ((2 : Nat) : Int) (some (indexArray [0, 7])) 0 0 0 (some dblOne)).avgInteractionStrengthOut
        = some dblLowest :=
  ⟨⟨rfl, by decide, by decide⟩,
   (C9_out_of_range_index demoEnv demoAlloc (some demoShell) demoShell demoWorld 2
      (indexArray [0, 7]) 0 0 0 (some dblOne) 1 rfl (by decide) (by decide) (by decide)
      (by decide) (by decide) (by decide) (Or.inr (by decide)) (by decide) (by decide)).1,
   (C9_out_of_range_index demoEnv demoAlloc (some demoShell) demoShell demoWorld 2
      (indexArray [0, 7]) 0 0 0 (some dblOne) 1 rfl (by decide) (by decide) (by decide)
      (by decide) (by decide) (by decide) (Or.inr (by decide)) (by decide) (by decide)).2.1⟩

/-- The claim C10 fails on the tuple (0, 0) over the concrete detector: the same
feature occurs twice, and yet the call requests both buffers, runs the
searcher on a 3 by 3 tensor and stores the gain 1.0, not 0.0. -/
theorem C10_counterexample :
    indexArray [0, 0] 0 = indexArray [0, 0] 1
    ∧ (CalcInteractionStrength demoEnv demoAlloc (some demoShell) demoWorld 2 (some (indexArray [0, 0])) 0 0 0 (some dblOne)).error
        = ErrorEbm.Error_None
    ∧ (CalcInteractionStrength demoEnv demoAlloc (some demoShell) demoWorld 2 (some (indexArray [0, 0])) 0 0 0 (some dblOne)).avgInteractionStrengthOut
        = some dblOne
    ∧ (CalcInteractionStrength demoEnv demoAlloc (some demoShell) demoWorld 2 (some (indexArray [0, 0])) 0 0 0 (some dblOne)).avgInteractionStrengthOut
        ≠ some dblZero
    ∧ Event.partition2d 2 [3, 3] 0 1 dblOne
        ∈ (CalcInteractionStrength demoEnv demoAlloc (some demoShell) demoWorld 2 (some (indexArray [0, 0])) 0 0 0 (some dblOne)).world.trace := by
  decide

/-- The tuple (0, 0) over the concrete detector: the call reaches the sizing of a
tensor of 9 cells. -/
theorem C10_repeated_feature_is_evaluated_witness :
    (GetInteractionShellFromHandle demoEnv (some demoShell) = some demoShell
      ∧ indexArray [0, 0] 0 = indexArray [0, 0] 1
      ∧ binsProduct demoShell.m_pInteractionCore (indexArray [0, 0]) 0 2 = 9
      ∧ binsProduct demoShell.m_pInteractionCore (indexArray [0, 0]) 0 2
          ≤ cCardinalityMaxOf demoEnv 0)
    ∧ ((CalcInteractionStrength demoEnv demoAlloc (some demoShell) demoWorld ((2 : Nat) : Int) (some (indexArray [0, 0])) 0 0 0 (some dblOne)).error
          = ErrorEbm.Error_OutOfMemory
        ∨ ∃ b c, Event.getMainBins b c
            ∈ (CalcInteractionStrength demoEnv demoAlloc (some demoShell) demoWorld ((2 : Nat) : Int) (some (indexArray [0, 0])) 0 0 0 (some dblOne)).world.trace) :=
  ⟨⟨rfl, by decide, by decide, by decide⟩,
   (C10_repeated_feature_is_evaluated demoEnv demoAlloc (some demoShell) demoShell demoWorld 2
      (indexArray [0, 0]) 0 0 0 (some dblOne) 0 1 rfl (by decide) (by decide) (by decide)
      (by decide) (by decide) (by decide) (by decide) (by decide) (by decide) (by decide)
      (by decide)).2⟩

/-! ## The events a stretch of the program adds -/

theorem grows_refl (P : Event → Bool) (w : World) : grows P w w :=
  ⟨[], by simp, by simp⟩

theorem grows_emit (P : Event → Bool) (w : World) (e0 : Event) (h : P e0 = true) :
    grows P w (w.emit e0) :=
  ⟨[e0], rfl, by simpa using h⟩

theorem grows_trans {P : Event → Bool} {w1 w2 w3 : World} (h12 : grows P w1 w2)
    (h23 : grows P w2 w3) : grows P w1 w3 := by
  obtain ⟨e1, ht1, hp1⟩ := h12
  obtain ⟨e2, ht2, hp2⟩ := h23
  refine ⟨e1 ++ e2, by rw [ht2, ht1, List.append_assoc], ?_⟩
  intro e he
  rcases List.mem_append.mp he with h | h
  · exact hp1 e h
  · exact hp2 e h

theorem grows_emit_right {P : Event → Bool} {w1 w2 : World} (h : grows P w1 w2) (e0 : Event)
    (h0 : P e0 = true) : grows P w1 (w2.emit e0) :=
  grows_trans h (grows_emit P w2 e0 h0)

theorem grows_mono {P Q : Event → Bool} {w1 w2 : World} (h : grows P w1 w2)
    (hpq : ∀ e, P e = true → Q e = true) : grows Q w1 w2 := by
  obtain ⟨evs, ht, hp⟩ := h
  exact ⟨evs, ht, fun e he => hpq e (hp e he)⟩

/-- An event of a grown world was there before or satisfies the predicate. -/
theorem grows_inv {P : Event → Bool} {w1 w2 : World} (h : grows P w1 w2) (e : Event)
    (he : e ∈ w2.trace) : e ∈ w1.trace ∨ P e = true := by
  obtain ⟨evs, ht, hp⟩ := h
  rw [ht] at he
  rcases List.mem_append.mp he with h1 | h1
  · exact Or.inl h1
  · exact Or.inr (hp e h1)

theorem grows_of_onlyReads {w1 w2 : World} (h : onlyReads w1 w2) :
    grows Event.isAccumulation w1 w2 := by
  obtain ⟨_, evs, ht, hr⟩ := h
  refine ⟨evs, ht, ?_⟩
  intro e he
  have := hr e he
  cases e <;> simp_all [Event.isReadIndex, Event.isAccumulation]

theorem AlignedAlloc_grows (alloc : Nat → Nat → Bool) (w : World) (cBytes : Nat) :
    grows Event.isAccumulation w (AlignedAlloc alloc w cBytes).2 :=
  ⟨[Event.alloc cBytes (AlignedAlloc alloc w cBytes).1], rfl, by simp [Event.isAccumulation]⟩

theorem GetInteractionFastBinsTemp_grows (env : Env) (alloc : Nat → Nat → Bool)
    (shell : InteractionShell) (w : World) (cBytes : Nat) :
    grows Event.isAccumulation w (GetInteractionFastBinsTemp env alloc shell w cBytes).2.2 := by
  have h0 : grows Event.isAccumulation w (w.emit (Event.getFastBins cBytes)) :=
    grows_emit _ w _ rfl
  unfold GetInteractionFastBinsTemp
  simp only
  by_cases h1 : shell.m_cBytesFastBins < cBytes
  · rw [if_pos h1]
    have h2 := grows_emit_right h0 (Event.free shell.m_aInteractionFastBinsTemp) rfl
    by_cases h3 : IsAddError env cBytes cBytes = true
    · rw [if_pos h3]; exact h2
    · rw [if_neg h3]
      have h4 := grows_trans h2 (AlignedAlloc_grows alloc _ (cBytes + cBytes))
      generalize AlignedAlloc alloc
        ((w.emit (Event.getFastBins cBytes)).emit (Event.free shell.m_aInteractionFastBinsTemp))
        (cBytes + cBytes) = r at h4 ⊢
      obtain ⟨o, w2⟩ := r
      cases o with
      | none => exact h4
      | some b => exact h4
  · rw [if_neg h1]; exact h0

theorem GetInteractionMainBins_grows (env : Env) (alloc : Nat → Nat → Bool)
    (shell : InteractionShell) (w : World) (cBytesPerMainBin cMainBins : Nat) :
    grows Event.isAccumulation w
      (GetInteractionMainBins env alloc shell w cBytesPerMainBin cMainBins).2.2 := by
  have h0 : grows Event.isAccumulation w
      (w.emit (Event.getMainBins cBytesPerMainBin cMainBins)) := grows_emit _ w _ rfl
  unfold GetInteractionMainBins
  simp only
  by_cases h1 : shell.m_cAllocatedMainBins < cMainBins
  · rw [if_pos h1]
    have h2 := grows_emit_right h0 (Event.free shell.m_aInteractionMainBins) rfl
    by_cases h3 : IsAddError env ((cMainBins >>> 2) + 16) cMainBins = true
    · rw [if_pos h3]; exact h2
    · rw [if_neg h3]
      by_cases h5 : IsMultiplyError env cBytesPerMainBin (cMainBins + ((cMainBins >>> 2) + 16)) = true
      · rw [if_pos h5]; exact h2
      · rw [if_neg h5]
        have h4 := grows_trans h2 (AlignedAlloc_grows alloc _
          (cBytesPerMainBin * (cMainBins + ((cMainBins >>> 2) + 16))))
        generalize AlignedAlloc alloc
          ((w.emit (Event.getMainBins cBytesPerMainBin cMainBins)).emit
            (Event.free shell.m_aInteractionMainBins))
          (cBytesPerMainBin * (cMainBins + ((cMainBins >>> 2) + 16))) = r at h4 ⊢
        obtain ⟨o, w2⟩ := r
        cases o with
        | none => exact h4
        | some b => exact h4
  · rw [if_neg h1]; exact h0

theorem packLoop_grows (env : Env) (core : InteractionCore) (subset : DataSubsetInteraction)
    (fi : Nat → Int) :
    ∀ (k i : Nat) (ac : List Nat) (w : World),
      grows Event.isAccumulation w (packLoop env core subset fi k i ac w).2 := by
  intro k
  induction k with
  | zero =>
    intro i ac w
    exact grows_emit _ w (Event.readIndex i) rfl
  | succ k ih =>
    intro i ac w
    exact grows_trans (grows_emit _ w (Event.readIndex i) rfl) (ih (i + 1) _ _)

theorem subsetBody_grows (env : Env) (alloc : Nat → Nat → Bool) (core : InteractionCore)
    (fi : Nat → Int) (cDimensions cScores : Nat) (s : Shape) (iSubset : Nat)
    (subset : DataSubsetInteraction) (shell : InteractionShell) (w : World) :
    grows Event.isAccumulation w
      (subsetBody env alloc core fi cDimensions cScores s iSubset subset shell w).world := by
  unfold subsetBody
  simp only
  by_cases hm : IsMultiplyError env (cBytesPerFastBinOf env subset core.m_bHessian cScores)
      s.cTensorBins = true
  · rw [if_pos hm]; exact grows_refl _ w
  · have h1 := GetInteractionFastBinsTemp_grows env alloc shell w
      ((cBytesPerFastBinOf env subset core.m_bHessian cScores * s.cTensorBins) % 2 ^ env.cBitsSizeT)
    rw [if_neg hm]
    generalize GetInteractionFastBinsTemp env alloc shell w
      ((cBytesPerFastBinOf env subset core.m_bHessian cScores * s.cTensorBins) % 2 ^ env.cBitsSizeT)
      = r at h1 ⊢
    obtain ⟨o, shell2, w2⟩ := r
    cases o with
    | none => exact h1
    | some aFastBins =>
      have h2 := grows_trans (grows_emit_right h1
        (Event.zeroFast iSubset (cBytesPerFastBinOf env subset core.m_bHessian cScores)
          s.cTensorBins) rfl)
        (packLoop_grows env core subset fi (cDimensions - 1) 0 [] _)
      simp only
      split
      · refine grows_emit_right h2 _ ?_
        rfl
      · refine grows_emit_right (grows_emit_right h2 _ ?_) _ ?_
        · rfl
        · rfl

theorem subsetLoop_grows (env : Env) (alloc : Nat → Nat → Bool) (core : InteractionCore)
    (fi : Nat → Int) (cDimensions cScores : Nat) (s : Shape) :
    ∀ (others : List DataSubsetInteraction) (iSubset : Nat) (subset : DataSubsetInteraction)
      (shell : InteractionShell) (w : World),
      grows Event.isAccumulation w
        (subsetLoop env alloc core fi cDimensions cScores s iSubset subset others shell w).world := by
  intro others
  induction others with
  | nil =>
    intro iSubset subset shell w
    exact subsetBody_grows env alloc core fi cDimensions cScores s iSubset subset shell w
  | cons following others ih =>
    intro iSubset subset shell w
    have hb := subsetBody_grows env alloc core fi cDimensions cScores s iSubset subset shell w
    unfold subsetLoop
    cases hbody : subsetBody env alloc core fi cDimensions cScores s iSubset subset shell w with
    | ret error shell2 w2 =>
      rw [hbody] at hb
      exact hb
    | next shell2 w2 =>
      rw [hbody] at hb
      exact grows_trans hb (ih (iSubset + 1) following shell2 w2)

theorem shapeBody_onlyReads (env : Env) (core : InteractionCore) (f : Nat → Int)
    (out : Option Dbl) (i : Nat) (s : Shape) (w : World) :
    (shapeBody env core f out i s w).world = w.emit (Event.readIndex i) := by
  unfold shapeBody
  simp only
  split
  · rfl
  · split
    · rfl
    · split
      · rfl
      · split
        · rfl
        · rfl

/-- However the shape loop ends, it has only read indexes. -/
theorem shapeLoop_onlyReads (env : Env) (core : InteractionCore) (f : Nat → Int)
    (out : Option Dbl) :
    ∀ (k i : Nat) (s : Shape) (w : World), onlyReads w (shapeLoop env core f out k i s w).world := by
  intro k
  induction k with
  | zero =>
    intro i s w
    rw [shapeLoop_zero, shapeBody_onlyReads]
    exact onlyReads_emit w i
  | succ k ih =>
    intro i s w
    have hb := shapeBody_onlyReads env core f out i s w
    rw [shapeLoop_succ]
    cases hbody : shapeBody env core f out i s w with
    | ret error o w2 =>
      rw [hbody] at hb
      simp only [ShapeOutcome.world] at hb ⊢
      rw [hb]
      exact onlyReads_emit w i
    | next s2 w2 =>
      rw [hbody] at hb
      simp only [ShapeOutcome.world] at hb
      simp only
      rw [hb]
      exact onlyReads_emit_left i (ih (i + 1) s2 _)

/-! ## The events after accumulation -/

theorem growsBy_refl (P : Event → Prop) (w : World) : growsBy P w w :=
  ⟨[], by simp, by simp⟩

theorem growsBy_trans {P : Event → Prop} {w1 w2 w3 : World} (h12 : growsBy P w1 w2)
    (h23 : growsBy P w2 w3) : growsBy P w1 w3 := by
  obtain ⟨e1, ht1, hp1⟩ := h12
  obtain ⟨e2, ht2, hp2⟩ := h23
  refine ⟨e1 ++ e2, by rw [ht2, ht1, List.append_assoc], ?_⟩
  intro e he
  rcases List.mem_append.mp he with h | h
  · exact hp1 e h
  · exact hp2 e h

theorem growsBy_emit_right {P : Event → Prop} {w1 w2 : World} (h : growsBy P w1 w2)
    (e0 : Event) (h0 : P e0) : growsBy P w1 (w2.emit e0) :=
  growsBy_trans h ⟨[e0], rfl, by simpa using h0⟩

theorem growsBy_mono {P Q : Event → Prop} {w1 w2 : World} (h : growsBy P w1 w2)
    (hpq : ∀ e, P e → Q e) : growsBy Q w1 w2 := by
  obtain ⟨evs, ht, hp⟩ := h
  exact ⟨evs, ht, fun e he => hpq e (hp e he)⟩

theorem growsBy_of_grows {P : Event → Bool} {w1 w2 : World} (h : grows P w1 w2) :
    growsBy (fun e => P e = true) w1 w2 := h

/-- The events a call added have the property by which its world grew. -/
theorem growsBy_added {P : Event → Prop} {w : World} {r : Result} (h : growsBy P w r.world)
    (e : Event) (he : e ∈ addedEvents w r) : P e := by
  obtain ⟨evs, ht, hp⟩ := h
  unfold addedEvents at he
  rw [ht, List.drop_left] at he
  exact hp e he

/-- The events that lines 271-505 add belong to accumulation or follow it; when
one follows it, the code is `Error_None`, and either there are 2 dimensions,
the clamped normalised gain of the searcher was stored and a search event is
the call of the searcher with the bin counts, the flag word and the leaf
threshold of this call, or there are not 2 dimensions, nothing was stored and
the event is no search. -/
theorem evaluateTensor_adds (env : Env) (alloc : Nat → Nat → Bool) (shell : InteractionShell)
    (core : InteractionCore) (fi : Nat → Int) (flags : Nat) (cSamplesLeafMin cDimensions : Nat)
    (out : Option Dbl) (s : Shape) (w : World) (R : Result)
    (hR : evaluateTensor env alloc shell core fi flags cSamplesLeafMin cDimensions out s w = R) :
    growsBy (fun e => e.isAccumulation = true
      ∨ (R.error = .Error_None
        ∧ ((2 = cDimensions
            ∧ R.avgInteractionStrengthOut
              = storeOut out (clampGain env (normalizeGain env core flags
                  (core.PartitionTwoDimensionalInteraction s.aiFeatures s.acBins flags cSamplesLeafMin)))
            ∧ (e.isPartition = true →
                e = Event.partition2d cDimensions s.acBins flags cSamplesLeafMin
                  (core.PartitionTwoDimensionalInteraction s.aiFeatures s.acBins flags cSamplesLeafMin)))
          ∨ (2 ≠ cDimensions ∧ R.avgInteractionStrengthOut = out ∧ e.isPartition = false))))
      w R.world := by
  unfold evaluateTensor at hR
  simp only at hR
  generalize env.GetBinSize env.sizeofFloatMain env.sizeofUIntMain core.m_bHessian
    (env.GetCountScores core.m_cClasses) = cBytesPerMainBin at hR
  generalize (s.cTensorBins + EbmMax s.cAuxillaryBinsForBuildFastTotals 4) % 2 ^ env.cBitsSizeT
    = cTotalMainBins at hR
  by_cases ha : IsAddError env s.cTensorBins (EbmMax s.cAuxillaryBinsForBuildFastTotals 4) = true
  · rw [if_pos ha] at hR; subst hR; exact growsBy_refl _ w
  rw [if_neg ha] at hR
  by_cases hm : IsMultiplyError env cBytesPerMainBin cTotalMainBins = true
  · rw [if_pos hm] at hR; subst hR; exact growsBy_refl _ w
  rw [if_neg hm] at hR
  have h1 := GetInteractionMainBins_grows env alloc shell w cBytesPerMainBin cTotalMainBins
  generalize GetInteractionMainBins env alloc shell w cBytesPerMainBin cTotalMainBins = r
    at h1 hR
  obtain ⟨o, shell2, w2⟩ := r
  cases o with
  | none =>
    simp only at hR
    subst hR
    exact growsBy_mono (growsBy_of_grows h1) (fun e he => Or.inl he)
  | some aMainBins =>
    have h2 := grows_trans (grows_emit_right h1
      (Event.zeroMain ((cBytesPerMainBin * s.cTensorBins) % 2 ^ env.cBitsSizeT)) rfl)
      (subsetLoop_grows env alloc core fi cDimensions (env.GetCountScores core.m_cClasses) s
        core.m_aSubsetsRest 0 core.m_subsetFirst shell2 _)
    simp only at hR
    generalize subsetLoop env alloc core fi cDimensions (env.GetCountScores core.m_cClasses) s 0
      core.m_subsetFirst core.m_aSubsetsRest shell2
      (w2.emit (Event.zeroMain ((cBytesPerMainBin * s.cTensorBins) % 2 ^ env.cBitsSizeT)))
      = so at h2 hR
    cases so with
    | ret error shell3 w3 =>
      simp only at hR
      subst hR
      exact growsBy_mono (growsBy_of_grows h2) (fun e he => Or.inl he)
    | next shell3 w3 =>
      simp only [SubsetOutcome.world] at h2
      simp only at hR
      have h3 := growsBy_mono (growsBy_of_grows h2)
        (fun e (he : e.isAccumulation = true) =>
          (Or.inl he : e.isAccumulation = true
            ∨ (R.error = .Error_None
              ∧ ((2 = cDimensions
                  ∧ R.avgInteractionStrengthOut
                    = storeOut out (clampGain env (normalizeGain env core flags
                        (core.PartitionTwoDimensionalInteraction s.aiFeatures s.acBins flags cSamplesLeafMin)))
                  ∧ (e.isPartition = true →
                      e = Event.partition2d cDimensions s.acBins flags cSamplesLeafMin
                        (core.PartitionTwoDimensionalInteraction s.aiFeatures s.acBins flags cSamplesLeafMin)))
                ∨ (2 ≠ cDimensions ∧ R.avgInteractionStrengthOut = out
                  ∧ e.isPartition = false)))))
      by_cases hd : 2 = cDimensions
      · rw [if_pos hd] at hR
        subst hR
        refine growsBy_emit_right (growsBy_emit_right (growsBy_emit_right h3 _ ?_) _ ?_) _ ?_
        · exact Or.inr ⟨rfl, Or.inl ⟨hd, rfl, fun hp => Bool.noConfusion hp⟩⟩
        · exact Or.inr ⟨rfl, Or.inl ⟨hd, rfl, fun hp => Bool.noConfusion hp⟩⟩
        · exact Or.inr ⟨rfl, Or.inl ⟨hd, rfl, fun _ => rfl⟩⟩
      · rw [if_neg hd] at hR
        subst hR
        refine growsBy_emit_right (growsBy_emit_right h3 _ ?_) _ ?_
        · exact Or.inr ⟨rfl, Or.inr ⟨hd, rfl, rfl⟩⟩
        · exact Or.inr ⟨rfl, Or.inr ⟨hd, rfl, rfl⟩⟩

/-- An event that a call added belongs to accumulation or follows it; when it
follows it, the handle is valid, the index pointer is not null, the code is
`Error_None`, and either `countDimensions` is 2, the clamped normalised gain of
the searcher was stored and a search event is the call of the searcher with
the flag word of the call and the threshold `cSamplesLeafMin`, or
`countDimensions` is not 2, the sentinel is in the output location and the
event is no search. -/
theorem calc_added (env : Env) (alloc : Nat → Nat → Bool) (h : Option InteractionShell)
    (w : World) (cd : Int) (fi : Option (Nat → Int)) (flags : Nat) (maxC minS : Int)
    (avg : Option Dbl) (R : Result)
    (hR : CalcInteractionStrength env alloc h w cd fi flags maxC minS avg = R) (e : Event)
    (he : e ∈ addedEvents w R) :
    e.isAccumulation = true
      ∨ ∃ (shell : InteractionShell) (n : Nat) (fi2 : Nat → Int) (s : Shape),
          GetInteractionShellFromHandle env h = some shell ∧ cd = (n : Int) ∧ fi = some fi2
          ∧ R.error = .Error_None
          ∧ ((2 = n
              ∧ R.avgInteractionStrengthOut
                = storeOut avg (clampGain env (normalizeGain env shell.m_pInteractionCore flags
                    (shell.m_pInteractionCore.PartitionTwoDimensionalInteraction s.aiFeatures s.acBins
                    flags (cSamplesLeafMinOf env minS))))
              ∧ (e.isPartition = true →
                  e = Event.partition2d n s.acBins flags (cSamplesLeafMinOf env minS)
                    (shell.m_pInteractionCore.PartitionTwoDimensionalInteraction s.aiFeatures s.acBins
                    flags (cSamplesLeafMinOf env minS))))
            ∨ (2 ≠ n ∧ R.avgInteractionStrengthOut = storeOut avg env.k_illegalGainDouble
              ∧ e.isPartition = false)) := by
  have hnone : R.world = w → False := by
    intro hw
    have hg : growsBy (fun _ => False) w R.world := by
      rw [hw]; exact growsBy_refl _ w
    exact growsBy_added hg e he
  cases hg : GetInteractionShellFromHandle env h with
  | none =>
    rw [calc_invalid_handle _ _ _ _ _ _ _ _ _ _ hg] at hR
    exact (hnone (by rw [← hR])).elim
  | some shell =>
    by_cases hneg : cd < 0
    · rw [calc_negative_dimensions _ _ _ _ _ _ _ _ _ _ _ hg hneg] at hR
      exact (hnone (by rw [← hR])).elim
    by_cases hzero : cd = 0
    · subst hzero
      rw [calc_zero_dimensions _ _ _ _ _ _ _ _ _ _ hg] at hR
      exact (hnone (by rw [← hR])).elim
    have hpos : 0 < cd := by omega
    cases fi with
    | none =>
      rw [calc_null_indexes _ _ _ _ _ _ _ _ _ _ hg hpos] at hR
      exact (hnone (by rw [← hR])).elim
    | some fi2 =>
      by_cases hbig : (env.k_cDimensionsMax : Int) < cd
      · rw [calc_too_many_dimensions _ _ _ _ _ _ _ _ _ _ _ hg hbig] at hR
        exact (hnone (by rw [← hR])).elim
      obtain ⟨n, rfl⟩ : ∃ n : Nat, cd = (n : Int) := ⟨cd.toNat, by omega⟩
      have h1 : 1 ≤ n := by omega
      have h2 : n ≤ env.k_cDimensionsMax := by omega
      by_cases hdeg : shell.m_pInteractionCore.m_cClasses = 0
          ∨ shell.m_pInteractionCore.m_cClasses = 1 ∨ shell.m_pInteractionCore.m_cSamples = 0
      · rw [calc_degenerate _ _ _ _ _ _ _ _ _ _ _ hg h1 h2 hdeg] at hR
        exact (hnone (by rw [← hR])).elim
      have hc0 : shell.m_pInteractionCore.m_cClasses ≠ 0 := fun e => hdeg (Or.inl e)
      have hc1 : shell.m_pInteractionCore.m_cClasses ≠ 1 := fun e => hdeg (Or.inr (Or.inl e))
      have hs : shell.m_pInteractionCore.m_cSamples ≠ 0 := fun e => hdeg (Or.inr (Or.inr e))
      rw [calc_run _ _ _ _ _ _ _ _ _ _ _ hg h1 h2 hc0 hc1 hs] at hR
      have hreads := grows_of_onlyReads (shapeLoop_onlyReads env shell.m_pInteractionCore fi2
        (storeOut avg env.k_illegalGainDouble) (n - 1) 0
        { cAuxillaryBinsForBuildFastTotals := 0, cTensorBins := 1, acBins := [],
          aiFeatures := [] } w)
      generalize shapeLoop env shell.m_pInteractionCore fi2
        (storeOut avg env.k_illegalGainDouble) (n - 1) 0
        { cAuxillaryBinsForBuildFastTotals := 0, cTensorBins := 1, acBins := [],
          aiFeatures := [] } w = so at hreads hR
      cases so with
      | ret error o w2 =>
        simp only [afterShapeLoop] at hR
        have hw : growsBy (fun e => e.isAccumulation = true) w R.world := by
          rw [← hR]; exact growsBy_of_grows hreads
        exact Or.inl (growsBy_added hw e he)
      | next s2 w2 =>
        simp only [ShapeOutcome.world] at hreads
        simp only [afterShapeLoop] at hR
        by_cases hceil : cCardinalityMaxOf env maxC < s2.cTensorBins
        · rw [if_pos hceil] at hR
          have hw : growsBy (fun e => e.isAccumulation = true) w R.world := by
            rw [← hR]; exact growsBy_of_grows hreads
          exact Or.inl (growsBy_added hw e he)
        · rw [if_neg hceil] at hR
          have hadds := evaluateTensor_adds env alloc shell shell.m_pInteractionCore fi2 flags
            (cSamplesLeafMinOf env minS) n (storeOut avg env.k_illegalGainDouble) s2 w2 R hR
          have hall := growsBy_trans
            (growsBy_mono (growsBy_of_grows hreads) (fun e he => Or.inl he)) hadds
          rcases growsBy_added hall e he with hh | ⟨herr, hlate⟩
          · exact Or.inl hh
          · refine Or.inr ⟨shell, n, fi2, s2, rfl, rfl, rfl, herr, ?_⟩
            rcases hlate with ⟨hd, ho, hp⟩ | ⟨hd, ho, hp⟩
            · exact Or.inl ⟨hd, by rw [ho, storeOut_storeOut], hp⟩
            · exact Or.inr ⟨hd, ho, hp⟩

/-! ## The clamp, case by case -/

theorem clampGain_nan_or_inf (env : Env) (g : Dbl) (h : g = Dbl.nan ∨ g = dblInfinity) :
    clampGain env g = env.k_illegalGainDouble := by
  rcases h with h | h <;> subst h <;> rfl

theorem clampGain_small_negative (env : Env) (g : Dbl) (h1 : Dbl.lt g dblZero = true)
    (h2 : Dbl.le dblLowest g = true) : clampGain env g = dblZero := by
  have h3 : Dbl.le g dblMax = true := by
    cases g with
    | nan => revert h1; decide
    | inf neg =>
      cases neg
      · revert h1; decide
      · revert h2; decide
    | fin neg m =>
      have hm := m.isLt
      cases neg
      · simp only [Dbl.le, Dbl.key, dblMax, decide_eq_true_eq]
        simp only [Dbl.lt, Dbl.key, dblZero, decide_eq_true_eq] at h1
        omega
      · simp only [Dbl.le, Dbl.key, dblMax, decide_eq_true_eq]
        omega
  unfold clampGain
  simp [h1, h2, h3]

theorem Dbl.lt_lowest_iff (g : Dbl) : Dbl.lt g dblLowest = true ↔ g = Dbl.inf true := by
  cases g with
  | nan => decide
  | inf neg => cases neg <;> decide
  | fin neg m =>
    have hm := m.isLt
    unfold dblFiniteCount at hm
    cases neg
    · simp only [Dbl.lt, Dbl.key, dblLowest, decide_eq_true_eq]
      constructor
      · intro h; omega
      · intro h; exact Dbl.noConfusion h
    · simp only [Dbl.lt, Dbl.key, dblLowest, decide_eq_true_eq]
      constructor
      · intro h; omega
      · intro h; exact Dbl.noConfusion h

theorem clampGain_below_lowest (env : Env) (g : Dbl) (h : Dbl.lt g dblLowest = true) :
    clampGain env g = env.k_illegalGainDouble := by
  rw [(Dbl.lt_lowest_iff g).mp h]
  rfl

theorem clampGain_pass (env : Env) (g : Dbl) (h1 : Dbl.le dblZero g = true)
    (h2 : Dbl.le g dblMax = true) : clampGain env g = g := by
  have h3 : Dbl.lt g dblZero = false := by
    cases g with
    | nan => revert h1; decide
    | inf neg =>
      cases neg
      · revert h2; decide
      · revert h1; decide
    | fin neg m =>
      cases neg
      · simp only [Dbl.lt, Dbl.key, dblZero, decide_eq_false_iff_not]
        omega
      · simp only [Dbl.le, Dbl.key, dblZero, decide_eq_true_eq] at h1
        simp only [Dbl.lt, Dbl.key, dblZero, decide_eq_false_iff_not]
        omega
  unfold clampGain
  simp [h2, h3]

/-- Every datum is NaN or positive infinity, or negative and not below the most
negative finite value, or below it, or between 0.0 and the largest finite
value. -/
theorem Dbl.clamp_cases (g : Dbl) :
    (g = Dbl.nan ∨ g = dblInfinity)
      ∨ (Dbl.lt g dblZero = true ∧ Dbl.le dblLowest g = true)
      ∨ Dbl.lt g dblLowest = true
      ∨ (Dbl.le dblZero g = true ∧ Dbl.le g dblMax = true) := by
  cases g with
  | nan => exact Or.inl (Or.inl rfl)
  | inf neg =>
    cases neg
    · exact Or.inl (Or.inr rfl)
    · exact Or.inr (Or.inr (Or.inl (by decide)))
  | fin neg m =>
    have hm := m.isLt
    unfold dblFiniteCount at hm
    cases neg
    · refine Or.inr (Or.inr (Or.inr ⟨?_, ?_⟩))
      · simp only [Dbl.le, Dbl.key, dblZero, decide_eq_true_eq]; omega
      · simp only [Dbl.le, Dbl.key, dblMax, decide_eq_true_eq]; omega
    · by_cases h0 : m.val = 0
      · refine Or.inr (Or.inr (Or.inr ⟨?_, ?_⟩))
        · simp only [Dbl.le, Dbl.key, dblZero, decide_eq_true_eq]; omega
        · simp only [Dbl.le, Dbl.key, dblMax, decide_eq_true_eq]; omega
      · refine Or.inr (Or.inl ⟨?_, ?_⟩)
        · simp only [Dbl.lt, Dbl.key, dblZero, decide_eq_true_eq]; omega
        · simp only [Dbl.le, Dbl.key, dblLowest, decide_eq_true_eq]; omega

/-- A value that is at least 0.0 is not below 0.0. -/
theorem Dbl.not_lt_zero_of_le (g : Dbl) (h : Dbl.le dblZero g = true) :
    Dbl.lt g dblZero = false := by
  cases g with
  | nan => rfl
  | inf neg => cases neg <;> simp_all [Dbl.le, Dbl.lt, Dbl.key, dblZero, dblFiniteCount]
  | fin neg mag =>
    cases neg
    · simp [Dbl.lt, Dbl.key, dblZero]
    · simp only [Dbl.le, Dbl.key, dblZero, decide_eq_true_eq] at h
      simp only [Dbl.lt, Dbl.key, dblZero, decide_eq_false_iff_not]
      omega

/-- With a sentinel that is a negative value, the clamp gives the sentinel exactly
for NaN and the two infinities. -/
theorem clampGain_eq_sentinel_iff (env : Env) (g : Dbl)
    (hneg : Dbl.lt env.k_illegalGainDouble dblZero = true) :
    some (clampGain env g) = some env.k_illegalGainDouble
      ↔ (g = Dbl.nan ∨ g = dblInfinity ∨ g = Dbl.inf true) := by
  constructor
  · intro h
    have hc : clampGain env g = env.k_illegalGainDouble := Option.some.inj h
    rcases Dbl.clamp_cases g with h1 | ⟨h1, h2⟩ | h1 | ⟨h1, h2⟩
    · rcases h1 with h1 | h1
      · exact Or.inl h1
      · exact Or.inr (Or.inl h1)
    · rw [clampGain_small_negative env g h1 h2] at hc
      rw [← hc] at hneg
      exact absurd hneg (by decide)
    · exact Or.inr (Or.inr ((Dbl.lt_lowest_iff g).mp h1))
    · rw [clampGain_pass env g h1 h2] at hc
      rw [← hc, Dbl.not_lt_zero_of_le g h1] at hneg
      exact Bool.noConfusion hneg
  · intro h
    rcases h with h | h | h
    · rw [clampGain_nan_or_inf env g (Or.inl h)]
    · rw [clampGain_nan_or_inf env g (Or.inr h)]
    · rw [clampGain_below_lowest env g ((Dbl.lt_lowest_iff g).mpr h)]

/-! ## The two converted arguments -/

theorem cCardinalityMaxOf_unlimited (env : Env) (maxC : Int)
    (h : maxC ≤ 0 ∨ (SIZE_MAX env : Int) < maxC) : cCardinalityMaxOf env maxC = SIZE_MAX env := by
  unfold cCardinalityMaxOf IsConvertErrorSizeT
  simp only
  by_cases h1 : 0 ≤ maxC
  · rw [if_pos h1]
    by_cases h2 : 0 ≠ maxC
    · rw [if_pos h2]
      have h3 : maxC < 0 ∨ (SIZE_MAX env : Int) < maxC := by omega
      simp [h3]
    · rw [if_neg h2]
  · rw [if_neg h1]

theorem cSamplesLeafMinOf_small (env : Env) (minS : Int) (h : minS < 1) :
    cSamplesLeafMinOf env minS = 1 := by
  unfold cSamplesLeafMinOf
  have h1 : ¬ 1 ≤ minS := by omega
  simp [h1]

theorem cSamplesLeafMinOf_representable (env : Env) (minS : Int) (h1 : 1 ≤ minS)
    (h2 : minS ≤ (SIZE_MAX env : Int)) : (cSamplesLeafMinOf env minS : Int) = minS := by
  unfold cSamplesLeafMinOf IsConvertErrorSizeT
  have h3 : ¬ (minS < 0 ∨ (SIZE_MAX env : Int) < minS) := by omega
  simp only [h1, if_true, h3, decide_False, Bool.false_eq_true, if_false]
  rw [toSizeT_of_representable env minS (by omega) h2]
  exact Int.toNat_of_nonneg (by omega)

theorem cSamplesLeafMinOf_saturated (env : Env) (minS : Int)
    (h : (SIZE_MAX env : Int) < minS) : cSamplesLeafMinOf env minS = SIZE_MAX env := by
  unfold cSamplesLeafMinOf IsConvertErrorSizeT
  have h1 : 1 ≤ minS := by omega
  have h3 : minS < 0 ∨ (SIZE_MAX env : Int) < minS := Or.inr h
  simp [h1, h3]

theorem SIZE_MAX_pos (env : Env) (h : 0 < env.cBitsSizeT) : 1 ≤ SIZE_MAX env := by
  unfold SIZE_MAX
  have h2 : 2 ^ 1 ≤ 2 ^ env.cBitsSizeT := Nat.pow_le_pow_right (by decide) h
  omega

theorem cSamplesLeafMinOf_pos (env : Env) (minS : Int) (h : 0 < env.cBitsSizeT) :
    1 ≤ cSamplesLeafMinOf env minS := by
  have hmax := SIZE_MAX_pos env h
  by_cases h1 : minS < 1
  · rw [cSamplesLeafMinOf_small env minS h1]
  · by_cases h2 : minS ≤ (SIZE_MAX env : Int)
    · have := cSamplesLeafMinOf_representable env minS (by omega) h2
      omega
    · rw [cSamplesLeafMinOf_saturated env minS (by omega)]
      exact hmax

/-! ## The cardinality the shape loop hands on -/

theorem shapeBody_next_bound (env : Env) (core : InteractionCore) (f : Nat → Int)
    (out : Option Dbl) (i : Nat) (s : Shape) (w : World) (s2 : Shape) (w2 : World)
    (h : shapeBody env core f out i s w = .next s2 w2) : s2.cTensorBins ≤ SIZE_MAX env := by
  have hlt : ∀ x : Nat, x % 2 ^ env.cBitsSizeT ≤ SIZE_MAX env := by
    intro x
    have h1 : x % 2 ^ env.cBitsSizeT < 2 ^ env.cBitsSizeT := Nat.mod_lt _ (Nat.pow_pos (by decide))
    unfold SIZE_MAX
    omega
  unfold shapeBody at h
  simp only at h
  split at h
  · exact ShapeOutcome.noConfusion h
  · split at h
    · exact ShapeOutcome.noConfusion h
    · split at h
      · exact ShapeOutcome.noConfusion h
      · split at h
        · exact ShapeOutcome.noConfusion h
        · injection h with h1 h2
          rw [← h1]
          exact hlt _

/-- The cardinality with which the shape loop falls through is a `size_t`. -/
theorem shapeLoop_next_bound (env : Env) (core : InteractionCore) (f : Nat → Int)
    (out : Option Dbl) :
    ∀ (k i : Nat) (s : Shape) (w : World) (s2 : Shape) (w2 : World),
      shapeLoop env core f out k i s w = .next s2 w2 → s2.cTensorBins ≤ SIZE_MAX env := by
  intro k
  induction k with
  | zero =>
    intro i s w s2 w2 h
    exact shapeBody_next_bound env core f out i s w s2 w2 h
  | succ k ih =>
    intro i s w s2 w2 h
    rw [shapeLoop_succ] at h
    cases hb : shapeBody env core f out i s w with
    | ret e1 o1 w1 =>
      rw [hb] at h
      exact ShapeOutcome.noConfusion h
    | next s1 w1 =>
      rw [hb] at h
      exact ih (i + 1) s1 w1 s2 w2 h

/-! ## The flag word -/

/-- The normalisation reads the flag word through the `EnableNewton` bit only. -/
theorem normalizeGain_flags (env : Env) (core : InteractionCore) (flags1 flags2 : Nat) (g : Dbl)
    (hn : flags1 &&& env.CalcInteractionFlags_EnableNewton
      = flags2 &&& env.CalcInteractionFlags_EnableNewton) :
    normalizeGain env core flags1 g = normalizeGain env core flags2 g := by
  unfold normalizeGain
  rw [hn]

/-- Lines 271-505 return the same code, store the same strength and leave the
same shell for two flag words that agree on the two known bits, when the
searcher reads the flag word through these bits only. -/
theorem evaluateTensor_flags (env : Env) (alloc : Nat → Nat → Bool) (shell : InteractionShell)
    (core : InteractionCore) (fi : Nat → Int) (flags1 flags2 : Nat)
    (cSamplesLeafMin cDimensions : Nat) (out : Option Dbl) (s : Shape) (w : World)
    (hsearch : searcherReadsKnownFlags env core)
    (hp : flags1 &&& env.CalcInteractionFlags_Pure = flags2 &&& env.CalcInteractionFlags_Pure)
    (hn : flags1 &&& env.CalcInteractionFlags_EnableNewton
      = flags2 &&& env.CalcInteractionFlags_EnableNewton) :
    (evaluateTensor env alloc shell core fi flags1 cSamplesLeafMin cDimensions out s w).error
        = (evaluateTensor env alloc shell core fi flags2 cSamplesLeafMin cDimensions out s w).error
      ∧ (evaluateTensor env alloc shell core fi flags1 cSamplesLeafMin cDimensions out s w).avgInteractionStrengthOut
        = (evaluateTensor env alloc shell core fi flags2 cSamplesLeafMin cDimensions out s w).avgInteractionStrengthOut
      ∧ (evaluateTensor env alloc shell core fi flags1 cSamplesLeafMin cDimensions out s w).shell
        = (evaluateTensor env alloc shell core fi flags2 cSamplesLeafMin cDimensions out s w).shell := by
  have hraw := hsearch s.aiFeatures s.acBins flags1 flags2 cSamplesLeafMin hp hn
  have hnorm := normalizeGain_flags env core flags1 flags2
    (core.PartitionTwoDimensionalInteraction s.aiFeatures s.acBins flags2 cSamplesLeafMin) hn
  unfold evaluateTensor
  simp only
  generalize env.GetBinSize env.sizeofFloatMain env.sizeofUIntMain core.m_bHessian
    (env.GetCountScores core.m_cClasses) = cBytesPerMainBin
  generalize (s.cTensorBins + EbmMax s.cAuxillaryBinsForBuildFastTotals 4) % 2 ^ env.cBitsSizeT
    = cTotalMainBins
  by_cases ha : IsAddError env s.cTensorBins (EbmMax s.cAuxillaryBinsForBuildFastTotals 4) = true
  · rw [if_pos ha, if_pos ha]; exact ⟨rfl, rfl, rfl⟩
  rw [if_neg ha, if_neg ha]
  by_cases hm : IsMultiplyError env cBytesPerMainBin cTotalMainBins = true
  · rw [if_pos hm, if_pos hm]; exact ⟨rfl, rfl, rfl⟩
  rw [if_neg hm, if_neg hm]
  generalize GetInteractionMainBins env alloc shell w cBytesPerMainBin cTotalMainBins = r
  obtain ⟨o, shell2, w2⟩ := r
  cases o with
  | none => exact ⟨rfl, rfl, rfl⟩
  | some aMainBins =>
    simp only
    generalize subsetLoop env alloc core fi cDimensions (env.GetCountScores core.m_cClasses) s 0
      core.m_subsetFirst core.m_aSubsetsRest shell2
      (w2.emit (Event.zeroMain ((cBytesPerMainBin * s.cTensorBins) % 2 ^ env.cBitsSizeT)))
      = so
    cases so with
    | ret error shell3 w3 => exact ⟨rfl, rfl, rfl⟩
    | next shell3 w3 =>
      simp only
      by_cases hd : 2 = cDimensions
      · rw [if_pos hd, if_pos hd]
        refine ⟨rfl, ?_, rfl⟩
        simp only
        rw [hraw, hnorm]
      · rw [if_neg hd, if_neg hd]
        exact ⟨rfl, rfl, rfl⟩

/-- A call returns the same code, stores the same strength and leaves the same
shell for two flag words that agree on the two known bits, when the searcher
of the detector behind the handle reads the flag word through these bits
only. -/
theorem calc_flags (env : Env) (alloc : Nat → Nat → Bool) (h : Option InteractionShell)
    (w : World) (cd : Int) (fi : Option (Nat → Int)) (flags1 flags2 : Nat) (maxC minS : Int)
    (avg : Option Dbl)
    (hsearch : ∀ shell, GetInteractionShellFromHandle env h = some shell →
      searcherReadsKnownFlags env shell.m_pInteractionCore)
    (hp : flags1 &&& env.CalcInteractionFlags_Pure = flags2 &&& env.CalcInteractionFlags_Pure)
    (hn : flags1 &&& env.CalcInteractionFlags_EnableNewton
      = flags2 &&& env.CalcInteractionFlags_EnableNewton) :
    (CalcInteractionStrength env alloc h w cd fi flags1 maxC minS avg).error
        = (CalcInteractionStrength env alloc h w cd fi flags2 maxC minS avg).error
      ∧ (CalcInteractionStrength env alloc h w cd fi flags1 maxC minS avg).avgInteractionStrengthOut
        = (CalcInteractionStrength env alloc h w cd fi flags2 maxC minS avg).avgInteractionStrengthOut
      ∧ (CalcInteractionStrength env alloc h w cd fi flags1 maxC minS avg).shell
        = (CalcInteractionStrength env alloc h w cd fi flags2 maxC minS avg).shell := by
  cases hg : GetInteractionShellFromHandle env h with
  | none =>
    rw [calc_invalid_handle _ _ _ _ _ _ _ _ _ _ hg, calc_invalid_handle _ _ _ _ _ _ _ _ _ _ hg]
    exact ⟨rfl, rfl, rfl⟩
  | some shell =>
    by_cases hneg : cd < 0
    · rw [calc_negative_dimensions _ _ _ _ _ _ _ _ _ _ _ hg hneg,
        calc_negative_dimensions _ _ _ _ _ _ _ _ _ _ _ hg hneg]
      exact ⟨rfl, rfl, rfl⟩
    by_cases hzero : cd = 0
    · subst hzero
      rw [calc_zero_dimensions _ _ _ _ _ _ _ _ _ _ hg, calc_zero_dimensions _ _ _ _ _ _ _ _ _ _ hg]
      exact ⟨rfl, rfl, rfl⟩
    have hpos : 0 < cd := by omega
    cases fi with
    | none =>
      rw [calc_null_indexes _ _ _ _ _ _ _ _ _ _ hg hpos,
        calc_null_indexes _ _ _ _ _ _ _ _ _ _ hg hpos]
      exact ⟨rfl, rfl, rfl⟩
    | some fi2 =>
      by_cases hbig : (env.k_cDimensionsMax : Int) < cd
      · rw [calc_too_many_dimensions _ _ _ _ _ _ _ _ _ _ _ hg hbig,
          calc_too_many_dimensions _ _ _ _ _ _ _ _ _ _ _ hg hbig]
        exact ⟨rfl, rfl, rfl⟩
      obtain ⟨n, rfl⟩ : ∃ n : Nat, cd = (n : Int) := ⟨cd.toNat, by omega⟩
      have h1 : 1 ≤ n := by omega
      have h2 : n ≤ env.k_cDimensionsMax := by omega
      by_cases hdeg : shell.m_pInteractionCore.m_cClasses = 0
          ∨ shell.m_pInteractionCore.m_cClasses = 1 ∨ shell.m_pInteractionCore.m_cSamples = 0
      · rw [calc_degenerate _ _ _ _ _ _ _ _ _ _ _ hg h1 h2 hdeg,
          calc_degenerate _ _ _ _ _ _ _ _ _ _ _ hg h1 h2 hdeg]
        exact ⟨rfl, rfl, rfl⟩
      have hc0 : shell.m_pInteractionCore.m_cClasses ≠ 0 := fun e => hdeg (Or.inl e)
      have hc1 : shell.m_pInteractionCore.m_cClasses ≠ 1 := fun e => hdeg (Or.inr (Or.inl e))
      have hs : shell.m_pInteractionCore.m_cSamples ≠ 0 := fun e => hdeg (Or.inr (Or.inr e))
      rw [calc_run _ _ _ _ _ _ _ _ _ _ _ hg h1 h2 hc0 hc1 hs,
        calc_run _ _ _ _ _ _ _ _ _ _ _ hg h1 h2 hc0 hc1 hs]
      generalize shapeLoop env shell.m_pInteractionCore fi2
        (storeOut avg env.k_illegalGainDouble) (n - 1) 0
        { cAuxillaryBinsForBuildFastTotals := 0, cTensorBins := 1, acBins := [],
          aiFeatures := [] } w = so
      cases so with
      | ret error o w2 => exact ⟨rfl, rfl, rfl⟩
      | next s2 w2 =>
        simp only [afterShapeLoop]
        by_cases hceil : cCardinalityMaxOf env maxC < s2.cTensorBins
        · rw [if_pos hceil, if_pos hceil]
          exact ⟨rfl, rfl, rfl⟩
        · rw [if_neg hceil, if_neg hceil]
          exact evaluateTensor_flags env alloc shell shell.m_pInteractionCore fi2 flags1 flags2
            (cSamplesLeafMinOf env minS) n (storeOut avg env.k_illegalGainDouble) s2 w2
            (hsearch shell hg) hp hn

/-! ## The claims on the searcher, the clamp and the converted arguments -/

/-- C12, as the code has it: a raw gain equal to the most negative finite double is not
mapped to the sentinel as such; it is normalised and clamped like any raw gain.
When the searcher returned it, the stored strength is the clamp of its
normalised value: 0.0 when that value is negative and not below the most
negative finite double, the sentinel when normalisation gave NaN or an
infinity. For a sentinel that is a negative value and a non-null output
location the converse holds too: the sentinel is stored only when
normalisation gave NaN or an infinity. -/
theorem C12_no_split_goes_through_clamp (env : Env) (alloc : Nat → Nat → Bool)
    (h : Option InteractionShell) (shell : InteractionShell) (w : World) (cd : Int)
    (fi : Option (Nat → Int)) (flags : Nat) (maxC minS : Int) (avg : Option Dbl)
    (d : Nat) (ac : List Nat) (fl cs : Nat)
    (hvalid : GetInteractionShellFromHandle env h = some shell)
    (he : Event.partition2d d ac fl cs dblLowest
      ∈ addedEvents w (CalcInteractionStrength env alloc h w cd fi flags maxC minS avg)) :
    (CalcInteractionStrength env alloc h w cd fi flags maxC minS avg).avgInteractionStrengthOut
        = storeOut avg (clampGain env (normalizeGain env shell.m_pInteractionCore flags dblLowest))
    ∧ (Dbl.lt (normalizeGain env shell.m_pInteractionCore flags dblLowest) dblZero = true →
        Dbl.le dblLowest (normalizeGain env shell.m_pInteractionCore flags dblLowest) = true →
        (CalcInteractionStrength env alloc h w cd fi flags maxC minS avg).avgInteractionStrengthOut = storeOut avg dblZero)
    ∧ ((normalizeGain env shell.m_pInteractionCore flags dblLowest = Dbl.nan
          ∨ normalizeGain env shell.m_pInteractionCore flags dblLowest = dblInfinity
          ∨ normalizeGain env shell.m_pInteractionCore flags dblLowest = Dbl.inf true) →
        (CalcInteractionStrength env alloc h w cd fi flags maxC minS avg).avgInteractionStrengthOut
          = storeOut avg env.k_illegalGainDouble)
    ∧ (Dbl.lt env.k_illegalGainDouble dblZero = true → ∀ v0, avg = some v0 →
        ((CalcInteractionStrength env alloc h w cd fi flags maxC minS avg).avgInteractionStrengthOut
            = some env.k_illegalGainDouble
          ↔ (normalizeGain env shell.m_pInteractionCore flags dblLowest = Dbl.nan
            ∨ normalizeGain env shell.m_pInteractionCore flags dblLowest = dblInfinity
            ∨ normalizeGain env shell.m_pInteractionCore flags dblLowest = Dbl.inf true))) := by
  have hout : (CalcInteractionStrength env alloc h w cd fi flags maxC minS avg).avgInteractionStrengthOut
      = storeOut avg (clampGain env (normalizeGain env shell.m_pInteractionCore flags dblLowest)) := by
    rcases calc_added env alloc h w cd fi flags maxC minS avg _ rfl _ he with
      hh | ⟨shell2, n, fi2, s, hv2, _, _, _, hcase⟩
    · exact Bool.noConfusion hh
    · have hsh : shell2 = shell := Option.some.inj (hv2.symm.trans hvalid)
      subst hsh
      rcases hcase with ⟨_, ho, hp⟩ | ⟨_, _, hq⟩
      · have heq := hp rfl
        injection heq with _ _ _ _ hraw
        rw [ho, ← hraw]
      · exact Bool.noConfusion hq
  have hsent : ∀ g : Dbl, (g = Dbl.nan ∨ g = dblInfinity ∨ g = Dbl.inf true) →
      clampGain env g = env.k_illegalGainDouble := by
    intro g h1
    rcases h1 with h1 | h1 | h1
    · exact clampGain_nan_or_inf env _ (Or.inl h1)
    · exact clampGain_nan_or_inf env _ (Or.inr h1)
    · exact clampGain_below_lowest env _ ((Dbl.lt_lowest_iff _).mpr h1)
  refine ⟨hout, ?_, ?_, ?_⟩
  · intro h1 h2
    rw [hout, clampGain_small_negative env _ h1 h2]
  · intro h1
    rw [hout, hsent _ h1]
  · intro hneg v0 havg
    rw [hout, havg]
    exact clampGain_eq_sentinel_iff env _ hneg

/-- C13: the clamp of lines 455-476 is this case analysis on the normalised gain `g`:
NaN or positive infinity gives the sentinel; a negative `g` that is not below
the most negative finite double gives 0.0; a `g` below the most negative
finite double, which is negative infinity and nothing else, gives the
sentinel; a `g` from 0.0 to the largest finite double is passed through
unchanged; and every `g` is in one of the four cases. Whenever the searcher
ran, what the call stores is this clamp of the normalised raw gain. -/
theorem C13_clamp_case_analysis (env : Env) (g : Dbl) :
    ((g = Dbl.nan ∨ g = dblInfinity) → clampGain env g = env.k_illegalGainDouble)
    ∧ (Dbl.lt g dblZero = true → Dbl.le dblLowest g = true → clampGain env g = dblZero)
    ∧ (Dbl.lt g dblLowest = true → clampGain env g = env.k_illegalGainDouble)
    ∧ (Dbl.lt g dblLowest = true ↔ g = Dbl.inf true)
    ∧ (Dbl.le dblZero g = true → Dbl.le g dblMax = true → clampGain env g = g)
    ∧ ((g = Dbl.nan ∨ g = dblInfinity)
        ∨ (Dbl.lt g dblZero = true ∧ Dbl.le dblLowest g = true)
        ∨ Dbl.lt g dblLowest = true
        ∨ (Dbl.le dblZero g = true ∧ Dbl.le g dblMax = true))
    ∧ (∀ (alloc : Nat → Nat → Bool) (h : Option InteractionShell) (shell : InteractionShell)
        (w : World) (cd : Int) (fi : Option (Nat → Int)) (flags : Nat) (maxC minS : Int)
        (avg : Option Dbl) (d : Nat) (ac : List Nat) (fl cs : Nat) (raw : Dbl),
        GetInteractionShellFromHandle env h = some shell →
        Event.partition2d d ac fl cs raw
          ∈ addedEvents w (CalcInteractionStrength env alloc h w cd fi flags maxC minS avg) →
        (CalcInteractionStrength env alloc h w cd fi flags maxC minS avg).avgInteractionStrengthOut
          = storeOut avg (clampGain env (normalizeGain env shell.m_pInteractionCore flags raw))) := by
  refine ⟨clampGain_nan_or_inf env g, clampGain_small_negative env g,
    clampGain_below_lowest env g, Dbl.lt_lowest_iff g, clampGain_pass env g, Dbl.clamp_cases g, ?_⟩
  intro alloc h shell w cd fi flags maxC minS avg d ac fl cs raw hvalid he
  rcases calc_added env alloc h w cd fi flags maxC minS avg _ rfl _ he with
    hh | ⟨shell2, n, fi2, s, hv2, _, _, _, hcase⟩
  · exact Bool.noConfusion hh
  · have hsh : shell2 = shell := Option.some.inj (hv2.symm.trans hvalid)
    subst hsh
    rcases hcase with ⟨_, ho, hp⟩ | ⟨_, _, hq⟩
    · have heq := hp rfl
      injection heq with _ _ _ _ hraw
      rw [ho, ← hraw]
    · exact Bool.noConfusion hq

/-- C14: a `maxCardinality` that is negative or zero, and a positive one that
`size_t` cannot hold, give the effective ceiling `SIZE_MAX`, and then the
ceiling check never short-circuits: whenever the shape loop falls through, the
call goes on with the sizing of the tensor. Every other `maxCardinality` is
itself the effective ceiling. -/
theorem C14_ceiling_off_or_exact (env : Env) (maxC : Int) :
    ((maxC ≤ 0 ∨ (SIZE_MAX env : Int) < maxC) → cCardinalityMaxOf env maxC = SIZE_MAX env)
    ∧ ((maxC ≤ 0 ∨ (SIZE_MAX env : Int) < maxC) →
        ∀ (alloc : Nat → Nat → Bool) (h : Option InteractionShell) (shell : InteractionShell)
          (w : World) (n : Nat) (fi : Nat → Int) (flags : Nat) (minS : Int) (avg : Option Dbl)
          (s : Shape) (w1 : World),
          GetInteractionShellFromHandle env h = some shell →
          1 ≤ n → n ≤ env.k_cDimensionsMax →
          shell.m_pInteractionCore.m_cClasses ≠ 0 → shell.m_pInteractionCore.m_cClasses ≠ 1 →
          shell.m_pInteractionCore.m_cSamples ≠ 0 →
          shapeLoop env shell.m_pInteractionCore fi (storeOut avg env.k_illegalGainDouble)
            (n - 1) 0
            { cAuxillaryBinsForBuildFastTotals := 0, cTensorBins := 1, acBins := [],
              aiFeatures := [] } w = .next s w1 →
          CalcInteractionStrength env alloc h w (n : Int) (some fi) flags maxC minS avg
            = evaluateTensor env alloc shell shell.m_pInteractionCore fi flags
                (cSamplesLeafMinOf env minS) n (storeOut avg env.k_illegalGainDouble) s w1)
    ∧ (0 < maxC → maxC ≤ (SIZE_MAX env : Int) → (cCardinalityMaxOf env maxC : Int) = maxC) := by
  refine ⟨cCardinalityMaxOf_unlimited env maxC, ?_, ?_⟩
  · intro hoff alloc h shell w n fi flags minS avg s w1 hvalid h1 h2 hc0 hc1 hs hso
    rw [calc_run _ _ _ _ _ _ _ _ _ _ _ hvalid h1 h2 hc0 hc1 hs, hso]
    have hb := shapeLoop_next_bound env shell.m_pInteractionCore fi _ _ _ _ _ _ _ hso
    have hn : ¬ cCardinalityMaxOf env maxC < s.cTensorBins := by
      rw [cCardinalityMaxOf_unlimited env maxC hoff]; omega
    simp only [afterShapeLoop, if_neg hn]
  · intro hpos hrep
    rw [cCardinalityMaxOf_ceiling env maxC hpos hrep]
    exact Int.toNat_of_nonneg (by omega)

/-- C15: the threshold `cSamplesLeafMin` is `max(1, minSamplesLeaf)` saturated to
`SIZE_MAX`: 1 for every `minSamplesLeaf` below 1, `minSamplesLeaf` itself when
it is at least 1 and `size_t` holds it, `SIZE_MAX` when `size_t` does not hold
it; it is never 0 (`size_t` has at least one bit); and it is the threshold
handed to the searcher in every call that runs the searcher. -/
theorem C15_leaf_threshold (env : Env) (minS : Int) (hbits : 0 < env.cBitsSizeT) :
    (minS < 1 → cSamplesLeafMinOf env minS = 1)
    ∧ (1 ≤ minS → minS ≤ (SIZE_MAX env : Int) → (cSamplesLeafMinOf env minS : Int) = minS)
    ∧ ((SIZE_MAX env : Int) < minS → cSamplesLeafMinOf env minS = SIZE_MAX env)
    ∧ cSamplesLeafMinOf env minS ≠ 0
    ∧ (∀ (alloc : Nat → Nat → Bool) (h : Option InteractionShell) (w : World) (cd : Int)
        (fi : Option (Nat → Int)) (flags : Nat) (maxC : Int) (avg : Option Dbl)
        (d : Nat) (ac : List Nat) (fl cs : Nat) (raw : Dbl),
        Event.partition2d d ac fl cs raw
          ∈ addedEvents w (CalcInteractionStrength env alloc h w cd fi flags maxC minS avg) →
        cs = cSamplesLeafMinOf env minS) := by
  refine ⟨cSamplesLeafMinOf_small env minS, cSamplesLeafMinOf_representable env minS,
    cSamplesLeafMinOf_saturated env minS, ?_, ?_⟩
  · have := cSamplesLeafMinOf_pos env minS hbits
    omega
  · intro alloc h w cd fi flags maxC avg d ac fl cs raw he
    rcases calc_added env alloc h w cd fi flags maxC minS avg _ rfl _ he with
      hh | ⟨shell2, n, fi2, s, _, _, _, _, hcase⟩
    · exact Bool.noConfusion hh
    · rcases hcase with ⟨_, _, hp⟩ | ⟨_, _, hq⟩
      · have heq := hp rfl
        injection heq with _ _ _ hcs _
      · exact Bool.noConfusion hq

/-- C16: two calls whose flag words agree on the `Pure` bit and on the
`EnableNewton` bit, and that are the same otherwise, return the same code,
store the same strength and leave the same shell, for a searcher that reads
the flag word through these two bits only. The orchestrator itself reads the
flag word through the `EnableNewton` bit only (the normalisation is the same
for the two words), and it hands the flag word to the searcher unchanged. -/
theorem C16_unknown_flag_bits_ignored (env : Env) (alloc : Nat → Nat → Bool)
    (h : Option InteractionShell) (w : World) (cd : Int) (fi : Option (Nat → Int))
    (flags1 flags2 : Nat) (maxC minS : Int) (avg : Option Dbl)
    (hsearch : ∀ shell, GetInteractionShellFromHandle env h = some shell →
      searcherReadsKnownFlags env shell.m_pInteractionCore)
    (hp : flags1 &&& env.CalcInteractionFlags_Pure = flags2 &&& env.CalcInteractionFlags_Pure)
    (hn : flags1 &&& env.CalcInteractionFlags_EnableNewton
      = flags2 &&& env.CalcInteractionFlags_EnableNewton) :
    ((CalcInteractionStrength env alloc h w cd fi flags1 maxC minS avg).error
        = (CalcInteractionStrength env alloc h w cd fi flags2 maxC minS avg).error
      ∧ (CalcInteractionStrength env alloc h w cd fi flags1 maxC minS avg).avgInteractionStrengthOut
        = (CalcInteractionStrength env alloc h w cd fi flags2 maxC minS avg).avgInteractionStrengthOut
      ∧ (CalcInteractionStrength env alloc h w cd fi flags1 maxC minS avg).shell
        = (CalcInteractionStrength env alloc h w cd fi flags2 maxC minS avg).shell)
    ∧ (∀ (core : InteractionCore) (g : Dbl),
        normalizeGain env core flags1 g = normalizeGain env core flags2 g)
    ∧ (∀ (d : Nat) (ac : List Nat) (fl cs : Nat) (raw : Dbl),
        Event.partition2d d ac fl cs raw
          ∈ addedEvents w (CalcInteractionStrength env alloc h w cd fi flags1 maxC minS avg) →
        fl = flags1) := by
  refine ⟨calc_flags env alloc h w cd fi flags1 flags2 maxC minS avg hsearch hp hn,
    fun core g => normalizeGain_flags env core flags1 flags2 g hn, ?_⟩
  intro d ac fl cs raw he
  rcases calc_added env alloc h w cd fi flags1 maxC minS avg _ rfl _ he with
    hh | ⟨shell2, n, fi2, s, _, _, _, _, hcase⟩
  · exact Bool.noConfusion hh
  · rcases hcase with ⟨_, _, hq⟩ | ⟨_, _, hq⟩
    · have heq := hq rfl
      injection heq with _ _ hfl _ _
    · exact Bool.noConfusion hq

/-! ## The two buffer getters -/

theorem AlignedAlloc_size (alloc : Nat → Nat → Bool) (w : World) (cBytes : Nat) (b : Buffer)
    (h : (AlignedAlloc alloc w cBytes).1 = some b) : b.cBytes = cBytes := by
  unfold AlignedAlloc at h
  simp only at h
  split at h
  · injection h with h1
    rw [← h1]
  · exact Option.noConfusion h

/-- A request that the recorded capacity covers returns the stored pointer and
changes nothing but the trace, which gets the request. -/
theorem GetInteractionFastBinsTemp_reuse (env : Env) (alloc : Nat → Nat → Bool)
    (shell : InteractionShell) (w : World) (cBytes : Nat) (h : cBytes ≤ shell.m_cBytesFastBins) :
    GetInteractionFastBinsTemp env alloc shell w cBytes
      = (shell.m_aInteractionFastBinsTemp, shell, w.emit (Event.getFastBins cBytes)) := by
  unfold GetInteractionFastBinsTemp
  have h1 : ¬ shell.m_cBytesFastBins < cBytes := by omega
  simp only [if_neg h1]

theorem GetInteractionMainBins_reuse (env : Env) (alloc : Nat → Nat → Bool)
    (shell : InteractionShell) (w : World) (cBytesPerMainBin cMainBins : Nat)
    (h : cMainBins ≤ shell.m_cAllocatedMainBins) :
    GetInteractionMainBins env alloc shell w cBytesPerMainBin cMainBins
      = (shell.m_aInteractionMainBins, shell,
          w.emit (Event.getMainBins cBytesPerMainBin cMainBins)) := by
  unfold GetInteractionMainBins
  have h1 : ¬ shell.m_cAllocatedMainBins < cMainBins := by omega
  simp only [if_neg h1]

/-- One call of the fast getter: the main buffer and its capacity are untouched,
the fast capacity does not decrease, a returned buffer is the stored one and
the capacity covers the request, and consistency is kept. -/
theorem GetInteractionFastBinsTemp_step (env : Env) (alloc : Nat → Nat → Bool)
    (shell : InteractionShell) (w : World) (cBytes : Nat) :
    (GetInteractionFastBinsTemp env alloc shell w cBytes).2.1.m_aInteractionMainBins = shell.m_aInteractionMainBins
    ∧ (GetInteractionFastBinsTemp env alloc shell w cBytes).2.1.m_cAllocatedMainBins = shell.m_cAllocatedMainBins
    ∧ shell.m_cBytesFastBins ≤ (GetInteractionFastBinsTemp env alloc shell w cBytes).2.1.m_cBytesFastBins
    ∧ (∀ b, (GetInteractionFastBinsTemp env alloc shell w cBytes).1 = some b →
        (GetInteractionFastBinsTemp env alloc shell w cBytes).2.1.m_aInteractionFastBinsTemp = some b
        ∧ cBytes ≤ (GetInteractionFastBinsTemp env alloc shell w cBytes).2.1.m_cBytesFastBins)
    ∧ (fastConsistent shell → fastConsistent (GetInteractionFastBinsTemp env alloc shell w cBytes).2.1) := by
  by_cases h1 : shell.m_cBytesFastBins < cBytes
  · unfold GetInteractionFastBinsTemp
    simp only [if_pos h1]
    by_cases h3 : IsAddError env cBytes cBytes = true
    · rw [if_pos h3]
      refine ⟨rfl, rfl, le_refl _, ?_, ?_⟩
      · intro b hb; exact Option.noConfusion hb
      · intro _ b hb; exact Option.noConfusion hb
    · rw [if_neg h3]
      have hsz := AlignedAlloc_size alloc
        ((w.emit (Event.getFastBins cBytes)).emit (Event.free shell.m_aInteractionFastBinsTemp))
        (cBytes + cBytes)
      generalize AlignedAlloc alloc
        ((w.emit (Event.getFastBins cBytes)).emit (Event.free shell.m_aInteractionFastBinsTemp))
        (cBytes + cBytes) = r at hsz ⊢
      obtain ⟨o, w2⟩ := r
      cases o with
      | none =>
        refine ⟨rfl, rfl, ?_, ?_, ?_⟩
        · show shell.m_cBytesFastBins ≤ cBytes + cBytes
          omega
        · intro b hb; exact Option.noConfusion hb
        · intro _ b hb; exact Option.noConfusion hb
      | some b0 =>
        refine ⟨rfl, rfl, ?_, ?_, ?_⟩
        · show shell.m_cBytesFastBins ≤ cBytes + cBytes
          omega
        · intro b hb
          refine ⟨hb, ?_⟩
          show cBytes ≤ cBytes + cBytes
          omega
        · intro _ b hb
          have hb2 : b0 = b := Option.some.inj hb
          rw [← hb2]
          exact hsz b0 rfl
  · rw [GetInteractionFastBinsTemp_reuse env alloc shell w cBytes (by omega)]
    refine ⟨rfl, rfl, le_refl _, ?_, fun hc => hc⟩
    intro b hb
    exact ⟨hb, by show cBytes ≤ shell.m_cBytesFastBins; omega⟩

/-- One call of the main getter: the fast buffer and its capacity are untouched,
the main capacity does not decrease, a returned buffer is the stored one and
the capacity covers the request, and consistency is kept, with the bin size of
the call added to the list. -/
theorem GetInteractionMainBins_step (env : Env) (alloc : Nat → Nat → Bool)
    (shell : InteractionShell) (w : World) (cBytesPerMainBin cMainBins : Nat)
    (sizes : List Nat) :
    (GetInteractionMainBins env alloc shell w cBytesPerMainBin cMainBins).2.1.m_aInteractionFastBinsTemp = shell.m_aInteractionFastBinsTemp
    ∧ (GetInteractionMainBins env alloc shell w cBytesPerMainBin cMainBins).2.1.m_cBytesFastBins = shell.m_cBytesFastBins
    ∧ shell.m_cAllocatedMainBins ≤ (GetInteractionMainBins env alloc shell w cBytesPerMainBin cMainBins).2.1.m_cAllocatedMainBins
    ∧ (∀ b, (GetInteractionMainBins env alloc shell w cBytesPerMainBin cMainBins).1 = some b →
        (GetInteractionMainBins env alloc shell w cBytesPerMainBin cMainBins).2.1.m_aInteractionMainBins = some b
        ∧ cMainBins ≤ (GetInteractionMainBins env alloc shell w cBytesPerMainBin cMainBins).2.1.m_cAllocatedMainBins)
    ∧ (mainConsistent shell sizes →
        mainConsistent (GetInteractionMainBins env alloc shell w cBytesPerMainBin cMainBins).2.1 (cBytesPerMainBin :: sizes)) := by
  by_cases h1 : shell.m_cAllocatedMainBins < cMainBins
  · unfold GetInteractionMainBins
    simp only [if_pos h1]
    by_cases h3 : IsAddError env ((cMainBins >>> 2) + 16) cMainBins = true
    · rw [if_pos h3]
      refine ⟨rfl, rfl, le_refl _, ?_, ?_⟩
      · intro b hb; exact Option.noConfusion hb
      · intro _ b hb; exact Option.noConfusion hb
    · rw [if_neg h3]
      by_cases h5 : IsMultiplyError env cBytesPerMainBin (cMainBins + ((cMainBins >>> 2) + 16)) = true
      · rw [if_pos h5]
        refine ⟨rfl, rfl, ?_, ?_, ?_⟩
        · show shell.m_cAllocatedMainBins ≤ cMainBins + ((cMainBins >>> 2) + 16)
          omega
        · intro b hb; exact Option.noConfusion hb
        · intro _ b hb; exact Option.noConfusion hb
      · rw [if_neg h5]
        have hsz := AlignedAlloc_size alloc
          ((w.emit (Event.getMainBins cBytesPerMainBin cMainBins)).emit
            (Event.free shell.m_aInteractionMainBins))
          (cBytesPerMainBin * (cMainBins + ((cMainBins >>> 2) + 16)))
        generalize AlignedAlloc alloc
          ((w.emit (Event.getMainBins cBytesPerMainBin cMainBins)).emit
            (Event.free shell.m_aInteractionMainBins))
          (cBytesPerMainBin * (cMainBins + ((cMainBins >>> 2) + 16))) = r at hsz ⊢
        obtain ⟨o, w2⟩ := r
        cases o with
        | none =>
          refine ⟨rfl, rfl, ?_, ?_, ?_⟩
          · show shell.m_cAllocatedMainBins ≤ cMainBins + ((cMainBins >>> 2) + 16)
            omega
          · intro b hb; exact Option.noConfusion hb
          · intro _ b hb; exact Option.noConfusion hb
        | some b0 =>
          refine ⟨rfl, rfl, ?_, ?_, ?_⟩
          · show shell.m_cAllocatedMainBins ≤ cMainBins + ((cMainBins >>> 2) + 16)
            omega
          · intro b hb
            refine ⟨hb, ?_⟩
            show cMainBins ≤ cMainBins + ((cMainBins >>> 2) + 16)
            omega
          · intro _ b hb
            have hb2 : b0 = b := Option.some.inj hb
            rw [← hb2]
            exact ⟨cBytesPerMainBin, List.mem_cons_self _ _, hsz b0 rfl⟩
  · rw [GetInteractionMainBins_reuse env alloc shell w cBytesPerMainBin cMainBins (by omega)]
    refine ⟨rfl, rfl, le_refl _, ?_, ?_⟩
    · intro b hb
      exact ⟨hb, by show cMainBins ≤ shell.m_cAllocatedMainBins; omega⟩
    · intro hc b hb
      obtain ⟨x, hx, hxe⟩ := hc b hb
      exact ⟨x, List.mem_cons_of_mem _ hx, hxe⟩

/-! ## Sequences of calls on one shell -/

theorem mainConsistent_mono {shell : InteractionShell} {l1 l2 : List Nat}
    (h : mainConsistent shell l1) (hl : ∀ x, x ∈ l1 → x ∈ l2) : mainConsistent shell l2 := by
  intro b hb
  obtain ⟨x, hx, he⟩ := h b hb
  exact ⟨x, hl x hx, he⟩

theorem ShellCall_run_consistent (env : Env) (alloc : Nat → Nat → Bool) (c : ShellCall)
    (shell : InteractionShell) (w : World) (sizes : List Nat)
    (hf : fastConsistent shell) (hm : mainConsistent shell sizes) :
    fastConsistent (c.run env alloc shell w).2.1
      ∧ mainConsistent (c.run env alloc shell w).2.1 (mainBinSizes [c] ++ sizes) := by
  cases c with
  | fast cBytes =>
    obtain ⟨h1, h2, _, _, h5⟩ := GetInteractionFastBinsTemp_step env alloc shell w cBytes
    refine ⟨h5 hf, ?_⟩
    intro b hb
    simp only [ShellCall.run] at hb ⊢
    rw [h1] at hb
    rw [h2]
    exact hm b hb
  | main cBytesPerMainBin cMainBins =>
    obtain ⟨h1, h2, _, _, h5⟩ :=
      GetInteractionMainBins_step env alloc shell w cBytesPerMainBin cMainBins sizes
    refine ⟨?_, h5 hm⟩
    intro b hb
    simp only [ShellCall.run] at hb ⊢
    rw [h1] at hb
    rw [h2]
    exact hf b hb

theorem mainBinSizes_cons (c : ShellCall) (cs : List ShellCall) (x : Nat) :
    x ∈ mainBinSizes (c :: cs) ↔ x ∈ mainBinSizes [c] ∨ x ∈ mainBinSizes cs := by
  cases c with
  | fast cBytes => simp [mainBinSizes]
  | main cBytesPerMainBin cMainBins => simp [mainBinSizes]

/-- Consistency of the two buffers with their capacities is kept by every
sequence of calls. -/
theorem runCalls_consistent (env : Env) (alloc : Nat → Nat → Bool) :
    ∀ (calls : List ShellCall) (shell : InteractionShell) (w : World) (sizes : List Nat),
      fastConsistent shell → mainConsistent shell sizes →
      fastConsistent (runCalls env alloc calls shell w).1
        ∧ mainConsistent (runCalls env alloc calls shell w).1 (mainBinSizes calls ++ sizes) := by
  intro calls
  induction calls with
  | nil =>
    intro shell w sizes hf hm
    exact ⟨hf, by simpa [mainBinSizes] using hm⟩
  | cons c cs ih =>
    intro shell w sizes hf hm
    obtain ⟨hf1, hm1⟩ := ShellCall_run_consistent env alloc c shell w sizes hf hm
    obtain ⟨hf2, hm2⟩ := ih (c.run env alloc shell w).2.1 (c.run env alloc shell w).2.2
      (mainBinSizes [c] ++ sizes) hf1 hm1
    refine ⟨hf2, mainConsistent_mono hm2 ?_⟩
    intro x hx
    rcases List.mem_append.mp hx with h1 | h1
    · exact List.mem_append.mpr (Or.inl ((mainBinSizes_cons c cs x).mpr (Or.inr h1)))
    · rcases List.mem_append.mp h1 with h2 | h2
      · exact List.mem_append.mpr (Or.inl ((mainBinSizes_cons c cs x).mpr (Or.inl h2)))
      · exact List.mem_append.mpr (Or.inr h2)

theorem ShellCall_run_capacity (env : Env) (alloc : Nat → Nat → Bool) (c : ShellCall)
    (shell : InteractionShell) (w : World) :
    shell.m_cBytesFastBins ≤ (c.run env alloc shell w).2.1.m_cBytesFastBins
      ∧ shell.m_cAllocatedMainBins ≤ (c.run env alloc shell w).2.1.m_cAllocatedMainBins := by
  cases c with
  | fast cBytes =>
    obtain ⟨_, h2, h3, _, _⟩ := GetInteractionFastBinsTemp_step env alloc shell w cBytes
    exact ⟨h3, by simp only [ShellCall.run]; rw [h2]⟩
  | main cBytesPerMainBin cMainBins =>
    obtain ⟨_, h2, h3, _, _⟩ :=
      GetInteractionMainBins_step env alloc shell w cBytesPerMainBin cMainBins []
    exact ⟨by simp only [ShellCall.run]; rw [h2], h3⟩

/-- Over a sequence of calls the two recorded capacities do not decrease. -/
theorem runCalls_capacity (env : Env) (alloc : Nat → Nat → Bool) :
    ∀ (calls : List ShellCall) (shell : InteractionShell) (w : World),
      shell.m_cBytesFastBins ≤ (runCalls env alloc calls shell w).1.m_cBytesFastBins
        ∧ shell.m_cAllocatedMainBins
          ≤ (runCalls env alloc calls shell w).1.m_cAllocatedMainBins := by
  intro calls
  induction calls with
  | nil =>
    intro shell w
    exact ⟨le_refl _, le_refl _⟩
  | cons c cs ih =>
    intro shell w
    obtain ⟨h1, h2⟩ := ShellCall_run_capacity env alloc c shell w
    obtain ⟨h3, h4⟩ := ih (c.run env alloc shell w).2.1 (c.run env alloc shell w).2.2
    exact ⟨le_trans h1 h3, le_trans h2 h4⟩

/-! ## The claims on the shell -/

/-- C17, as the code has it: take a shell in the empty state, run any sequence of calls of
the two getters on it, with any allocation successes and failures, and then
make one more request. If that request returns a non-null buffer, the capacity recorded
after it covers the request and is the size of the allocation behind the
returned buffer: in bytes for the fast buffer; for the main buffer in bins of
the bin size of the call that made the allocation, which is the bin size of
the request whenever the main calls of the sequence pass that bin size. -/
theorem C17_returned_buffer_matches_capacity (env : Env) (alloc : Nat → Nat → Bool)
    (shell0 : InteractionShell) (w0 : World) (calls : List ShellCall) (b : Buffer)
    (hempty : shell0.isEmpty) :
    (∀ cBytes,
        (GetInteractionFastBinsTemp env alloc (runCalls env alloc calls shell0 w0).1
          (runCalls env alloc calls shell0 w0).2 cBytes).1 = some b →
        cBytes ≤ (GetInteractionFastBinsTemp env alloc (runCalls env alloc calls shell0 w0).1
          (runCalls env alloc calls shell0 w0).2 cBytes).2.1.m_cBytesFastBins
        ∧ b.cBytes = (GetInteractionFastBinsTemp env alloc (runCalls env alloc calls shell0 w0).1
          (runCalls env alloc calls shell0 w0).2 cBytes).2.1.m_cBytesFastBins)
    ∧ (∀ cBytesPerMainBin cMainBins,
        (GetInteractionMainBins env alloc (runCalls env alloc calls shell0 w0).1
          (runCalls env alloc calls shell0 w0).2 cBytesPerMainBin cMainBins).1 = some b →
        cMainBins ≤ (GetInteractionMainBins env alloc (runCalls env alloc calls shell0 w0).1
          (runCalls env alloc calls shell0 w0).2 cBytesPerMainBin cMainBins).2.1.m_cAllocatedMainBins
        ∧ (∃ x, x ∈ cBytesPerMainBin :: mainBinSizes calls
            ∧ b.cBytes = x * (GetInteractionMainBins env alloc (runCalls env alloc calls shell0 w0).1
          (runCalls env alloc calls shell0 w0).2 cBytesPerMainBin cMainBins).2.1.m_cAllocatedMainBins)
        ∧ ((∀ x, x ∈ mainBinSizes calls → x = cBytesPerMainBin) →
            b.cBytes = cBytesPerMainBin * (GetInteractionMainBins env alloc (runCalls env alloc calls shell0 w0).1
          (runCalls env alloc calls shell0 w0).2 cBytesPerMainBin cMainBins).2.1.m_cAllocatedMainBins)) := by
  obtain ⟨he1, _, he3, _⟩ := hempty
  have hf0 : fastConsistent shell0 := by
    intro b0 hb0; rw [he1] at hb0; exact Option.noConfusion hb0
  have hm0 : mainConsistent shell0 [] := by
    intro b0 hb0; rw [he3] at hb0; exact Option.noConfusion hb0
  obtain ⟨hf, hm⟩ := runCalls_consistent env alloc calls shell0 w0 [] hf0 hm0
  constructor
  · intro cBytes hret
    obtain ⟨_, _, _, h4, h5⟩ := GetInteractionFastBinsTemp_step env alloc
      (runCalls env alloc calls shell0 w0).1 (runCalls env alloc calls shell0 w0).2 cBytes
    obtain ⟨hstored, hcap⟩ := h4 b hret
    exact ⟨hcap, h5 hf b hstored⟩
  · intro cBytesPerMainBin cMainBins hret
    obtain ⟨_, _, _, h4, h5⟩ := GetInteractionMainBins_step env alloc
      (runCalls env alloc calls shell0 w0).1 (runCalls env alloc calls shell0 w0).2 cBytesPerMainBin cMainBins
      (mainBinSizes calls ++ [])
    obtain ⟨hstored, hcap⟩ := h4 b hret
    obtain ⟨x, hx, hxe⟩ := h5 hm b hstored
    have hx2 : x ∈ cBytesPerMainBin :: mainBinSizes calls := by simpa using hx
    refine ⟨hcap, ⟨x, hx2, hxe⟩, ?_⟩
    intro hall
    have hxb : x = cBytesPerMainBin := by
      rcases List.mem_cons.mp hx2 with h1 | h1
      · exact h1
      · exact hall x h1
    rw [hxb] at hxe
    exact hxe

/-- C18: a request that is not larger than the recorded capacity reuses the
buffer: each getter returns the stored pointer, leaves the shell as it is
(pointer and capacity), and adds nothing to the outside but the request
itself, so it frees nothing and attempts no allocation. -/
theorem C18_request_within_capacity_reuses (env : Env) (alloc : Nat → Nat → Bool)
    (shell : InteractionShell) (w : World) :
    (∀ cBytes, cBytes ≤ shell.m_cBytesFastBins →
        GetInteractionFastBinsTemp env alloc shell w cBytes
          = (shell.m_aInteractionFastBinsTemp, shell,
              { cAllocs := w.cAllocs, trace := w.trace ++ [Event.getFastBins cBytes] }))
    ∧ (∀ cBytesPerMainBin cMainBins, cMainBins ≤ shell.m_cAllocatedMainBins →
        GetInteractionMainBins env alloc shell w cBytesPerMainBin cMainBins
          = (shell.m_aInteractionMainBins, shell,
              { cAllocs := w.cAllocs,
                trace := w.trace ++ [Event.getMainBins cBytesPerMainBin cMainBins] })) :=
  ⟨fun cBytes h => GetInteractionFastBinsTemp_reuse env alloc shell w cBytes h,
   fun cBytesPerMainBin cMainBins h =>
     GetInteractionMainBins_reuse env alloc shell w cBytesPerMainBin cMainBins h⟩

/-- C19: the recorded capacities never shrink. After a call of either getter,
whether it returns a buffer or null, each recorded capacity is at least what
it was before the call; hence after any sequence of calls on one shell each
recorded capacity is at least what it was at the start. -/
theorem C19_capacity_never_shrinks (env : Env) (alloc : Nat → Nat → Bool)
    (shell : InteractionShell) (w : World) :
    (∀ cBytes,
        shell.m_cBytesFastBins
          ≤ (GetInteractionFastBinsTemp env alloc shell w cBytes).2.1.m_cBytesFastBins
        ∧ shell.m_cAllocatedMainBins
          ≤ (GetInteractionFastBinsTemp env alloc shell w cBytes).2.1.m_cAllocatedMainBins)
    ∧ (∀ cBytesPerMainBin cMainBins,
        shell.m_cBytesFastBins
          ≤ (GetInteractionMainBins env alloc shell w cBytesPerMainBin cMainBins).2.1.m_cBytesFastBins
        ∧ shell.m_cAllocatedMainBins
          ≤ (GetInteractionMainBins env alloc shell w cBytesPerMainBin cMainBins).2.1.m_cAllocatedMainBins)
    ∧ (∀ calls : List ShellCall,
        shell.m_cBytesFastBins ≤ (runCalls env alloc calls shell w).1.m_cBytesFastBins
        ∧ shell.m_cAllocatedMainBins
          ≤ (runCalls env alloc calls shell w).1.m_cAllocatedMainBins) :=
  ⟨fun cBytes => ShellCall_run_capacity env alloc (ShellCall.fast cBytes) shell w,
   fun cBytesPerMainBin cMainBins =>
     ShellCall_run_capacity env alloc (ShellCall.main cBytesPerMainBin cMainBins) shell w,
   fun calls => runCalls_capacity env alloc calls shell w⟩

/-! ## The later claims at concrete inputs -/

/-- The claim C12 fails on the tuple (0, 1) over the detector whose searcher finds
no valid split: the total weight is 1.0, the scale constants are 1.0, the
searcher returns the most negative finite double, and the call stores 0.0,
not the sentinel. -/
theorem C12_counterexample :
    demoCoreNoSplit.m_weightTotal = dblOne
    ∧ demoCoreNoSplit.GradientConstant = dblOne
    ∧ demoCoreNoSplit.GainAdjustmentGradientBoosting = dblOne
    ∧ Event.partition2d 2 [3, 4] 0 1 dblLowest
        ∈ addedEvents demoWorld
            (CalcInteractionStrength demoEnv demoAlloc (some demoShellNoSplit) demoWorld 2 (some (indexArray [0, 1])) 0 0 0 (some dblOne))
    ∧ (CalcInteractionStrength demoEnv demoAlloc (some demoShellNoSplit) demoWorld 2 (some (indexArray [0, 1])) 0 0 0 (some dblOne)).error
        = ErrorEbm.Error_None
    ∧ (CalcInteractionStrength demoEnv demoAlloc (some demoShellNoSplit) demoWorld 2 (some (indexArray [0, 1])) 0 0 0 (some dblOne)).avgInteractionStrengthOut
        = some dblZero
    ∧ (CalcInteractionStrength demoEnv demoAlloc (some demoShellNoSplit) demoWorld 2 (some (indexArray [0, 1])) 0 0 0 (some dblOne)).avgInteractionStrengthOut
        ≠ some demoEnv.k_illegalGainDouble := by
  decide

/-- The same detector with the flag word 5 and the leaf minimum 7: the normalised
value of the most negative finite double is negative and not below it, and
0.0 is stored. -/
theorem C12_no_split_goes_through_clamp_witness :
    (GetInteractionShellFromHandle demoEnv (some demoShellNoSplit) = some demoShellNoSplit
      ∧ Event.partition2d 2 [3, 4] 5 7 dblLowest
          ∈ addedEvents demoWorld
              (CalcInteractionStrength demoEnv demoAlloc (some demoShellNoSplit) demoWorld 2 (some (indexArray [0, 1])) 5 0 7 (some dblOne))
      ∧ Dbl.lt (normalizeGain demoEnv demoShellNoSplit.m_pInteractionCore 5 dblLowest) dblZero
          = true)
    ∧ (CalcInteractionStrength demoEnv demoAlloc (some demoShellNoSplit) demoWorld 2 (some (indexArray [0, 1])) 5 0 7 (some dblOne)).avgInteractionStrengthOut
        = some dblZero :=
  ⟨⟨rfl, by decide, by decide⟩,
   (C12_no_split_goes_through_clamp demoEnv demoAlloc (some demoShellNoSplit) demoShellNoSplit
      demoWorld 2 (some (indexArray [0, 1])) 5 0 7 (some dblOne) 2 [3, 4] 5 7 rfl
      (by decide)).2.1 (by decide) (by decide)⟩

/-- The ceilings -1 and 12 over the 64 bit environment. -/
theorem C14_ceiling_off_or_exact_witness :
    cCardinalityMaxOf demoEnv (-1) = SIZE_MAX demoEnv
    ∧ (cCardinalityMaxOf demoEnv 12 : Int) = 12 :=
  ⟨(C14_ceiling_off_or_exact demoEnv (-1)).1 (Or.inl (by decide)),
   (C14_ceiling_off_or_exact demoEnv 12).2.2 (by decide) (by decide)⟩

/-- The leaf minima -3 and 7 over the 64 bit environment. -/
theorem C15_leaf_threshold_witness :
    0 < demoEnv.cBitsSizeT
    ∧ cSamplesLeafMinOf demoEnv (-3) = 1
    ∧ (cSamplesLeafMinOf demoEnv 7 : Int) = 7
    ∧ cSamplesLeafMinOf demoEnv 7 ≠ 0 :=
  ⟨by decide,
   (C15_leaf_threshold demoEnv (-3) (by decide)).1 (by decide),
   (C15_leaf_threshold demoEnv 7 (by decide)).2.1 (by decide) (by decide),
   (C15_leaf_threshold demoEnv 7 (by decide)).2.2.2.1⟩

/-- The flag words 0 and 4 over the concrete detector, whose searcher reads no
flag at all: same code and same strength. -/
theorem C16_unknown_flag_bits_ignored_witness :
    (0 &&& demoEnv.CalcInteractionFlags_Pure = 4 &&& demoEnv.CalcInteractionFlags_Pure
      ∧ 0 &&& demoEnv.CalcInteractionFlags_EnableNewton
          = 4 &&& demoEnv.CalcInteractionFlags_EnableNewton)
    ∧ (CalcInteractionStrength demoEnv demoAlloc (some demoShell) demoWorld 2 (some (indexArray [0, 1])) 0 0 0 (some dblOne)).error
        = (CalcInteractionStrength demoEnv demoAlloc (some demoShell) demoWorld 2 (some (indexArray [0, 1])) 4 0 0 (some dblOne)).error
    ∧ (CalcInteractionStrength demoEnv demoAlloc (some demoShell) demoWorld 2 (some (indexArray [0, 1])) 0 0 0 (some dblOne)).avgInteractionStrengthOut
        = (CalcInteractionStrength demoEnv demoAlloc (some demoShell) demoWorld 2 (some (indexArray [0, 1])) 4 0 0 (some dblOne)).avgInteractionStrengthOut :=
  ⟨⟨by decide, by decide⟩,
   (C16_unknown_flag_bits_ignored demoEnv demoAlloc (some demoShell) demoWorld 2
      (some (indexArray [0, 1])) 0 4 0 0 (some dblOne)
      (fun shell hs => by
        have e : demoShell = shell := Option.some.inj hs
        subst e
        exact fun _ _ _ _ _ _ _ => rfl)
      (by decide) (by decide)).1.1,
   (C16_unknown_flag_bits_ignored demoEnv demoAlloc (some demoShell) demoWorld 2
      (some (indexArray [0, 1])) 0 4 0 0 (some dblOne)
      (fun shell hs => by
        have e : demoShell = shell := Option.some.inj hs
        subst e
        exact fun _ _ _ _ _ _ _ => rfl)
      (by decide) (by decide)).1.2.1⟩

/-- The empty shell after a main request of 16 bins of 64 bytes and a fast request
of 768 bytes: a main request of 10 bins returns the allocation of 36 bins. -/
theorem C17_returned_buffer_matches_capacity_witness :
    (demoShell.isEmpty
      ∧ (GetInteractionMainBins demoEnv demoAlloc (runCalls demoEnv demoAlloc [ShellCall.main 64 16, ShellCall.fast 768] demoShell demoWorld).1
          (runCalls demoEnv demoAlloc [ShellCall.main 64 16, ShellCall.fast 768] demoShell demoWorld).2 64 10).1 = some { id := 0, cBytes := 2304 })
    ∧ 10 ≤ (GetInteractionMainBins demoEnv demoAlloc (runCalls demoEnv demoAlloc [ShellCall.main 64 16, ShellCall.fast 768] demoShell demoWorld).1
          (runCalls demoEnv demoAlloc [ShellCall.main 64 16, ShellCall.fast 768] demoShell demoWorld).2 64 10).2.1.m_cAllocatedMainBins
    ∧ ({ id := 0, cBytes := 2304 } : Buffer).cBytes
        = 64 * (GetInteractionMainBins demoEnv demoAlloc (runCalls demoEnv demoAlloc [ShellCall.main 64 16, ShellCall.fast 768] demoShell demoWorld).1
          (runCalls demoEnv demoAlloc [ShellCall.main 64 16, ShellCall.fast 768] demoShell demoWorld).2 64 10).2.1.m_cAllocatedMainBins :=
  ⟨⟨⟨rfl, rfl, rfl, rfl⟩, by decide⟩,
   ((C17_returned_buffer_matches_capacity demoEnv demoAlloc demoShell demoWorld
      [ShellCall.main 64 16, ShellCall.fast 768] { id := 0, cBytes := 2304 }
      ⟨rfl, rfl, rfl, rfl⟩).2 64 10 (by decide)).1,
   ((C17_returned_buffer_matches_capacity demoEnv demoAlloc demoShell demoWorld
      [ShellCall.main 64 16, ShellCall.fast 768] { id := 0, cBytes := 2304 }
      ⟨rfl, rfl, rfl, rfl⟩).2 64 10 (by decide)).2.2 (by decide)⟩

/-- The claim C17 fails when the bin size changes between calls: on the empty
shell, after a main request of 10 bins of 8 bytes, a main request of 20 bins
of 16 bytes is covered by the recorded capacity of 28 bins and returns the
buffer allocated before, which has 224 bytes, not 28 bins of 16 bytes. -/
theorem C17_counterexample :
    (demoShell.m_aInteractionFastBinsTemp = none ∧ demoShell.m_cBytesFastBins = 0
      ∧ demoShell.m_aInteractionMainBins = none ∧ demoShell.m_cAllocatedMainBins = 0)
    ∧ (GetInteractionMainBins demoEnv demoAlloc (runCalls demoEnv demoAlloc [ShellCall.main 8 10] demoShell demoWorld).1
        (runCalls demoEnv demoAlloc [ShellCall.main 8 10] demoShell demoWorld).2 16 20).1
      = some { id := 0, cBytes := 224 }
    ∧ (GetInteractionMainBins demoEnv demoAlloc (runCalls demoEnv demoAlloc [ShellCall.main 8 10] demoShell demoWorld).1
        (runCalls demoEnv demoAlloc [ShellCall.main 8 10] demoShell demoWorld).2 16 20).2.1.m_cAllocatedMainBins
      = 28
    ∧ ({ id := 0, cBytes := 224 } : Buffer).cBytes
      ≠ 16 * (GetInteractionMainBins demoEnv demoAlloc (runCalls demoEnv demoAlloc [ShellCall.main 8 10] demoShell demoWorld).1
        (runCalls demoEnv demoAlloc [ShellCall.main 8 10] demoShell demoWorld).2 16 20).2.1.m_cAllocatedMainBins := by
  decide

/-- C20 at a concrete input: on the empty shell, with an allocator whose first attempt
fails, a fast request of 100 bytes returns null and leaves the pointer null
but the recorded capacity at 200, not 0; the next request of 100 bytes, for
which the allocator would succeed, returns null without attempting an
allocation. The main getter does the same with 16 bins of 64 bytes, leaving
the capacity at 36. -/
theorem C20_failed_growth_keeps_capacity :
    ((GetInteractionFastBinsTemp demoEnv demoAllocFirstFails demoShell demoWorld 100).1 = none
      ∧ (GetInteractionFastBinsTemp demoEnv demoAllocFirstFails demoShell demoWorld 100).2.1.m_aInteractionFastBinsTemp = none
      ∧ (GetInteractionFastBinsTemp demoEnv demoAllocFirstFails demoShell demoWorld 100).2.1.m_cBytesFastBins = 200
      ∧ demoAllocFirstFails (GetInteractionFastBinsTemp demoEnv demoAllocFirstFails demoShell demoWorld 100).2.2.cAllocs 200 = true
      ∧ (GetInteractionFastBinsTemp demoEnv demoAllocFirstFails (GetInteractionFastBinsTemp demoEnv demoAllocFirstFails demoShell demoWorld 100).2.1
          (GetInteractionFastBinsTemp demoEnv demoAllocFirstFails demoShell demoWorld 100).2.2 100).1 = none
      ∧ (GetInteractionFastBinsTemp demoEnv demoAllocFirstFails (GetInteractionFastBinsTemp demoEnv demoAllocFirstFails demoShell demoWorld 100).2.1
          (GetInteractionFastBinsTemp demoEnv demoAllocFirstFails demoShell demoWorld 100).2.2 100).2.2.cAllocs
        = (GetInteractionFastBinsTemp demoEnv demoAllocFirstFails demoShell demoWorld 100).2.2.cAllocs)
    ∧ ((GetInteractionMainBins demoEnv demoAllocFirstFails demoShell demoWorld 64 16).1 = none
      ∧ (GetInteractionMainBins demoEnv demoAllocFirstFails demoShell demoWorld 64 16).2.1.m_aInteractionMainBins = none
      ∧ (GetInteractionMainBins demoEnv demoAllocFirstFails demoShell demoWorld 64 16).2.1.m_cAllocatedMainBins = 36
      ∧ (GetInteractionMainBins demoEnv demoAllocFirstFails (GetInteractionMainBins demoEnv demoAllocFirstFails demoShell demoWorld 64 16).2.1
          (GetInteractionMainBins demoEnv demoAllocFirstFails demoShell demoWorld 64 16).2.2 64 16).1 = none
      ∧ (GetInteractionMainBins demoEnv demoAllocFirstFails (GetInteractionMainBins demoEnv demoAllocFirstFails demoShell demoWorld 64 16).2.1
          (GetInteractionMainBins demoEnv demoAllocFirstFails demoShell demoWorld 64 16).2.2 64 16).2.2.cAllocs
        = (GetInteractionMainBins demoEnv demoAllocFirstFails demoShell demoWorld 64 16).2.2.cAllocs) := by
  decide

/-! ## The invariants of the shape loop -/

/-- The sum of the prefix products, with the first entry taken out. -/
theorem auxSum_front (core : InteractionCore) (f : Nat → Int) (i : Nat) :
    ∀ c, auxSum core f i (c + 1) = 1 + binsAt core f i * auxSum core f (i + 1) c := by
  intro c
  induction c with
  | zero => simp [auxSum, binsProduct]
  | succ c ih =>
    have e1 : auxSum core f i (c + 1 + 1)
        = auxSum core f i (c + 1) + binsProduct core f i (c + 1) := rfl
    have e2 : auxSum core f (i + 1) (c + 1)
        = auxSum core f (i + 1) c + binsProduct core f (i + 1) c := rfl
    have e3 : binsProduct core f i (c + 1) = binsAt core f i * binsProduct core f (i + 1) c := rfl
    rw [e1, ih, e2, e3, Nat.mul_add]
    omega

/-- A pass of the shape loop that falls through read an in-range index of a
feature with at least 2 bins whose product with `cTensorBins` fits in `size_t`. -/
theorem shapeBody_next_inv (env : Env) (core : InteractionCore) (f : Nat → Int)
    (out : Option Dbl) (i : Nat) (s : Shape) (w : World) (s2 : Shape) (w2 : World)
    (h : shapeBody env core f out i s w = .next s2 w2) :
    inRangeAt core f i ∧ 2 ≤ binsAt core f i ∧ s.cTensorBins * binsAt core f i ≤ SIZE_MAX env
      ∧ s2 = s.advance env (binsAt core f i) (f i).toNat
      ∧ w2 = w.emit (Event.readIndex i) := by
  by_cases hi : inRangeAt core f i
  · by_cases hb : 2 ≤ binsAt core f i
    · by_cases ho : s.cTensorBins * binsAt core f i ≤ SIZE_MAX env
      · rw [shapeBody_next env core f out i s w hi hb ho] at h
        injection h with h1 h2
        exact ⟨hi, hb, ho, h1.symm, h2.symm⟩
      · rw [shapeBody_overflow env core f out i s w hi hb (by omega)] at h
        exact ShapeOutcome.noConfusion h
    · rw [shapeBody_small env core f out i s w hi (by omega)] at h
      exact ShapeOutcome.noConfusion h
  · rw [shapeBody_outOfRange env core f out i s w hi] at h
    exact ShapeOutcome.noConfusion h

/-- With the auxiliary count below `cTensorBins`, at least 2 bins and a product
that fits, the addition of line 244 does not wrap and the auxiliary count stays
below the new `cTensorBins`. -/
theorem advance_aux (env : Env) (s : Shape) (cBins iFeature : Nat)
    (hinv : s.cAuxillaryBinsForBuildFastTotals < s.cTensorBins) (hb : 2 ≤ cBins)
    (ho : s.cTensorBins * cBins ≤ SIZE_MAX env) :
    s.cAuxillaryBinsForBuildFastTotals + s.cTensorBins ≤ SIZE_MAX env
      ∧ (s.advance env cBins iFeature).cAuxillaryBinsForBuildFastTotals
        = s.cAuxillaryBinsForBuildFastTotals + s.cTensorBins
      ∧ (s.advance env cBins iFeature).cAuxillaryBinsForBuildFastTotals
        < (s.advance env cBins iFeature).cTensorBins := by
  have h2 : s.cTensorBins * 2 ≤ s.cTensorBins * cBins := Nat.mul_le_mul_left _ hb
  have hsum : s.cAuxillaryBinsForBuildFastTotals + s.cTensorBins ≤ SIZE_MAX env := by omega
  have hm := mod_of_le_SIZE_MAX env hsum
  refine ⟨hsum, hm, ?_⟩
  show (s.cAuxillaryBinsForBuildFastTotals + s.cTensorBins) % 2 ^ env.cBitsSizeT
    < s.cTensorBins * cBins
  rw [hm]
  omega

/-- If a wrap of the addition of line 244 happens, the multiplication check of
line 245 fires. -/
theorem wrap_caught (env : Env) (s : Shape) (cBins : Nat)
    (hinv : s.cAuxillaryBinsForBuildFastTotals < s.cTensorBins) (hb : 2 ≤ cBins)
    (hwrap : SIZE_MAX env < s.cAuxillaryBinsForBuildFastTotals + s.cTensorBins) :
    IsMultiplyError env s.cTensorBins cBins = true := by
  have h2 : s.cTensorBins * 2 ≤ s.cTensorBins * cBins := Nat.mul_le_mul_left _ hb
  unfold IsMultiplyError
  exact decide_eq_true (by omega)

/-- What the shape loop hands on when it falls through: every entry was in range
with at least 2 bins, `cTensorBins` was multiplied by the exact product, the
exact sum of the prefix products was added to the auxiliary count, which is
below `cTensorBins`, and the bin counts and feature cells were recorded. -/
theorem shapeLoop_next_inv (env : Env) (core : InteractionCore) (f : Nat → Int)
    (out : Option Dbl) :
    ∀ (k i : Nat) (s : Shape) (w : World) (s2 : Shape) (w2 : World),
      s.cAuxillaryBinsForBuildFastTotals < s.cTensorBins →
      shapeLoop env core f out k i s w = .next s2 w2 →
      (∀ j, i ≤ j → j ≤ i + k → inRangeAt core f j ∧ 2 ≤ binsAt core f j)
        ∧ s2.cTensorBins = s.cTensorBins * binsProduct core f i (k + 1)
        ∧ s2.cTensorBins ≤ SIZE_MAX env
        ∧ s2.cAuxillaryBinsForBuildFastTotals
          = s.cAuxillaryBinsForBuildFastTotals + s.cTensorBins * auxSum core f i (k + 1)
        ∧ s2.cAuxillaryBinsForBuildFastTotals < s2.cTensorBins
        ∧ s2.acBins = s.acBins ++ binsFrom core f i (k + 1) := by
  intro k
  induction k with
  | zero =>
    intro i s w s2 w2 hinv h
    rw [shapeLoop_zero] at h
    obtain ⟨hi, hb, ho, hs, _⟩ := shapeBody_next_inv env core f out i s w s2 w2 h
    obtain ⟨_, ha1, ha2⟩ := advance_aux env s (binsAt core f i) (f i).toNat hinv hb ho
    subst hs
    refine ⟨?_, ?_, ?_, ?_, ha2, rfl⟩
    · intro j h1 h2
      have e : j = i := by omega
      subst e
      exact ⟨hi, hb⟩
    · simp [Shape.advance, binsProduct]
    · exact ho
    · rw [ha1]; simp [auxSum, binsProduct]
  | succ k ih =>
    intro i s w s2 w2 hinv h
    rw [shapeLoop_succ] at h
    cases hbody : shapeBody env core f out i s w with
    | ret e1 o1 w1 =>
      rw [hbody] at h
      exact ShapeOutcome.noConfusion h
    | next s1 w1 =>
      rw [hbody] at h
      obtain ⟨hi, hb, ho, hs, _⟩ := shapeBody_next_inv env core f out i s w s1 w1 hbody
      obtain ⟨_, ha1, ha2⟩ := advance_aux env s (binsAt core f i) (f i).toNat hinv hb ho
      subst hs
      obtain ⟨hr, hc, hfit, ha, hlt, hbins⟩ := ih (i + 1) _ w1 s2 w2 ha2 h
      refine ⟨?_, ?_, hfit, ?_, hlt, ?_⟩
      · intro j h1 h2
        by_cases e : j = i
        · subst e; exact ⟨hi, hb⟩
        · exact hr j (by omega) (by omega)
      · rw [hc]
        show s.cTensorBins * binsAt core f i * binsProduct core f (i + 1) (k + 1)
          = s.cTensorBins * (binsAt core f i * binsProduct core f (i + 1) (k + 1))
        rw [Nat.mul_assoc]
      · rw [ha, ha1, auxSum_front core f i (k + 1)]
        show s.cAuxillaryBinsForBuildFastTotals + s.cTensorBins
            + s.cTensorBins * binsAt core f i * auxSum core f (i + 1) (k + 1)
          = s.cAuxillaryBinsForBuildFastTotals
            + s.cTensorBins * (1 + binsAt core f i * auxSum core f (i + 1) (k + 1))
        rw [Nat.mul_add, Nat.mul_one, Nat.mul_assoc]
        omega
      · rw [hbins]
        show s.acBins ++ [binsAt core f i] ++ binsFrom core f (i + 1) (k + 1)
          = s.acBins ++ (binsAt core f i :: binsFrom core f (i + 1) (k + 1))
        simp

/-- A loop over more entries goes through the locals a shorter loop hands on. -/
theorem shapeLoop_split (env : Env) (core : InteractionCore) (f : Nat → Int)
    (out : Option Dbl) :
    ∀ (k i : Nat) (s : Shape) (w : World) (s2 : Shape) (w2 : World),
      shapeLoop env core f out k i s w = .next s2 w2 →
      ∀ d, shapeLoop env core f out (k + 1 + d) i s w
        = shapeLoop env core f out d (i + k + 1) s2 w2 := by
  intro k
  induction k with
  | zero =>
    intro i s w s2 w2 h d
    rw [shapeLoop_zero] at h
    have e : 0 + 1 + d = d + 1 := by omega
    rw [e, shapeLoop_succ, h]
  | succ k ih =>
    intro i s w s2 w2 h d
    rw [shapeLoop_succ] at h
    have e : k + 1 + 1 + d = (k + 1 + d) + 1 := by omega
    rw [e, shapeLoop_succ]
    cases hbody : shapeBody env core f out i s w with
    | ret e1 o1 w1 =>
      rw [hbody] at h
      exact ShapeOutcome.noConfusion h
    | next s1 w1 =>
      rw [hbody] at h
      simp only
      rw [ih (i + 1) s1 w1 s2 w2 h d]
      have e2 : i + 1 + k + 1 = i + (k + 1) + 1 := by omega
      rw [e2]

theorem shapeAt_step (env : Env) (core : InteractionCore) (f : Nat → Int) (out : Option Dbl)
    (w : World) (i : Nat) :
    shapeAt env core f out w (i + 1) =
      match shapeLoop env core f out i 0 shapeInit w with
      | .ret _ _ _ => none
      | .next s w2 => some (s, w2) := rfl

/-- The locals at the top of a pass that is reached: any longer loop goes through
them, the earlier entries were in range with at least 2 bins, `cTensorBins` is
the exact product of their bin counts, the auxiliary count is the exact sum of
the prefix products and is below `cTensorBins`, and the bin counts were
recorded. -/
theorem shapeAt_inv (env : Env) (core : InteractionCore) (f : Nat → Int) (out : Option Dbl)
    (w : World) (i : Nat) (s : Shape) (w2 : World)
    (h : shapeAt env core f out w i = some (s, w2)) :
    (∀ d, shapeLoop env core f out (i + d) 0 shapeInit w = shapeLoop env core f out d i s w2)
      ∧ (∀ j, j < i → inRangeAt core f j ∧ 2 ≤ binsAt core f j)
      ∧ s.cTensorBins = binsProduct core f 0 i
      ∧ s.cAuxillaryBinsForBuildFastTotals = auxSum core f 0 i
      ∧ s.cAuxillaryBinsForBuildFastTotals < s.cTensorBins
      ∧ s.acBins = binsFrom core f 0 i
      ∧ (0 < i → s.cTensorBins ≤ SIZE_MAX env) := by
  cases i with
  | zero =>
    have e : (shapeInit, w) = (s, w2) := Option.some.inj h
    injection e with e1 e2
    subst e1; subst e2
    refine ⟨?_, ?_, rfl, rfl, by decide, rfl, ?_⟩
    · intro d
      rw [Nat.zero_add]
    · intro j hj
      omega
    · intro h0
      omega
  | succ k =>
    rw [shapeAt_step] at h
    cases hl : shapeLoop env core f out k 0 shapeInit w with
    | ret e1 o1 w1 =>
      rw [hl] at h
      exact Option.noConfusion h
    | next s1 w1 =>
      rw [hl] at h
      have e : (s1, w1) = (s, w2) := Option.some.inj h
      injection e with e1 e2
      subst e1; subst e2
      obtain ⟨hr, hc, hfit, ha, hlt, hbins⟩ :=
        shapeLoop_next_inv env core f out k 0 shapeInit w s1 w1 (by decide) hl
      refine ⟨?_, ?_, ?_, ?_, hlt, ?_, fun _ => hfit⟩
      · intro d
        have := shapeLoop_split env core f out k 0 shapeInit w s1 w1 hl d
        rw [Nat.zero_add] at this
        exact this
      · intro j hj
        exact hr j (Nat.zero_le j) (by omega)
      · rw [hc]
        show 1 * binsProduct core f 0 (k + 1) = binsProduct core f 0 (k + 1)
        rw [Nat.one_mul]
      · rw [ha]
        show 0 + 1 * auxSum core f 0 (k + 1) = auxSum core f 0 (k + 1)
        omega
      · rw [hbins]
        rfl

/-- The pass that follows a pass that fell through starts from what it handed on. -/
theorem shapeAt_succ (env : Env) (core : InteractionCore) (f : Nat → Int) (out : Option Dbl)
    (w : World) (i : Nat) (s : Shape) (w2 : World) (s3 : Shape) (w3 : World)
    (h : shapeAt env core f out w i = some (s, w2))
    (hb : shapeBody env core f out i s w2 = .next s3 w3) :
    shapeAt env core f out w (i + 1) = some (s3, w3) := by
  have h0 := (shapeAt_inv env core f out w i s w2 h).1 0
  rw [Nat.add_zero, shapeLoop_zero, hb] at h0
  rw [shapeAt_step, h0]

/-- C25: take the locals at the top of any pass of the shape loop that is reached,
that is, after every earlier pass got through the multiplication check (any
loop over more entries goes through these locals). Then every earlier entry is
an in-range feature with at least 2 bins, `cTensorBins` is the exact product of
their bin counts and is at least 1, `cAuxillaryBinsForBuildFastTotals` is the
exact sum `1 + b0 + b0 * b1 + ...` of the products of their proper prefixes
and is below `cTensorBins`, so the assertion of line 239 holds. If this pass
gets through the multiplication check too, the addition of line 244 did not
wrap, the same holds of the new locals (exact product that fits in `size_t`,
exact sum, assertion of line 258), and they are the locals of the next pass.
If the addition of line 244 wraps, for an in-range feature with at least 2
bins, the pass returns at line 254 with success and 0.0. -/
theorem C25_shape_counts_are_exact (env : Env) (core : InteractionCore) (f : Nat → Int)
    (out : Option Dbl) (w : World) (i : Nat) (s : Shape) (w2 : World)
    (hreached : shapeAt env core f out w i = some (s, w2)) :
    (∀ d, shapeLoop env core f out (i + d) 0 shapeInit w = shapeLoop env core f out d i s w2)
      ∧ (∀ j, j < i → inRangeAt core f j ∧ 2 ≤ binsAt core f j)
      ∧ s.cTensorBins = binsProduct core f 0 i
      ∧ 1 ≤ s.cTensorBins
      ∧ s.cAuxillaryBinsForBuildFastTotals = auxSum core f 0 i
      ∧ s.cAuxillaryBinsForBuildFastTotals < s.cTensorBins
      ∧ assertAuxBelowTensor s = true
      ∧ (∀ s3 w3, shapeBody env core f out i s w2 = .next s3 w3 →
          s.cAuxillaryBinsForBuildFastTotals + s.cTensorBins ≤ SIZE_MAX env
          ∧ s3.cTensorBins = binsProduct core f 0 (i + 1)
          ∧ s3.cTensorBins ≤ SIZE_MAX env
          ∧ s3.cAuxillaryBinsForBuildFastTotals = auxSum core f 0 (i + 1)
          ∧ s3.cAuxillaryBinsForBuildFastTotals < s3.cTensorBins
          ∧ assertAuxBelowTensor s3 = true
          ∧ shapeAt env core f out w (i + 1) = some (s3, w3))
      ∧ (SIZE_MAX env < s.cAuxillaryBinsForBuildFastTotals + s.cTensorBins →
          inRangeAt core f i → 2 ≤ binsAt core f i →
          shapeBody env core f out i s w2
            = .ret .Error_None (storeOut out dblZero) (w2.emit (Event.readIndex i))) := by
  obtain ⟨hsplit, hr, hc, ha, hlt, _, _⟩ := shapeAt_inv env core f out w i s w2 hreached
  have hassert : ∀ t : Shape, t.cAuxillaryBinsForBuildFastTotals < t.cTensorBins →
      assertAuxBelowTensor t = true := by
    intro t ht
    unfold assertAuxBelowTensor
    rw [Bool.or_eq_true]
    exact Or.inr (decide_eq_true ht)
  refine ⟨hsplit, hr, hc, by omega, ha, hlt, hassert s hlt, ?_, ?_⟩
  · intro s3 w3 hb
    have hnext := shapeAt_succ env core f out w i s w2 s3 w3 hreached hb
    obtain ⟨_, _, hc3, ha3, hlt3, _, hfit3⟩ := shapeAt_inv env core f out w (i + 1) s3 w3 hnext
    obtain ⟨_, hb2, ho, _, _⟩ := shapeBody_next_inv env core f out i s w2 s3 w3 hb
    exact ⟨(advance_aux env s (binsAt core f i) (f i).toNat hlt hb2 ho).1, hc3,
      hfit3 (by omega), ha3, hlt3, hassert s3 hlt3, hnext⟩
  · intro hwrap hi hb
    have hm := wrap_caught env s (binsAt core f i) hlt hb hwrap
    unfold IsMultiplyError at hm
    exact shapeBody_overflow env core f out i s w2 hi hb (of_decide_eq_true hm)

/-- The tuple (0, 1) over the concrete detector: at the top of the pass 2 the
cardinality is 12 and the auxiliary count is 1 + 3. -/
theorem C25_shape_counts_are_exact_witness :
    shapeAt demoEnv demoCore (indexArray [0, 1]) (some dblOne) demoWorld 2
        = some ({ cAuxillaryBinsForBuildFastTotals := 4, cTensorBins := 12, acBins := [3, 4],
                  aiFeatures := [0, 1] },
                { cAllocs := 0, trace := [Event.readIndex 0, Event.readIndex 1] })
    ∧ (12 : Nat) = binsProduct demoCore (indexArray [0, 1]) 0 2
    ∧ (4 : Nat) = auxSum demoCore (indexArray [0, 1]) 0 2 :=
  ⟨by decide,
   (C25_shape_counts_are_exact demoEnv demoCore (indexArray [0, 1]) (some dblOne) demoWorld 2
      { cAuxillaryBinsForBuildFastTotals := 4, cTensorBins := 12, acBins := [3, 4],
        aiFeatures := [0, 1] }
      { cAllocs := 0, trace := [Event.readIndex 0, Event.readIndex 1] } (by decide)).2.2.1,
   (C25_shape_counts_are_exact demoEnv demoCore (indexArray [0, 1]) (some dblOne) demoWorld 2
      { cAuxillaryBinsForBuildFastTotals := 4, cTensorBins := 12, acBins := [3, 4],
        aiFeatures := [0, 1] }
      { cAllocs := 0, trace := [Event.readIndex 0, Event.readIndex 1] } (by decide)).2.2.2.2.1⟩

/-- C26 at a concrete input: over the 64 bit environment, for the tuple (0, 1, 2) of the
features with 2 ^ 32 + 1, 2 ^ 32 - 1 and 2 bins, all in range with at least 2
bins, the pass 2 of the shape loop is reached with the auxiliary count
2 ^ 32 + 2 and `cTensorBins` 2 ^ 64 - 1. Their sum does not fit in `size_t`: the
condition of the assertion of line 242 is false. The condition of the
assertion of line 239 holds, the multiplication check fires, and the call
returns success with 0.0. -/
theorem C26_assertion_fails_on_wide_tuple :
    (∀ j, j < 3 → inRangeAt demoCoreWide (indexArray [0, 1, 2]) j
        ∧ 2 ≤ binsAt demoCoreWide (indexArray [0, 1, 2]) j)
    ∧ (shapeAt demoEnv demoCoreWide (indexArray [0, 1, 2]) (some dblLowest) demoWorld 2).map
          (fun p => (p.1.cAuxillaryBinsForBuildFastTotals, p.1.cTensorBins,
            assertAuxBelowTensor p.1, assertNoAddError demoEnv p.1))
        = some (2 ^ 32 + 2, 2 ^ 64 - 1, true, false)
    ∧ SIZE_MAX demoEnv < (2 ^ 32 + 2) + (2 ^ 64 - 1)
    ∧ (CalcInteractionStrength demoEnv demoAlloc (some demoShellWide) demoWorld 3
          (some (indexArray [0, 1, 2])) 0 0 0 (some dblOne)).error = ErrorEbm.Error_None
    ∧ (CalcInteractionStrength demoEnv demoAlloc (some demoShellWide) demoWorld 3
          (some (indexArray [0, 1, 2])) 0 0 0 (some dblOne)).avgInteractionStrengthOut
        = some dblZero := by
  decide

/-! ## Growth of the two buffers -/

/-- The fast getter on a request above the recorded capacity, when the doubled
size does not fit in `size_t`. -/
theorem GetInteractionFastBinsTemp_overflow (env : Env) (alloc : Nat → Nat → Bool)
    (shell : InteractionShell) (w : World) (cBytes : Nat)
    (hgrow : shell.m_cBytesFastBins < cBytes) (ho : SIZE_MAX env < 2 * cBytes) :
    GetInteractionFastBinsTemp env alloc shell w cBytes
      = (none, { shell with m_aInteractionFastBinsTemp := none },
          { cAllocs := w.cAllocs,
            trace := w.trace ++ [Event.getFastBins cBytes,
              Event.free shell.m_aInteractionFastBinsTemp] }) := by
  have h3 : IsAddError env cBytes cBytes = true := by
    unfold IsAddError
    exact decide_eq_true (by omega)
  unfold GetInteractionFastBinsTemp
  simp only [if_pos hgrow, if_pos h3, World.emit, List.append_assoc, List.singleton_append, List.cons_append, List.nil_append]

/-- The fast getter on a request above the recorded capacity, when the doubled
size fits in `size_t`: the result is decided by the allocation. -/
theorem GetInteractionFastBinsTemp_grow (env : Env) (alloc : Nat → Nat → Bool)
    (shell : InteractionShell) (w : World) (cBytes : Nat)
    (hgrow : shell.m_cBytesFastBins < cBytes) (ho : 2 * cBytes ≤ SIZE_MAX env) :
    GetInteractionFastBinsTemp env alloc shell w cBytes
      = if alloc w.cAllocs (2 * cBytes) = true then
          (some { id := w.cAllocs, cBytes := 2 * cBytes },
            { shell with m_aInteractionFastBinsTemp := some { id := w.cAllocs, cBytes := 2 * cBytes },
                         m_cBytesFastBins := 2 * cBytes },
            { cAllocs := w.cAllocs + 1,
              trace := w.trace ++ [Event.getFastBins cBytes,
                Event.free shell.m_aInteractionFastBinsTemp,
                Event.alloc (2 * cBytes) (some { id := w.cAllocs, cBytes := 2 * cBytes })] })
        else
          (none,
            { shell with m_aInteractionFastBinsTemp := none, m_cBytesFastBins := 2 * cBytes },
            { cAllocs := w.cAllocs + 1,
              trace := w.trace ++ [Event.getFastBins cBytes,
                Event.free shell.m_aInteractionFastBinsTemp,
                Event.alloc (2 * cBytes) none] }) := by
  have h3 : ¬ IsAddError env cBytes cBytes = true := by
    unfold IsAddError
    intro h
    have := of_decide_eq_true h
    omega
  have e2 : cBytes + cBytes = 2 * cBytes := by omega
  unfold GetInteractionFastBinsTemp
  simp only [if_pos hgrow, if_neg h3, World.emit, AlignedAlloc, e2]
  by_cases ha : alloc w.cAllocs (2 * cBytes) = true
  · simp only [if_pos ha, List.append_assoc, List.singleton_append, List.cons_append, List.nil_append]
  · simp only [if_neg ha, List.append_assoc, List.singleton_append, List.cons_append, List.nil_append]

/-- C21: when the recorded capacity is below the request, `GetInteractionFastBinsTemp`
frees the old buffer right after the request and before anything else, and
attempts at most one allocation, of `2 * cBytes` bytes. When `2 * cBytes` fits
in `size_t` and the allocator succeeds, it allocates exactly `2 * cBytes` bytes,
records the capacity `2 * cBytes`, stores the new buffer and returns it. It
returns null exactly when `2 * cBytes` does not fit in `size_t` or the
allocation fails; when `2 * cBytes` does not fit, no allocation is attempted. -/
theorem C21_fast_buffer_growth (env : Env) (alloc : Nat → Nat → Bool)
    (shell : InteractionShell) (w : World) (cBytes : Nat)
    (hgrow : shell.m_cBytesFastBins < cBytes) :
    (∃ evs, (GetInteractionFastBinsTemp env alloc shell w cBytes).2.2.trace
          = w.trace ++ [Event.getFastBins cBytes, Event.free shell.m_aInteractionFastBinsTemp]
              ++ evs
        ∧ (evs = [] ∨ ∃ r, evs = [Event.alloc (2 * cBytes) r]))
    ∧ (2 * cBytes ≤ SIZE_MAX env → alloc w.cAllocs (2 * cBytes) = true →
        GetInteractionFastBinsTemp env alloc shell w cBytes
          = (some { id := w.cAllocs, cBytes := 2 * cBytes },
              { shell with
                  m_aInteractionFastBinsTemp := some { id := w.cAllocs, cBytes := 2 * cBytes },
                  m_cBytesFastBins := 2 * cBytes },
              { cAllocs := w.cAllocs + 1,
                trace := w.trace ++ [Event.getFastBins cBytes,
                  Event.free shell.m_aInteractionFastBinsTemp,
                  Event.alloc (2 * cBytes) (some { id := w.cAllocs, cBytes := 2 * cBytes })] }))
    ∧ ((GetInteractionFastBinsTemp env alloc shell w cBytes).1 = none
        ↔ (SIZE_MAX env < 2 * cBytes ∨ alloc w.cAllocs (2 * cBytes) = false))
    ∧ (SIZE_MAX env < 2 * cBytes →
        (GetInteractionFastBinsTemp env alloc shell w cBytes).2.2.cAllocs = w.cAllocs) := by
  by_cases ho : 2 * cBytes ≤ SIZE_MAX env
  · rw [GetInteractionFastBinsTemp_grow env alloc shell w cBytes hgrow ho]
    by_cases ha : alloc w.cAllocs (2 * cBytes) = true
    · rw [if_pos ha]
      refine ⟨⟨[Event.alloc (2 * cBytes) (some { id := w.cAllocs, cBytes := 2 * cBytes })],
        by simp, Or.inr ⟨_, rfl⟩⟩, fun _ _ => rfl, ?_, fun h => by omega⟩
      constructor
      · intro h; exact Option.noConfusion h
      · intro h
        rcases h with h | h
        · omega
        · rw [ha] at h; exact Bool.noConfusion h
    · rw [if_neg ha]
      refine ⟨⟨[Event.alloc (2 * cBytes) none], by simp, Or.inr ⟨_, rfl⟩⟩,
        fun _ h => absurd h ha, ?_, fun h => by omega⟩
      constructor
      · intro _
        exact Or.inr (by simpa using ha)
      · intro _; rfl
  · have ho2 : SIZE_MAX env < 2 * cBytes := by omega
    rw [GetInteractionFastBinsTemp_overflow env alloc shell w cBytes hgrow ho2]
    refine ⟨⟨[], by simp, Or.inl rfl⟩, fun h => absurd h ho, ?_, fun _ => rfl⟩
    constructor
    · intro _; exact Or.inl ho2
    · intro _; rfl

/-- The main getter on a request above the recorded capacity, path by path. -/
theorem GetInteractionMainBins_grow (env : Env) (alloc : Nat → Nat → Bool)
    (shell : InteractionShell) (w : World) (cBytesPerMainBin cMainBins : Nat)
    (hgrow : shell.m_cAllocatedMainBins < cMainBins) :
    GetInteractionMainBins env alloc shell w cBytesPerMainBin cMainBins
      = if SIZE_MAX env < cMainBins + (cMainBins / 4 + 16) then
          (none, { shell with m_aInteractionMainBins := none },
            { cAllocs := w.cAllocs,
              trace := w.trace ++ [Event.getMainBins cBytesPerMainBin cMainBins,
                Event.free shell.m_aInteractionMainBins] })
        else if SIZE_MAX env < cBytesPerMainBin * (cMainBins + (cMainBins / 4 + 16)) then
          (none,
            { shell with m_aInteractionMainBins := none,
                         m_cAllocatedMainBins := cMainBins + (cMainBins / 4 + 16) },
            { cAllocs := w.cAllocs,
              trace := w.trace ++ [Event.getMainBins cBytesPerMainBin cMainBins,
                Event.free shell.m_aInteractionMainBins] })
        else if alloc w.cAllocs (cBytesPerMainBin * (cMainBins + (cMainBins / 4 + 16))) = true then
          (some { id := w.cAllocs, cBytes := cBytesPerMainBin * (cMainBins + (cMainBins / 4 + 16)) },
            { shell with
                m_aInteractionMainBins := some { id := w.cAllocs, cBytes := cBytesPerMainBin * (cMainBins + (cMainBins / 4 + 16)) },
                m_cAllocatedMainBins := cMainBins + (cMainBins / 4 + 16) },
            { cAllocs := w.cAllocs + 1,
              trace := w.trace ++ [Event.getMainBins cBytesPerMainBin cMainBins,
                Event.free shell.m_aInteractionMainBins,
                Event.alloc (cBytesPerMainBin * (cMainBins + (cMainBins / 4 + 16)))
                  (some { id := w.cAllocs, cBytes := cBytesPerMainBin * (cMainBins + (cMainBins / 4 + 16)) })] })
        else
          (none,
            { shell with m_aInteractionMainBins := none,
                         m_cAllocatedMainBins := cMainBins + (cMainBins / 4 + 16) },
            { cAllocs := w.cAllocs + 1,
              trace := w.trace ++ [Event.getMainBins cBytesPerMainBin cMainBins,
                Event.free shell.m_aInteractionMainBins,
                Event.alloc (cBytesPerMainBin * (cMainBins + (cMainBins / 4 + 16))) none] }) := by
  have esh : cMainBins >>> 2 = cMainBins / 4 := by
    rw [Nat.shiftRight_eq_div_pow]
  unfold GetInteractionMainBins
  simp only [if_pos hgrow, esh, World.emit, AlignedAlloc, IsAddError, IsMultiplyError]
  have ec : cMainBins / 4 + 16 + cMainBins = cMainBins + (cMainBins / 4 + 16) := by omega
  rw [ec]
  by_cases h3 : SIZE_MAX env < cMainBins + (cMainBins / 4 + 16)
  · simp only [h3, decide_True, if_true, List.append_assoc, List.singleton_append,
      List.cons_append, List.nil_append]
  · by_cases h5 : SIZE_MAX env < cBytesPerMainBin * (cMainBins + (cMainBins / 4 + 16))
    · simp only [h3, h5, decide_True, decide_False, if_true, if_false, List.append_assoc,
        List.singleton_append, List.cons_append, List.nil_append, Bool.false_eq_true]
    · by_cases ha : alloc w.cAllocs (cBytesPerMainBin * (cMainBins + (cMainBins / 4 + 16))) = true
      · simp only [h3, h5, ha, decide_False, if_true, if_false, List.append_assoc,
          List.singleton_append, List.cons_append, List.nil_append, Bool.false_eq_true]
      · simp only [h3, h5, ha, decide_False, if_false, List.append_assoc,
          List.singleton_append, List.cons_append, List.nil_append, Bool.false_eq_true]

/-- The growth `(cMainBins >> 2) + 16` of line 98 is a `size_t` for every `size_t`
request when `size_t` has at least 5 bits. -/
theorem cItemsGrowth_fits (env : Env) (cMainBins : Nat) (hbits : 5 ≤ env.cBitsSizeT)
    (hm : cMainBins ≤ SIZE_MAX env) : (cMainBins >>> 2) + 16 ≤ SIZE_MAX env := by
  have h32 : 2 ^ 5 ≤ 2 ^ env.cBitsSizeT := Nat.pow_le_pow_right (by decide) hbits
  have esh : cMainBins >>> 2 = cMainBins / 4 := by
    rw [Nat.shiftRight_eq_div_pow]
  rw [esh]
  unfold SIZE_MAX at hm ⊢
  omega

/-- C22: when the recorded capacity is below the request, `GetInteractionMainBins`
frees the old buffer right after the request and before anything else, and
attempts at most one allocation. It grows by `cMainBins / 4 + 16` bins (a
`size_t` for every request): when neither `cMainBins + (cMainBins / 4 + 16)` nor
`cBytesPerMainBin` times that sum exceeds the largest `size_t` and the
allocator succeeds, it records the capacity `cMainBins + cMainBins / 4 + 16`,
allocates exactly `cBytesPerMainBin` times that many bytes, stores the new
buffer and returns it. It returns null exactly when one of the two overflows
occurs or the allocation fails; on an overflow no allocation is attempted. -/
theorem C22_main_buffer_growth (env : Env) (alloc : Nat → Nat → Bool)
    (shell : InteractionShell) (w : World) (cBytesPerMainBin cMainBins : Nat)
    (hgrow : shell.m_cAllocatedMainBins < cMainBins) :
    (∃ evs, (GetInteractionMainBins env alloc shell w cBytesPerMainBin cMainBins).2.2.trace
          = w.trace ++ [Event.getMainBins cBytesPerMainBin cMainBins,
              Event.free shell.m_aInteractionMainBins] ++ evs
        ∧ (evs = []
          ∨ ∃ r, evs = [Event.alloc (cBytesPerMainBin * (cMainBins + cMainBins / 4 + 16)) r]))
    ∧ (5 ≤ env.cBitsSizeT → cMainBins ≤ SIZE_MAX env → (cMainBins >>> 2) + 16 ≤ SIZE_MAX env)
    ∧ (cMainBins + cMainBins / 4 + 16 ≤ SIZE_MAX env →
        cBytesPerMainBin * (cMainBins + cMainBins / 4 + 16) ≤ SIZE_MAX env →
        alloc w.cAllocs (cBytesPerMainBin * (cMainBins + cMainBins / 4 + 16)) = true →
        GetInteractionMainBins env alloc shell w cBytesPerMainBin cMainBins
          = (some { id := w.cAllocs, cBytes := cBytesPerMainBin * (cMainBins + cMainBins / 4 + 16) },
              { shell with
                  m_aInteractionMainBins := some { id := w.cAllocs, cBytes := cBytesPerMainBin * (cMainBins + cMainBins / 4 + 16) },
                  m_cAllocatedMainBins := cMainBins + cMainBins / 4 + 16 },
              { cAllocs := w.cAllocs + 1,
                trace := w.trace ++ [Event.getMainBins cBytesPerMainBin cMainBins,
                  Event.free shell.m_aInteractionMainBins,
                  Event.alloc (cBytesPerMainBin * (cMainBins + cMainBins / 4 + 16))
                    (some { id := w.cAllocs, cBytes := cBytesPerMainBin * (cMainBins + cMainBins / 4 + 16) })] }))
    ∧ ((GetInteractionMainBins env alloc shell w cBytesPerMainBin cMainBins).1 = none
        ↔ (SIZE_MAX env < cMainBins + cMainBins / 4 + 16
            ∨ SIZE_MAX env < cBytesPerMainBin * (cMainBins + cMainBins / 4 + 16)
            ∨ alloc w.cAllocs (cBytesPerMainBin * (cMainBins + cMainBins / 4 + 16)) = false))
    ∧ (SIZE_MAX env < cMainBins + cMainBins / 4 + 16
          ∨ SIZE_MAX env < cBytesPerMainBin * (cMainBins + cMainBins / 4 + 16) →
        (GetInteractionMainBins env alloc shell w cBytesPerMainBin cMainBins).2.2.cAllocs
          = w.cAllocs) := by
  have eg : cMainBins + cMainBins / 4 + 16 = cMainBins + (cMainBins / 4 + 16) := by omega
  rw [eg, GetInteractionMainBins_grow env alloc shell w cBytesPerMainBin cMainBins hgrow]
  refine ⟨?_, cItemsGrowth_fits env cMainBins, ?_, ?_, ?_⟩
  · by_cases h3 : SIZE_MAX env < cMainBins + (cMainBins / 4 + 16)
    · rw [if_pos h3]
      exact ⟨[], by simp, Or.inl rfl⟩
    · rw [if_neg h3]
      by_cases h5 : SIZE_MAX env < cBytesPerMainBin * (cMainBins + (cMainBins / 4 + 16))
      · rw [if_pos h5]
        exact ⟨[], by simp, Or.inl rfl⟩
      · rw [if_neg h5]
        by_cases ha : alloc w.cAllocs (cBytesPerMainBin * (cMainBins + (cMainBins / 4 + 16))) = true
        · rw [if_pos ha]
          exact ⟨[Event.alloc (cBytesPerMainBin * (cMainBins + (cMainBins / 4 + 16)))
            (some { id := w.cAllocs, cBytes := cBytesPerMainBin * (cMainBins + (cMainBins / 4 + 16)) })],
            by simp, Or.inr ⟨_, rfl⟩⟩
        · rw [if_neg ha]
          exact ⟨[Event.alloc (cBytesPerMainBin * (cMainBins + (cMainBins / 4 + 16))) none],
            by simp, Or.inr ⟨_, rfl⟩⟩
  · intro h3 h5 ha
    rw [if_neg (by omega), if_neg (by omega), if_pos ha]
  · by_cases h3 : SIZE_MAX env < cMainBins + (cMainBins / 4 + 16)
    · rw [if_pos h3]
      exact ⟨fun _ => Or.inl h3, fun _ => rfl⟩
    · rw [if_neg h3]
      by_cases h5 : SIZE_MAX env < cBytesPerMainBin * (cMainBins + (cMainBins / 4 + 16))
      · rw [if_pos h5]
        exact ⟨fun _ => Or.inr (Or.inl h5), fun _ => rfl⟩
      · rw [if_neg h5]
        by_cases ha : alloc w.cAllocs (cBytesPerMainBin * (cMainBins + (cMainBins / 4 + 16))) = true
        · rw [if_pos ha]
          constructor
          · intro h; exact Option.noConfusion h
          · intro h
            rcases h with h | h | h
            · exact absurd h h3
            · exact absurd h h5
            · rw [ha] at h; exact Bool.noConfusion h
        · rw [if_neg ha]
          exact ⟨fun _ => Or.inr (Or.inr (by simpa using ha)), fun _ => rfl⟩
  · intro h
    by_cases h3 : SIZE_MAX env < cMainBins + (cMainBins / 4 + 16)
    · rw [if_pos h3]
    · rw [if_neg h3]
      have h5 : SIZE_MAX env < cBytesPerMainBin * (cMainBins + (cMainBins / 4 + 16)) := by
        rcases h with h | h
        · exact absurd h h3
        · exact h
      rw [if_pos h5]

/-- The empty shell and a request of 100 bytes, with an allocator that succeeds:
200 bytes are allocated and recorded. -/
theorem C21_fast_buffer_growth_witness :
    demoShell.m_cBytesFastBins < 100
    ∧ GetInteractionFastBinsTemp demoEnv demoAlloc demoShell demoWorld 100
        = (some { id := 0, cBytes := 200 },
            { demoShell with m_aInteractionFastBinsTemp := some { id := 0, cBytes := 200 },
                             m_cBytesFastBins := 200 },
            { cAllocs := 1,
              trace := [Event.getFastBins 100, Event.free none,
                Event.alloc 200 (some { id := 0, cBytes := 200 })] }) :=
  ⟨by decide,
   (C21_fast_buffer_growth demoEnv demoAlloc demoShell demoWorld 100 (by decide)).2.1
      (by decide) rfl⟩

/-- The empty shell and a request of 16 bins of 64 bytes, with an allocator that
succeeds: 16 + 4 + 16 = 36 bins are recorded and 64 * 36 bytes are allocated. -/
theorem C22_main_buffer_growth_witness :
    demoShell.m_cAllocatedMainBins < 16
    ∧ GetInteractionMainBins demoEnv demoAlloc demoShell demoWorld 64 16
        = (some { id := 0, cBytes := 2304 },
            { demoShell with m_aInteractionMainBins := some { id := 0, cBytes := 2304 },
                             m_cAllocatedMainBins := 36 },
            { cAllocs := 1,
              trace := [Event.getMainBins 64 16, Event.free none,
                Event.alloc 2304 (some { id := 0, cBytes := 2304 })] }) :=
  ⟨by decide,
   (C22_main_buffer_growth demoEnv demoAlloc demoShell demoWorld 64 16 (by decide)).2.2.1
      (by decide) (by decide) rfl⟩

/-! ## The steps a stretch of the program adds -/

theorem addsSteps_refl (w : World) : addsSteps w w [] :=
  ⟨[], by simp, rfl⟩

theorem stepsOf_append (a b : List Event) : stepsOf (a ++ b) = stepsOf a ++ stepsOf b := by
  unfold stepsOf
  rw [List.filterMap_append]

theorem addsSteps_trans {w1 w2 w3 : World} {l1 l2 : List Step} (h12 : addsSteps w1 w2 l1)
    (h23 : addsSteps w2 w3 l2) : addsSteps w1 w3 (l1 ++ l2) := by
  obtain ⟨e1, ht1, hs1⟩ := h12
  obtain ⟨e2, ht2, hs2⟩ := h23
  refine ⟨e1 ++ e2, by rw [ht2, ht1, List.append_assoc], ?_⟩
  rw [stepsOf_append, hs1, hs2]

/-- An event that is a step adds that step. -/
theorem addsSteps_emit (w : World) (e : Event) (st : Step) (h : e.step = some st) :
    addsSteps w (w.emit e) [st] :=
  ⟨[e], rfl, by simp [stepsOf, h]⟩

/-- A read, a free or an allocation adds no step. -/
theorem addsSteps_emit_none (w : World) (e : Event) (h : e.step = none) :
    addsSteps w (w.emit e) [] :=
  ⟨[e], rfl, by simp [stepsOf, h]⟩

theorem addsSteps_eq {w1 w2 : World} {l1 l2 : List Step} (h : addsSteps w1 w2 l1)
    (e : l1 = l2) : addsSteps w1 w2 l2 := by
  rw [← e]; exact h

/-- The steps among the events a call added. -/
theorem addsSteps_added {w : World} {r : Result} {l : List Step} (h : addsSteps w r.world l) :
    stepsOf (addedEvents w r) = l := by
  obtain ⟨evs, ht, hs⟩ := h
  unfold addedEvents
  rw [ht, List.drop_left]
  exact hs

theorem addsSteps_of_onlyReads {w1 w2 : World} (h : onlyReads w1 w2) : addsSteps w1 w2 [] := by
  obtain ⟨_, evs, ht, hr⟩ := h
  refine ⟨evs, ht, ?_⟩
  unfold stepsOf
  rw [List.filterMap_eq_nil_iff]
  intro e he
  have := hr e he
  cases e <;> simp_all [Event.isReadIndex, Event.step]

theorem AlignedAlloc_steps (alloc : Nat → Nat → Bool) (w : World) (cBytes : Nat) :
    addsSteps w (AlignedAlloc alloc w cBytes).2 [] :=
  ⟨[Event.alloc cBytes (AlignedAlloc alloc w cBytes).1], rfl, rfl⟩

/-- The main getter adds one step, the request. -/
theorem GetInteractionMainBins_steps (env : Env) (alloc : Nat → Nat → Bool)
    (shell : InteractionShell) (w : World) (cBytesPerMainBin cMainBins : Nat) :
    addsSteps w (GetInteractionMainBins env alloc shell w cBytesPerMainBin cMainBins).2.2
      [Step.requestMain cBytesPerMainBin cMainBins] := by
  have h0 : addsSteps w (w.emit (Event.getMainBins cBytesPerMainBin cMainBins))
      [Step.requestMain cBytesPerMainBin cMainBins] := addsSteps_emit w _ _ rfl
  unfold GetInteractionMainBins
  simp only
  by_cases h1 : shell.m_cAllocatedMainBins < cMainBins
  · rw [if_pos h1]
    have h2 := addsSteps_trans h0
      (addsSteps_emit_none _ (Event.free shell.m_aInteractionMainBins) rfl)
    by_cases h3 : IsAddError env ((cMainBins >>> 2) + 16) cMainBins = true
    · rw [if_pos h3]; exact h2
    · rw [if_neg h3]
      by_cases h5 : IsMultiplyError env cBytesPerMainBin (cMainBins + ((cMainBins >>> 2) + 16)) = true
      · rw [if_pos h5]; exact h2
      · rw [if_neg h5]
        have h4 := addsSteps_trans h2 (AlignedAlloc_steps alloc _
          (cBytesPerMainBin * (cMainBins + ((cMainBins >>> 2) + 16))))
        generalize AlignedAlloc alloc
          ((w.emit (Event.getMainBins cBytesPerMainBin cMainBins)).emit
            (Event.free shell.m_aInteractionMainBins))
          (cBytesPerMainBin * (cMainBins + ((cMainBins >>> 2) + 16))) = r at h4 ⊢
        obtain ⟨o, w2⟩ := r
        cases o with
        | none => exact h4
        | some b => exact h4
  · rw [if_neg h1]; exact h0

/-- The fast getter adds one step, the request. -/
theorem GetInteractionFastBinsTemp_steps (env : Env) (alloc : Nat → Nat → Bool)
    (shell : InteractionShell) (w : World) (cBytes : Nat) :
    addsSteps w (GetInteractionFastBinsTemp env alloc shell w cBytes).2.2
      [Step.requestFast cBytes] := by
  have h0 : addsSteps w (w.emit (Event.getFastBins cBytes)) [Step.requestFast cBytes] :=
    addsSteps_emit w _ _ rfl
  unfold GetInteractionFastBinsTemp
  simp only
  by_cases h1 : shell.m_cBytesFastBins < cBytes
  · rw [if_pos h1]
    have h2 := addsSteps_trans h0
      (addsSteps_emit_none _ (Event.free shell.m_aInteractionFastBinsTemp) rfl)
    by_cases h3 : IsAddError env cBytes cBytes = true
    · rw [if_pos h3]; exact h2
    · rw [if_neg h3]
      have h4 := addsSteps_trans h2 (AlignedAlloc_steps alloc _ (cBytes + cBytes))
      generalize AlignedAlloc alloc
        ((w.emit (Event.getFastBins cBytes)).emit (Event.free shell.m_aInteractionFastBinsTemp))
        (cBytes + cBytes) = r at h4 ⊢
      obtain ⟨o, w2⟩ := r
      cases o with
      | none => exact h4
      | some b => exact h4
  · rw [if_neg h1]; exact h0

theorem packLoop_steps (env : Env) (core : InteractionCore) (subset : DataSubsetInteraction)
    (fi : Nat → Int) :
    ∀ (k i : Nat) (ac : List Nat) (w : World),
      addsSteps w (packLoop env core subset fi k i ac w).2 [] := by
  intro k
  induction k with
  | zero =>
    intro i ac w
    exact addsSteps_emit_none w (Event.readIndex i) rfl
  | succ k ih =>
    intro i ac w
    exact addsSteps_trans (addsSteps_emit_none w (Event.readIndex i) rfl) (ih (i + 1) _ _)

/-! ## The steps of the subset loop -/

/-- The steps of one pass of the subset loop: the four steps of the subset when
the pass falls through, and a failed accumulation when it returns. -/
theorem subsetBody_steps (env : Env) (alloc : Nat → Nat → Bool) (core : InteractionCore)
    (fi : Nat → Int) (cDimensions cScores : Nat) (s : Shape) (iSubset : Nat)
    (subset : DataSubsetInteraction) (shell : InteractionShell) (w : World) :
    (∀ sh w2, subsetBody env alloc core fi cDimensions cScores s iSubset subset shell w
          = .next sh w2 →
        addsSteps w w2
          [Step.requestFast (cBytesPerFastBinOf env subset core.m_bHessian cScores * s.cTensorBins),
           Step.zeroFast iSubset (cBytesPerFastBinOf env subset core.m_bHessian cScores)
             s.cTensorBins,
           Step.kernel iSubset ErrorEbm.Error_None,
           Step.addToMain iSubset s.cTensorBins])
    ∧ (∀ e sh w2, subsetBody env alloc core fi cDimensions cScores s iSubset subset shell w
          = .ret e sh w2 →
        ∃ l, addsSteps w w2 l ∧ failedAccumulation l e iSubset) := by
  unfold subsetBody
  simp only
  generalize cBytesPerFastBinOf env subset core.m_bHessian cScores = cF
  by_cases hm : IsMultiplyError env cF s.cTensorBins = true
  · rw [if_pos hm]
    constructor
    · intro sh w2 h; exact SubsetOutcome.noConfusion h
    · intro e sh w2 h
      injection h with h1 h2 h3
      subst h1; subst h3
      refine ⟨[], addsSteps_refl w, ?_⟩
      unfold failedAccumulation
      simp
  · rw [if_neg hm]
    have hfit : cF * s.cTensorBins ≤ SIZE_MAX env := by
      unfold IsMultiplyError at hm
      have := of_decide_eq_false (Bool.eq_false_iff.mpr hm)
      omega
    rw [mod_of_le_SIZE_MAX env hfit]
    have h1 := GetInteractionFastBinsTemp_steps env alloc shell w (cF * s.cTensorBins)
    generalize GetInteractionFastBinsTemp env alloc shell w (cF * s.cTensorBins) = r at h1 ⊢
    obtain ⟨o, shell2, w2⟩ := r
    cases o with
    | none =>
      simp only
      constructor
      · intro sh w3 h; exact SubsetOutcome.noConfusion h
      · intro e sh w3 h
        injection h with h1a h2a h3a
        subst h1a; subst h3a
        refine ⟨_, h1, ?_⟩
        unfold failedAccumulation
        simp [Step.isSubsetStep]
    | some aFastBins =>
      simp only
      have h2 := addsSteps_trans h1
        (addsSteps_emit w2 (Event.zeroFast iSubset cF s.cTensorBins) _ rfl)
      have h3 := addsSteps_trans h2
        (packLoop_steps env core subset fi (cDimensions - 1) 0 []
          (w2.emit (Event.zeroFast iSubset cF s.cTensorBins)))
      generalize packLoop env core subset fi (cDimensions - 1) 0 []
        (w2.emit (Event.zeroFast iSubset cF s.cTensorBins)) = p at h3 ⊢
      obtain ⟨ac, w3⟩ := p
      simp only at h3 ⊢
      generalize
        ({ m_cRuntimeRealDimensions := cDimensions, m_bHessian := core.m_bHessian,
           m_cScores := cScores, m_cSamples := subset.m_cSamples, m_acBins := s.acBins,
           m_acItemsPerBitPack := ac, m_aFastBins := aFastBins } : BinSumsInteractionBridge)
        = bridge
      by_cases he : ErrorEbm.Error_None ≠ subset.BinSumsInteraction bridge
      · rw [if_pos he]
        constructor
        · intro sh w4 h; exact SubsetOutcome.noConfusion h
        · intro e sh w4 h
          injection h with h1a h2a h3a
          subst h1a; subst h3a
          have h4 := addsSteps_trans h3
            (addsSteps_emit w3 (Event.binSums iSubset bridge (subset.BinSumsInteraction bridge))
              _ rfl)
          refine ⟨_, h4, ?_⟩
          unfold failedAccumulation
          refine ⟨fun e2 => he e2.symm, ?_, ?_, ?_, ?_⟩
          · intro st hst
            simp at hst
            rcases hst with h | h | h <;> subst h <;> rfl
          · intro k c hk
            simp at hk
          · intro k r hk
            simp at hk
            exact Or.inr hk.2
          · exact Or.inr ⟨iSubset, by simp⟩
      · rw [if_neg he]
        have he2 : subset.BinSumsInteraction bridge = ErrorEbm.Error_None := by
          by_contra hne
          exact he (fun e2 => hne e2.symm)
        constructor
        · intro sh w4 h
          injection h with h1a h2a
          subst h2a
          have h4 := addsSteps_trans h3
            (addsSteps_emit w3 (Event.binSums iSubset bridge (subset.BinSumsInteraction bridge))
              (Step.kernel iSubset ErrorEbm.Error_None)
              (by show some (Step.kernel iSubset (subset.BinSumsInteraction bridge)) = _
                  rw [he2]))
          exact addsSteps_trans h4
            (addsSteps_emit _ (Event.convertAddBin iSubset cScores core.m_bHessian s.cTensorBins
              (decide (env.sizeofUIntBig = subset.m_cUIntBytes))
              (decide (env.sizeofFloatBig = subset.m_cFloatBytes))) _ rfl)
        · intro e sh w4 h; exact SubsetOutcome.noConfusion h

theorem failedAccumulation_mono {l : List Step} {e : ErrorEbm} {i j : Nat}
    (h : failedAccumulation l e i) (hij : i ≤ j) : failedAccumulation l e j := by
  obtain ⟨h1, h2, h3, h4, h5⟩ := h
  exact ⟨h1, h2, fun k c hk => Nat.lt_of_lt_of_le (h3 k c hk) hij, h4, h5⟩

/-- A failed accumulation that follows the four steps of a subset that was added. -/
theorem failedAccumulation_after_pass {l : List Step} {e : ErrorEbm} {iLast : Nat}
    (h : failedAccumulation l e iLast) (iSubset a b c d : Nat) (hi : iSubset < iLast) :
    failedAccumulation
      ([Step.requestFast a, Step.zeroFast iSubset b c, Step.kernel iSubset ErrorEbm.Error_None,
        Step.addToMain iSubset d] ++ l) e iLast := by
  obtain ⟨h1, h2, h3, h4, h5⟩ := h
  refine ⟨h1, ?_, ?_, ?_, ?_⟩
  · intro st hst
    rcases List.mem_append.mp hst with hs | hs
    · simp at hs
      rcases hs with hs | hs | hs | hs <;> subst hs <;> rfl
    · exact h2 st hs
  · intro k c2 hk
    rcases List.mem_append.mp hk with hs | hs
    · simp at hs
      omega
    · exact h3 k c2 hs
  · intro k r hk
    rcases List.mem_append.mp hk with hs | hs
    · simp at hs
      exact Or.inl hs.2
    · exact h4 k r hs
  · rcases h5 with h5 | ⟨k, hk⟩
    · exact Or.inl h5
    · exact Or.inr ⟨k, List.mem_append.mpr (Or.inr hk)⟩

theorem subsetLoop_nil (env : Env) (alloc : Nat → Nat → Bool) (core : InteractionCore)
    (fi : Nat → Int) (cDimensions cScores : Nat) (s : Shape) (iSubset : Nat)
    (subset : DataSubsetInteraction) (shell : InteractionShell) (w : World) :
    subsetLoop env alloc core fi cDimensions cScores s iSubset subset [] shell w
      = subsetBody env alloc core fi cDimensions cScores s iSubset subset shell w := by
  unfold subsetLoop
  rfl

theorem subsetLoop_cons (env : Env) (alloc : Nat → Nat → Bool) (core : InteractionCore)
    (fi : Nat → Int) (cDimensions cScores : Nat) (s : Shape) (iSubset : Nat)
    (subset following : DataSubsetInteraction) (others : List DataSubsetInteraction)
    (shell : InteractionShell) (w : World) :
    subsetLoop env alloc core fi cDimensions cScores s iSubset subset (following :: others) shell w
      = match subsetBody env alloc core fi cDimensions cScores s iSubset subset shell w with
        | .ret error shell w => .ret error shell w
        | .next shell w =>
          subsetLoop env alloc core fi cDimensions cScores s (iSubset + 1) following others
            shell w := rfl

/-- The steps of the subset loop: the four steps of every subset, in turn, when
the loop falls through, and a failed accumulation when it returns. -/
theorem subsetLoop_steps (env : Env) (alloc : Nat → Nat → Bool) (core : InteractionCore)
    (fi : Nat → Int) (cDimensions cScores : Nat) (s : Shape) :
    ∀ (others : List DataSubsetInteraction) (iSubset : Nat) (subset : DataSubsetInteraction)
      (shell : InteractionShell) (w : World),
      (∀ sh w2, subsetLoop env alloc core fi cDimensions cScores s iSubset subset others shell w
            = .next sh w2 →
          addsSteps w w2 (subsetSteps env core cScores s.cTensorBins iSubset (subset :: others)))
      ∧ (∀ e sh w2, subsetLoop env alloc core fi cDimensions cScores s iSubset subset others shell w
            = .ret e sh w2 →
          ∃ l, addsSteps w w2 l ∧ failedAccumulation l e (iSubset + others.length)) := by
  intro others
  induction others with
  | nil =>
    intro iSubset subset shell w
    rw [subsetLoop_nil]
    obtain ⟨hn, hr⟩ := subsetBody_steps env alloc core fi cDimensions cScores s iSubset subset shell w
    constructor
    · intro sh w2 h
      exact addsSteps_eq (hn sh w2 h) (by simp [subsetSteps])
    · intro e sh w2 h
      exact hr e sh w2 h
  | cons following others ih =>
    intro iSubset subset shell w
    rw [subsetLoop_cons]
    obtain ⟨hn, hr⟩ := subsetBody_steps env alloc core fi cDimensions cScores s iSubset subset shell w
    cases hbody : subsetBody env alloc core fi cDimensions cScores s iSubset subset shell w with
    | ret e1 sh1 w1 =>
      simp only
      constructor
      · intro sh w2 h; exact SubsetOutcome.noConfusion h
      · intro e sh w2 h
        injection h with h1 h2 h3
        subst h1; subst h3
        obtain ⟨l, hl, hf⟩ := hr e1 sh1 w1 hbody
        exact ⟨l, hl, failedAccumulation_mono hf (by omega)⟩
    | next sh1 w1 =>
      simp only
      have hb := hn sh1 w1 hbody
      obtain ⟨ihn, ihr⟩ := ih (iSubset + 1) following sh1 w1
      constructor
      · intro sh w2 h
        exact addsSteps_eq (addsSteps_trans hb (ihn sh w2 h)) (by simp [subsetSteps])
      · intro e sh w2 h
        obtain ⟨l2, hl2, hf2⟩ := ihr e sh w2 h
        refine ⟨_, addsSteps_trans hb hl2, ?_⟩
        have e3 : iSubset + 1 + others.length = iSubset + (following :: others).length := by
          simp only [List.length_cons]; omega
        rw [e3] at hf2
        exact failedAccumulation_after_pass hf2 iSubset _ _ _ _
          (by simp only [List.length_cons]; omega)

/-! ## The steps of what follows the shape loop -/

theorem EbmMax_eq_max (a b : Nat) : EbmMax a b = max a b := by
  unfold EbmMax
  by_cases h : a < b
  · rw [if_pos h]; omega
  · rw [if_neg h]; omega

/-- The steps of lines 271-505, path by path. With `cBytesPerMainBin` the size of
a main bin and `cTensorBins + max(cAuxillaryBinsForBuildFastTotals, 4)` the bin
count: if the bin count or the byte count does not fit in `size_t`, the code is
`Error_OutOfMemory` and nothing happened; otherwise the main buffer is
requested with exactly these two numbers, and either the shell returned null
and the code is `Error_OutOfMemory`, or the tensor bins are zeroed and the
accumulation failed, or the accumulation went through all subsets and is
followed by the zeroing of the auxiliary bins, the totals build and, for 2
dimensions, the search. -/
theorem evaluateTensor_steps (env : Env) (alloc : Nat → Nat → Bool) (shell : InteractionShell)
    (core : InteractionCore) (fi : Nat → Int) (flags : Nat) (cSamplesLeafMin cDimensions : Nat)
    (out : Option Dbl) (s : Shape) (w : World) (R : Result)
    (hR : evaluateTensor env alloc shell core fi flags cSamplesLeafMin cDimensions out s w = R) :
    ((SIZE_MAX env < s.cTensorBins + max s.cAuxillaryBinsForBuildFastTotals 4
        ∨ SIZE_MAX env < env.GetBinSize env.sizeofFloatMain env.sizeofUIntMain core.m_bHessian
            (env.GetCountScores core.m_cClasses)
              * (s.cTensorBins + max s.cAuxillaryBinsForBuildFastTotals 4))
      ∧ R.error = .Error_OutOfMemory ∧ R.avgInteractionStrengthOut = out ∧ R.world = w)
    ∨ (s.cTensorBins + max s.cAuxillaryBinsForBuildFastTotals 4 ≤ SIZE_MAX env
      ∧ env.GetBinSize env.sizeofFloatMain env.sizeofUIntMain core.m_bHessian
            (env.GetCountScores core.m_cClasses)
          * (s.cTensorBins + max s.cAuxillaryBinsForBuildFastTotals 4) ≤ SIZE_MAX env
      ∧ (((GetInteractionMainBins env alloc shell w
              (env.GetBinSize env.sizeofFloatMain env.sizeofUIntMain core.m_bHessian
                (env.GetCountScores core.m_cClasses))
              (s.cTensorBins + max s.cAuxillaryBinsForBuildFastTotals 4)).1 = none
          ∧ R.error = .Error_OutOfMemory ∧ R.avgInteractionStrengthOut = out
          ∧ addsSteps w R.world
              [Step.requestMain
                (env.GetBinSize env.sizeofFloatMain env.sizeofUIntMain core.m_bHessian
                  (env.GetCountScores core.m_cClasses))
                (s.cTensorBins + max s.cAuxillaryBinsForBuildFastTotals 4)])
        ∨ ((GetInteractionMainBins env alloc shell w
              (env.GetBinSize env.sizeofFloatMain env.sizeofUIntMain core.m_bHessian
                (env.GetCountScores core.m_cClasses))
              (s.cTensorBins + max s.cAuxillaryBinsForBuildFastTotals 4)).1 ≠ none
          ∧ R.avgInteractionStrengthOut = out
          ∧ ∃ l, failedAccumulation l R.error core.m_aSubsetsRest.length
            ∧ addsSteps w R.world
              (Step.requestMain
                  (env.GetBinSize env.sizeofFloatMain env.sizeofUIntMain core.m_bHessian
                    (env.GetCountScores core.m_cClasses))
                  (s.cTensorBins + max s.cAuxillaryBinsForBuildFastTotals 4)
                :: Step.zeroMain
                  (env.GetBinSize env.sizeofFloatMain env.sizeofUIntMain core.m_bHessian
                    (env.GetCountScores core.m_cClasses) * s.cTensorBins)
                :: l))
        ∨ ((GetInteractionMainBins env alloc shell w
              (env.GetBinSize env.sizeofFloatMain env.sizeofUIntMain core.m_bHessian
                (env.GetCountScores core.m_cClasses))
              (s.cTensorBins + max s.cAuxillaryBinsForBuildFastTotals 4)).1 ≠ none
          ∧ R.error = .Error_None
          ∧ addsSteps w R.world
              (Step.requestMain
                  (env.GetBinSize env.sizeofFloatMain env.sizeofUIntMain core.m_bHessian
                    (env.GetCountScores core.m_cClasses))
                  (s.cTensorBins + max s.cAuxillaryBinsForBuildFastTotals 4)
                :: Step.zeroMain
                  (env.GetBinSize env.sizeofFloatMain env.sizeofUIntMain core.m_bHessian
                    (env.GetCountScores core.m_cClasses) * s.cTensorBins)
                :: (subsetSteps env core (env.GetCountScores core.m_cClasses) s.cTensorBins 0
                      (core.m_subsetFirst :: core.m_aSubsetsRest)
                    ++ Step.zeroAux
                        (env.GetBinSize env.sizeofFloatMain env.sizeofUIntMain core.m_bHessian
                          (env.GetCountScores core.m_cClasses) * s.cTensorBins)
                        (env.GetBinSize env.sizeofFloatMain env.sizeofUIntMain core.m_bHessian
                          (env.GetCountScores core.m_cClasses))
                        (max s.cAuxillaryBinsForBuildFastTotals 4)
                      :: Step.totals cDimensions s.acBins
                      :: (if 2 = cDimensions then [Step.search cDimensions s.acBins] else [])))))) := by
  unfold evaluateTensor at hR
  simp only [EbmMax_eq_max] at hR
  generalize env.GetBinSize env.sizeofFloatMain env.sizeofUIntMain core.m_bHessian
    (env.GetCountScores core.m_cClasses) = cB at hR ⊢
  generalize max s.cAuxillaryBinsForBuildFastTotals 4 = cA at hR ⊢
  by_cases ha : IsAddError env s.cTensorBins cA = true
  · rw [if_pos ha] at hR
    subst hR
    unfold IsAddError at ha
    exact Or.inl ⟨Or.inl (of_decide_eq_true ha), rfl, rfl, rfl⟩
  rw [if_neg ha] at hR
  have hM : s.cTensorBins + cA ≤ SIZE_MAX env := by
    unfold IsAddError at ha
    have := of_decide_eq_false (Bool.eq_false_iff.mpr ha)
    omega
  rw [mod_of_le_SIZE_MAX env hM] at hR
  by_cases hm : IsMultiplyError env cB (s.cTensorBins + cA) = true
  · rw [if_pos hm] at hR
    subst hR
    unfold IsMultiplyError at hm
    exact Or.inl ⟨Or.inr (of_decide_eq_true hm), rfl, rfl, rfl⟩
  rw [if_neg hm] at hR
  have hB : cB * (s.cTensorBins + cA) ≤ SIZE_MAX env := by
    unfold IsMultiplyError at hm
    have := of_decide_eq_false (Bool.eq_false_iff.mpr hm)
    omega
  have hZ : cB * s.cTensorBins ≤ SIZE_MAX env :=
    le_trans (Nat.mul_le_mul_left cB (Nat.le_add_right _ _)) hB
  rw [mod_of_le_SIZE_MAX env hZ] at hR
  refine Or.inr ⟨hM, hB, ?_⟩
  have hg := GetInteractionMainBins_steps env alloc shell w cB (s.cTensorBins + cA)
  generalize GetInteractionMainBins env alloc shell w cB (s.cTensorBins + cA) = r at hg hR ⊢
  obtain ⟨o, shell2, w2⟩ := r
  cases o with
  | none =>
    simp only at hR
    subst hR
    exact Or.inl ⟨rfl, rfl, rfl, hg⟩
  | some aMainBins =>
    simp only at hR hg
    have hz := addsSteps_trans hg (addsSteps_emit w2 (Event.zeroMain (cB * s.cTensorBins)) _ rfl)
    obtain ⟨hnext, hret⟩ := subsetLoop_steps env alloc core fi cDimensions
      (env.GetCountScores core.m_cClasses) s core.m_aSubsetsRest 0 core.m_subsetFirst shell2
      (w2.emit (Event.zeroMain (cB * s.cTensorBins)))
    generalize subsetLoop env alloc core fi cDimensions (env.GetCountScores core.m_cClasses) s 0
      core.m_subsetFirst core.m_aSubsetsRest shell2
      (w2.emit (Event.zeroMain (cB * s.cTensorBins))) = so at hnext hret hR
    cases so with
    | ret e sh w3 =>
      simp only at hR
      subst hR
      obtain ⟨l, hl, hf⟩ := hret e sh w3 rfl
      rw [Nat.zero_add] at hf
      exact Or.inr (Or.inl ⟨fun h => Option.noConfusion h, rfl, l, hf,
        addsSteps_eq (addsSteps_trans hz hl) (by simp)⟩)
    | next sh w3 =>
      simp only at hR
      have hl := addsSteps_trans hz (hnext sh w3 rfl)
      have ht := addsSteps_trans (addsSteps_trans hl
        (addsSteps_emit w3 (Event.zeroAux (cB * s.cTensorBins) cB cA) _ rfl))
        (addsSteps_emit _ (Event.tensorTotalsBuild core.m_bHessian
          (env.GetCountScores core.m_cClasses) cDimensions s.acBins) _ rfl)
      by_cases hd : 2 = cDimensions
      · rw [if_pos hd] at hR
        subst hR
        have hs := addsSteps_trans ht
          (addsSteps_emit _ (Event.partition2d cDimensions s.acBins flags cSamplesLeafMin
            (core.PartitionTwoDimensionalInteraction s.aiFeatures s.acBins flags cSamplesLeafMin))
            _ rfl)
        exact Or.inr (Or.inr ⟨fun h => Option.noConfusion h, rfl,
          addsSteps_eq hs (by simp [hd])⟩)
      · rw [if_neg hd] at hR
        subst hR
        exact Or.inr (Or.inr ⟨fun h => Option.noConfusion h, rfl,
          addsSteps_eq ht (by simp [hd])⟩)

/-! ## The paths of a call -/

/-- The paths of a call. Either it returned before sizing, having only read
indexes, with success and 0.0 or with `Error_IllegalParamVal` or
`Error_OutOfMemory` and the sentinel; or the handle is valid, the dimension
count is legal, the index pointer is not null, the shape loop fell through
after reads only with a cardinality that is not above the effective ceiling,
and the call is what lines 271-505 do with the locals the loop handed on. -/
theorem calc_paths (env : Env) (alloc : Nat → Nat → Bool) (h : Option InteractionShell)
    (w : World) (cd : Int) (fi : Option (Nat → Int)) (flags : Nat) (maxC minS : Int)
    (avg : Option Dbl) (R : Result)
    (hR : CalcInteractionStrength env alloc h w cd fi flags maxC minS avg = R) :
    (onlyReads w R.world
      ∧ ((R.error = .Error_None ∧ R.avgInteractionStrengthOut = storeOut avg dblZero)
        ∨ ((R.error = .Error_IllegalParamVal ∨ R.error = .Error_OutOfMemory)
          ∧ R.avgInteractionStrengthOut = storeOut avg env.k_illegalGainDouble)))
    ∨ ∃ (shell : InteractionShell) (n : Nat) (fi2 : Nat → Int) (s : Shape) (w1 : World),
        GetInteractionShellFromHandle env h = some shell ∧ cd = (n : Int) ∧ 1 ≤ n
        ∧ n ≤ env.k_cDimensionsMax ∧ fi = some fi2
        ∧ shapeAt env shell.m_pInteractionCore fi2 (storeOut avg env.k_illegalGainDouble) w n
            = some (s, w1)
        ∧ onlyReads w w1
        ∧ s.cTensorBins ≤ cCardinalityMaxOf env maxC
        ∧ R = evaluateTensor env alloc shell shell.m_pInteractionCore fi2 flags
            (cSamplesLeafMinOf env minS) n (storeOut avg env.k_illegalGainDouble) s w1 := by
  cases hg : GetInteractionShellFromHandle env h with
  | none =>
    rw [calc_invalid_handle _ _ _ _ _ _ _ _ _ _ hg] at hR
    subst hR
    exact Or.inl ⟨onlyReads_refl w, Or.inr ⟨Or.inl rfl, rfl⟩⟩
  | some shell =>
    by_cases hneg : cd < 0
    · rw [calc_negative_dimensions _ _ _ _ _ _ _ _ _ _ _ hg hneg] at hR
      subst hR
      exact Or.inl ⟨onlyReads_refl w, Or.inr ⟨Or.inl rfl, rfl⟩⟩
    by_cases hzero : cd = 0
    · subst hzero
      rw [calc_zero_dimensions _ _ _ _ _ _ _ _ _ _ hg] at hR
      subst hR
      exact Or.inl ⟨onlyReads_refl w, Or.inl ⟨rfl, rfl⟩⟩
    have hpos : 0 < cd := by omega
    cases fi with
    | none =>
      rw [calc_null_indexes _ _ _ _ _ _ _ _ _ _ hg hpos] at hR
      subst hR
      exact Or.inl ⟨onlyReads_refl w, Or.inr ⟨Or.inl rfl, rfl⟩⟩
    | some fi2 =>
      by_cases hbig : (env.k_cDimensionsMax : Int) < cd
      · rw [calc_too_many_dimensions _ _ _ _ _ _ _ _ _ _ _ hg hbig] at hR
        subst hR
        exact Or.inl ⟨onlyReads_refl w, Or.inr ⟨Or.inr rfl, rfl⟩⟩
      obtain ⟨n, rfl⟩ : ∃ n : Nat, cd = (n : Int) := ⟨cd.toNat, by omega⟩
      have h1 : 1 ≤ n := by omega
      have h2 : n ≤ env.k_cDimensionsMax := by omega
      by_cases hdeg : shell.m_pInteractionCore.m_cClasses = 0
          ∨ shell.m_pInteractionCore.m_cClasses = 1 ∨ shell.m_pInteractionCore.m_cSamples = 0
      · rw [calc_degenerate _ _ _ _ _ _ _ _ _ _ _ hg h1 h2 hdeg] at hR
        subst hR
        exact Or.inl ⟨onlyReads_refl w, Or.inl ⟨rfl, rfl⟩⟩
      have hc0 : shell.m_pInteractionCore.m_cClasses ≠ 0 := fun e => hdeg (Or.inl e)
      have hc1 : shell.m_pInteractionCore.m_cClasses ≠ 1 := fun e => hdeg (Or.inr (Or.inl e))
      have hs : shell.m_pInteractionCore.m_cSamples ≠ 0 := fun e => hdeg (Or.inr (Or.inr e))
      rw [calc_run _ _ _ _ _ _ _ _ _ _ _ hg h1 h2 hc0 hc1 hs] at hR
      obtain ⟨k, rfl⟩ : ∃ k, n = k + 1 := ⟨n - 1, by omega⟩
      have ek : k + 1 - 1 = k := rfl
      rw [ek] at hR
      have hreads := shapeLoop_onlyReads env shell.m_pInteractionCore fi2
        (storeOut avg env.k_illegalGainDouble) k 0 shapeInit w
      have hat := shapeAt_step env shell.m_pInteractionCore fi2
        (storeOut avg env.k_illegalGainDouble) w k
      change afterShapeLoop env alloc shell shell.m_pInteractionCore fi2 flags
        (cCardinalityMaxOf env maxC) (cSamplesLeafMinOf env minS) (k + 1)
        (storeOut avg env.k_illegalGainDouble)
        (shapeLoop env shell.m_pInteractionCore fi2 (storeOut avg env.k_illegalGainDouble) k 0
          shapeInit w) = R at hR
      generalize hso : shapeLoop env shell.m_pInteractionCore fi2
        (storeOut avg env.k_illegalGainDouble) k 0 shapeInit w = so at hreads hR hat
      cases so with
      | ret error o w2 =>
        simp only [afterShapeLoop] at hR
        simp only [ShapeOutcome.world] at hreads
        subst hR
        rcases shapeLoop_ret _ _ _ _ _ _ _ _ _ _ _ hso with ⟨he, ho⟩ | ⟨he, ho⟩
        · exact Or.inl ⟨hreads, Or.inl ⟨he, by rw [ho, storeOut_storeOut]⟩⟩
        · exact Or.inl ⟨hreads, Or.inr ⟨Or.inl he, ho⟩⟩
      | next s2 w2 =>
        simp only [ShapeOutcome.world] at hreads
        simp only [afterShapeLoop] at hR
        by_cases hceil : cCardinalityMaxOf env maxC < s2.cTensorBins
        · rw [if_pos hceil] at hR
          subst hR
          exact Or.inl ⟨hreads, Or.inl ⟨rfl, storeOut_storeOut _ _ _⟩⟩
        · rw [if_neg hceil] at hR
          exact Or.inr ⟨shell, k + 1, fi2, s2, w2, rfl, rfl, h1, h2, rfl, hat, hreads,
            by omega, hR.symm⟩

/-! ## Reading steps off the events -/

theorem mem_stepsOf (st : Step) (evs : List Event) :
    st ∈ stepsOf evs ↔ ∃ e, e ∈ evs ∧ e.step = some st := by
  unfold stepsOf
  rw [List.mem_filterMap]

/-- A kernel step comes from a kernel event with the same subset and code. -/
theorem step_kernel_inv (e : Event) (k : Nat) (r : ErrorEbm)
    (h : e.step = some (Step.kernel k r)) : ∃ bridge, e = Event.binSums k bridge r := by
  cases e <;> simp [Event.step] at h
  obtain ⟨h1, h2⟩ := h
  subst h1; subst h2
  exact ⟨_, rfl⟩

/-- A search step comes from a search event and conversely. -/
theorem step_search_iff (e : Event) :
    e.isPartition = true ↔ ∃ d a, e.step = some (Step.search d a) := by
  cases e <;> simp [Event.step, Event.isPartition]

/-- The steps of the subsets are steps of the subset loop, and their kernels
returned `Error_None`. -/
theorem subsetSteps_mem (env : Env) (core : InteractionCore) (cScores cTensorBins : Nat) :
    ∀ (subs : List DataSubsetInteraction) (i : Nat) (st : Step),
      st ∈ subsetSteps env core cScores cTensorBins i subs →
      st.isSubsetStep = true ∧ ∀ k r, st = Step.kernel k r → r = ErrorEbm.Error_None := by
  intro subs
  induction subs with
  | nil =>
    intro i st h
    simp [subsetSteps] at h
  | cons sub others ih =>
    intro i st h
    simp only [subsetSteps] at h
    rcases List.mem_append.mp h with hs | hs
    · simp at hs
      rcases hs with hs | hs | hs | hs <;> subst hs
      · exact ⟨rfl, fun k r e => Step.noConfusion e⟩
      · exact ⟨rfl, fun k r e => Step.noConfusion e⟩
      · refine ⟨rfl, fun k r e => ?_⟩
        injection e with e1 e2
        exact e2.symm
      · exact ⟨rfl, fun k r e => Step.noConfusion e⟩
    · exact ih (i + 1) st hs

/-- The last subset is among the subsets whose steps are listed. -/
theorem subsetSteps_last (env : Env) (core : InteractionCore) (cScores cTensorBins : Nat) :
    ∀ (others : List DataSubsetInteraction) (sub : DataSubsetInteraction) (i : Nat),
      Step.addToMain (i + others.length) cTensorBins
        ∈ subsetSteps env core cScores cTensorBins i (sub :: others) := by
  intro others
  induction others with
  | nil =>
    intro sub i
    simp [subsetSteps]
  | cons following others ih =>
    intro sub i
    have h := ih following (i + 1)
    have e : i + 1 + others.length = i + (following :: others).length := by
      simp only [List.length_cons]; omega
    rw [e] at h
    have e2 : subsetSteps env core cScores cTensorBins i (sub :: following :: others)
        = [Step.requestFast (cBytesPerFastBinOf env sub core.m_bHessian cScores * cTensorBins),
            Step.zeroFast i (cBytesPerFastBinOf env sub core.m_bHessian cScores) cTensorBins,
            Step.kernel i ErrorEbm.Error_None, Step.addToMain i cTensorBins]
          ++ subsetSteps env core cScores cTensorBins (i + 1) (following :: others) := rfl
    rw [e2]
    exact List.mem_append.mpr (Or.inr h)

/-- The steps of a call, path by path: either no step, with success and 0.0 or
with `Error_IllegalParamVal` or `Error_OutOfMemory` and the sentinel; or the
request for the main buffer alone, with `Error_OutOfMemory` and the sentinel;
or that request, the zeroing of the tensor bins and a failed accumulation,
with the sentinel; or the steps of an evaluation that succeeds, listed in
full. In the last three cases the handle is valid, the dimension count is
legal, the index pointer is not null and the shape loop fell through. -/
theorem calc_steps (env : Env) (alloc : Nat → Nat → Bool) (h : Option InteractionShell)
    (w : World) (cd : Int) (fi : Option (Nat → Int)) (flags : Nat) (maxC minS : Int)
    (avg : Option Dbl) (R : Result)
    (hR : CalcInteractionStrength env alloc h w cd fi flags maxC minS avg = R) :
    (addsSteps w R.world []
      ∧ ((R.error = .Error_None ∧ R.avgInteractionStrengthOut = storeOut avg dblZero)
        ∨ ((R.error = .Error_IllegalParamVal ∨ R.error = .Error_OutOfMemory)
          ∧ R.avgInteractionStrengthOut = storeOut avg env.k_illegalGainDouble)))
    ∨ ∃ (shell : InteractionShell) (n : Nat) (fi2 : Nat → Int) (s : Shape) (w1 : World),
        GetInteractionShellFromHandle env h = some shell ∧ cd = (n : Int) ∧ 1 ≤ n
        ∧ n ≤ env.k_cDimensionsMax ∧ fi = some fi2
        ∧ shapeAt env shell.m_pInteractionCore fi2 (storeOut avg env.k_illegalGainDouble) w n
            = some (s, w1)
        ∧ ((R.error = .Error_OutOfMemory
            ∧ R.avgInteractionStrengthOut = storeOut avg env.k_illegalGainDouble
            ∧ addsSteps w R.world
                [Step.requestMain
                  (env.GetBinSize env.sizeofFloatMain env.sizeofUIntMain
                    shell.m_pInteractionCore.m_bHessian
                    (env.GetCountScores shell.m_pInteractionCore.m_cClasses))
                  (s.cTensorBins + max s.cAuxillaryBinsForBuildFastTotals 4)])
          ∨ (R.avgInteractionStrengthOut = storeOut avg env.k_illegalGainDouble
            ∧ ∃ l, failedAccumulation l R.error shell.m_pInteractionCore.m_aSubsetsRest.length
              ∧ addsSteps w R.world
                (Step.requestMain
                    (env.GetBinSize env.sizeofFloatMain env.sizeofUIntMain
                      shell.m_pInteractionCore.m_bHessian
                      (env.GetCountScores shell.m_pInteractionCore.m_cClasses))
                    (s.cTensorBins + max s.cAuxillaryBinsForBuildFastTotals 4)
                  :: Step.zeroMain
                    (env.GetBinSize env.sizeofFloatMain env.sizeofUIntMain
                      shell.m_pInteractionCore.m_bHessian
                      (env.GetCountScores shell.m_pInteractionCore.m_cClasses) * s.cTensorBins)
                  :: l))
          ∨ (R.error = .Error_None
            ∧ addsSteps w R.world
                (Step.requestMain
                    (env.GetBinSize env.sizeofFloatMain env.sizeofUIntMain
                      shell.m_pInteractionCore.m_bHessian
                      (env.GetCountScores shell.m_pInteractionCore.m_cClasses))
                    (s.cTensorBins + max s.cAuxillaryBinsForBuildFastTotals 4)
                  :: Step.zeroMain
                    (env.GetBinSize env.sizeofFloatMain env.sizeofUIntMain
                      shell.m_pInteractionCore.m_bHessian
                      (env.GetCountScores shell.m_pInteractionCore.m_cClasses) * s.cTensorBins)
                  :: (subsetSteps env shell.m_pInteractionCore
                        (env.GetCountScores shell.m_pInteractionCore.m_cClasses) s.cTensorBins 0
                        (shell.m_pInteractionCore.m_subsetFirst
                          :: shell.m_pInteractionCore.m_aSubsetsRest)
                      ++ Step.zeroAux
                          (env.GetBinSize env.sizeofFloatMain env.sizeofUIntMain
                            shell.m_pInteractionCore.m_bHessian
                            (env.GetCountScores shell.m_pInteractionCore.m_cClasses)
                            * s.cTensorBins)
                          (env.GetBinSize env.sizeofFloatMain env.sizeofUIntMain
                            shell.m_pInteractionCore.m_bHessian
                            (env.GetCountScores shell.m_pInteractionCore.m_cClasses))
                          (max s.cAuxillaryBinsForBuildFastTotals 4)
                        :: Step.totals n s.acBins
                        :: (if 2 = n then [Step.search n s.acBins] else []))))) := by
  rcases calc_paths env alloc h w cd fi flags maxC minS avg R hR with
    ⟨hreads, hcase⟩ | ⟨shell, n, fi2, s, w1, hv, hcd, h1, h2, hfi, hat, hreads, _, hE⟩
  · exact Or.inl ⟨addsSteps_of_onlyReads hreads, hcase⟩
  · have h0 := addsSteps_of_onlyReads hreads
    rcases evaluateTensor_steps env alloc shell shell.m_pInteractionCore fi2 flags
        (cSamplesLeafMinOf env minS) n (storeOut avg env.k_illegalGainDouble) s w1 R hE.symm with
      ⟨_, he, ho, hw⟩ | ⟨_, _, ⟨_, he, ho, hs⟩ | ⟨_, ho, l, hf, hs⟩ | ⟨_, he, hs⟩⟩
    · refine Or.inl ⟨?_, Or.inr ⟨Or.inr he, ho⟩⟩
      rw [hw]; exact h0
    · exact Or.inr ⟨shell, n, fi2, s, w1, hv, hcd, h1, h2, hfi, hat,
        Or.inl ⟨he, ho, addsSteps_eq (addsSteps_trans h0 hs) rfl⟩⟩
    · exact Or.inr ⟨shell, n, fi2, s, w1, hv, hcd, h1, h2, hfi, hat,
        Or.inr (Or.inl ⟨ho, l, hf, addsSteps_eq (addsSteps_trans h0 hs) rfl⟩)⟩
    · exact Or.inr ⟨shell, n, fi2, s, w1, hv, hcd, h1, h2, hfi, hat,
        Or.inr (Or.inr ⟨he, addsSteps_eq (addsSteps_trans h0 hs) rfl⟩)⟩

/-! ## The claims on sizing, on the order of the steps and on the codes -/

/-- For a valid handle, a model that is not degenerate and a tuple of 1 to
`k_cDimensionsMax` in-range features with at least 2 bins each whose exact
product fits in `size_t` and is not above the effective ceiling, the shape loop
falls through after reads only and the call is what lines 271-505 do with the
locals it hands on. -/
theorem calc_validated (env : Env) (alloc : Nat → Nat → Bool)
    (h : Option InteractionShell) (shell : InteractionShell) (w : World) (n : Nat)
    (fi : Nat → Int) (flags : Nat) (maxC minS : Int) (avg : Option Dbl)
    (hvalid : GetInteractionShellFromHandle env h = some shell)
    (h1 : 1 ≤ n) (h2 : n ≤ env.k_cDimensionsMax)
    (hc0 : shell.m_pInteractionCore.m_cClasses ≠ 0) (hc1 : shell.m_pInteractionCore.m_cClasses ≠ 1)
    (hs : shell.m_pInteractionCore.m_cSamples ≠ 0)
    (hr : ∀ i, i < n → inRangeAt shell.m_pInteractionCore fi i ∧ 2 ≤ binsAt shell.m_pInteractionCore fi i)
    (hfit : binsProduct shell.m_pInteractionCore fi 0 n ≤ SIZE_MAX env)
    (hceil : binsProduct shell.m_pInteractionCore fi 0 n ≤ cCardinalityMaxOf env maxC) :
    ∃ s w1, shapeAt env shell.m_pInteractionCore fi (storeOut avg env.k_illegalGainDouble) w n
          = some (s, w1)
      ∧ onlyReads w w1
      ∧ CalcInteractionStrength env alloc h w (n : Int) (some fi) flags maxC minS avg
        = evaluateTensor env alloc shell shell.m_pInteractionCore fi flags
            (cSamplesLeafMinOf env minS) n (storeOut avg env.k_illegalGainDouble) s w1 := by
  obtain ⟨k, rfl⟩ : ∃ k, n = k + 1 := ⟨n - 1, by omega⟩
  obtain ⟨s2, w2, hso, hc, hw⟩ := shapeLoop_exact env shell.m_pInteractionCore fi
    (storeOut avg env.k_illegalGainDouble) k 0 shapeInit w
    (fun j _ b => hr j (by omega)) (by simpa [shapeInit] using hfit)
  have hc2 : s2.cTensorBins = binsProduct shell.m_pInteractionCore fi 0 (k + 1) := by
    rw [hc]; simp [shapeInit]
  refine ⟨s2, w2, by rw [shapeAt_step, hso], hw, ?_⟩
  rw [calc_run _ _ _ _ _ _ _ _ _ _ _ hvalid h1 h2 hc0 hc1 hs]
  have e : k + 1 - 1 = k := rfl
  rw [e]
  change afterShapeLoop env alloc shell shell.m_pInteractionCore fi flags
    (cCardinalityMaxOf env maxC) (cSamplesLeafMinOf env minS) (k + 1)
    (storeOut avg env.k_illegalGainDouble)
    (shapeLoop env shell.m_pInteractionCore fi (storeOut avg env.k_illegalGainDouble) k 0
      shapeInit w) = _
  rw [hso]
  have hn : ¬ cCardinalityMaxOf env maxC < s2.cTensorBins := by rw [hc2]; omega
  simp only [afterShapeLoop, if_neg hn]

/-- C23: take a valid handle, a model that is not degenerate and a validated tuple:
1 to `k_cDimensionsMax` in-range features with at least 2 bins each, whose joint
cardinality `cTensorBins` (the exact product) fits in `size_t` and is not above
the effective ceiling. Let `cAux` be the exact sum of the prefix products and
`cBytesPerMainBin` the size of a main bin. If `cTensorBins + max(cAux, 4)` or
its product with `cBytesPerMainBin` does not fit in `size_t`, the call returns
`Error_OutOfMemory` after reads only. Otherwise its first step is the request to
the shell for exactly `cTensorBins + max(cAux, 4)` main bins of
`cBytesPerMainBin` bytes, and it makes no other request for main bins; if the
shell returns null, the call returns `Error_OutOfMemory` and that request is
its only step; if the shell returns a buffer, the next step zeroes exactly
`cBytesPerMainBin * cTensorBins` bytes, the first `cTensorBins` bins, every
step of the accumulation comes after it, and nothing else zeroes main bins. -/
theorem C23_main_buffer_sizing (env : Env) (alloc : Nat → Nat → Bool)
    (h : Option InteractionShell) (shell : InteractionShell) (w : World) (n : Nat)
    (fi : Nat → Int) (flags : Nat) (maxC minS : Int) (avg : Option Dbl)
    (cTensorBins cAux cBytesPerMainBin : Nat) (R : Result)
    (hvalid : GetInteractionShellFromHandle env h = some shell)
    (h1 : 1 ≤ n) (h2 : n ≤ env.k_cDimensionsMax)
    (hc0 : shell.m_pInteractionCore.m_cClasses ≠ 0) (hc1 : shell.m_pInteractionCore.m_cClasses ≠ 1)
    (hs : shell.m_pInteractionCore.m_cSamples ≠ 0)
    (hr : ∀ i, i < n → inRangeAt shell.m_pInteractionCore fi i ∧ 2 ≤ binsAt shell.m_pInteractionCore fi i)
    (hT : cTensorBins = binsProduct shell.m_pInteractionCore fi 0 n)
    (hA : cAux = auxSum shell.m_pInteractionCore fi 0 n)
    (hB : cBytesPerMainBin = env.GetBinSize env.sizeofFloatMain env.sizeofUIntMain
      shell.m_pInteractionCore.m_bHessian (env.GetCountScores shell.m_pInteractionCore.m_cClasses))
    (hfit : cTensorBins ≤ SIZE_MAX env)
    (hceil : cTensorBins ≤ cCardinalityMaxOf env maxC)
    (hR : CalcInteractionStrength env alloc h w (n : Int) (some fi) flags maxC minS avg = R) :
    ∃ w1, onlyReads w w1
      ∧ ((SIZE_MAX env < cTensorBins + max cAux 4
            ∨ SIZE_MAX env < cBytesPerMainBin * (cTensorBins + max cAux 4)) →
          R.error = .Error_OutOfMemory ∧ R.world = w1)
      ∧ (cTensorBins + max cAux 4 ≤ SIZE_MAX env →
          cBytesPerMainBin * (cTensorBins + max cAux 4) ≤ SIZE_MAX env →
          (∃ rest, stepsOf (addedEvents w R)
                = Step.requestMain cBytesPerMainBin (cTensorBins + max cAux 4) :: rest
              ∧ ∀ a b, Step.requestMain a b ∉ rest)
          ∧ ((GetInteractionMainBins env alloc shell w1 cBytesPerMainBin
                  (cTensorBins + max cAux 4)).1 = none →
              R.error = .Error_OutOfMemory
              ∧ stepsOf (addedEvents w R)
                = [Step.requestMain cBytesPerMainBin (cTensorBins + max cAux 4)])
          ∧ ((GetInteractionMainBins env alloc shell w1 cBytesPerMainBin
                  (cTensorBins + max cAux 4)).1 ≠ none →
              ∃ rest, stepsOf (addedEvents w R)
                  = Step.requestMain cBytesPerMainBin (cTensorBins + max cAux 4)
                    :: Step.zeroMain (cBytesPerMainBin * cTensorBins) :: rest
                ∧ ∀ st, st ∈ rest → ∀ c, st ≠ Step.zeroMain c)) := by
  rw [hT] at hfit hceil
  obtain ⟨s, w1, hat, hreads, hE⟩ := calc_validated env alloc h shell w n fi flags maxC minS avg
    hvalid h1 h2 hc0 hc1 hs hr hfit hceil
  obtain ⟨_, _, hcT, hcA, _, _, _⟩ := shapeAt_inv env shell.m_pInteractionCore fi
    (storeOut avg env.k_illegalGainDouble) w n s w1 hat
  rw [hE] at hR
  have hsteps := evaluateTensor_steps env alloc shell shell.m_pInteractionCore fi flags
    (cSamplesLeafMinOf env minS) n (storeOut avg env.k_illegalGainDouble) s w1 R hR
  rw [hcT, hcA, ← hT, ← hA, ← hB] at hsteps
  have h0 := addsSteps_of_onlyReads hreads
  have hnot : ∀ st : Step, st.isSubsetStep = true →
      (∀ a b, st ≠ Step.requestMain a b) ∧ (∀ c, st ≠ Step.zeroMain c) := by
    intro st hst
    constructor
    · intro a b e; subst e; exact Bool.noConfusion hst
    · intro c e; subst e; exact Bool.noConfusion hst
  refine ⟨w1, hreads, ?_, ?_⟩
  · intro hover
    rcases hsteps with ⟨_, he, _, hw⟩ | ⟨hM, hB2, _⟩
    · exact ⟨he, hw⟩
    · omega
  · intro hM hB2
    rcases hsteps with ⟨hover, _⟩ | ⟨_, _, ⟨hg, he, _, hs1⟩ | ⟨hg, _, l, hf, hs1⟩ | ⟨hg, _, hs1⟩⟩
    · omega
    · have hall := addsSteps_added (addsSteps_eq (addsSteps_trans h0 hs1) rfl)
      refine ⟨⟨[], hall, fun a b hm => by simp at hm⟩, fun _ => ⟨he, hall⟩,
        fun hne => absurd hg hne⟩
    · have hall := addsSteps_added (addsSteps_eq (addsSteps_trans h0 hs1) rfl)
      obtain ⟨_, hsub, _, _, _⟩ := hf
      refine ⟨⟨_, hall, ?_⟩, fun hnone => absurd hnone hg, fun _ => ⟨l, hall, ?_⟩⟩
      · intro a b hm
        rcases List.mem_cons.mp hm with e | hm2
        · exact Step.noConfusion e
        · exact (hnot _ (hsub _ hm2)).1 a b rfl
      · intro st hst c
        exact (hnot st (hsub st hst)).2 c
    · have hall := addsSteps_added (addsSteps_eq (addsSteps_trans h0 hs1) rfl)
      have hrest : ∀ st, st ∈ subsetSteps env shell.m_pInteractionCore
            (env.GetCountScores shell.m_pInteractionCore.m_cClasses) cTensorBins 0
            (shell.m_pInteractionCore.m_subsetFirst :: shell.m_pInteractionCore.m_aSubsetsRest)
          ++ Step.zeroAux (cBytesPerMainBin * cTensorBins) cBytesPerMainBin (max cAux 4)
            :: Step.totals n s.acBins
            :: (if 2 = n then [Step.search n s.acBins] else []) →
          (∀ a b, st ≠ Step.requestMain a b) ∧ (∀ c, st ≠ Step.zeroMain c) := by
        intro st hst
        rcases List.mem_append.mp hst with hm | hm
        · exact hnot st (subsetSteps_mem _ _ _ _ _ _ _ hm).1
        · rcases List.mem_cons.mp hm with e | hm2
          · subst e
            exact ⟨fun a b e2 => Step.noConfusion e2, fun c e2 => Step.noConfusion e2⟩
          · rcases List.mem_cons.mp hm2 with e | hm3
            · subst e
              exact ⟨fun a b e2 => Step.noConfusion e2, fun c e2 => Step.noConfusion e2⟩
            · by_cases hd : 2 = n
              · rw [if_pos hd] at hm3
                have e := List.mem_singleton.mp hm3
                subst e
                exact ⟨fun a b e2 => Step.noConfusion e2, fun c e2 => Step.noConfusion e2⟩
              · rw [if_neg hd] at hm3
                exact absurd hm3 (List.not_mem_nil _)
      refine ⟨⟨_, hall, ?_⟩, fun hnone => absurd hnone hg, fun _ => ⟨_, hall, ?_⟩⟩
      · intro a b hm
        rcases List.mem_cons.mp hm with e | hm2
        · exact Step.noConfusion e
        · exact (hrest _ hm2).1 a b rfl
      · intro st hst c
        exact (hrest st hst).2 c

/-- C24: take a call with a valid handle on which the searcher was called, or on
which the accumulation was completed (the last subset was added into the main
buffer). Then the dimension count is legal, the tuple is made of in-range
features with at least 2 bins, the code is `Error_None`, and the steps of the
call are, in this order and with nothing else: the request for the main
buffer; the zeroing of the first `cTensorBins` main bins; for every subset in
turn, the request for its fast buffer, the zeroing of the fast buffer, the
kernel (which returned `Error_None`) and the addition into the main buffer;
the zeroing of the `max(cAux, 4)` auxiliary bins that start at the byte
`cBytesPerMainBin * cTensorBins` of the main buffer, directly after the tensor;
`TensorTotalsBuild`, once; and the searcher when there are 2 dimensions,
nothing when there are not. On a path that reaches the searcher there are 2
dimensions. Here `cTensorBins` is the exact product of the bin counts and `cAux`
the exact sum of the prefix products. -/
theorem C24_steps_in_order (env : Env) (alloc : Nat → Nat → Bool)
    (h : Option InteractionShell) (shell : InteractionShell) (w : World) (cd : Int)
    (fi : Option (Nat → Int)) (flags : Nat) (maxC minS : Int) (avg : Option Dbl) (R : Result)
    (hvalid : GetInteractionShellFromHandle env h = some shell)
    (hR : CalcInteractionStrength env alloc h w cd fi flags maxC minS avg = R)
    (hpath : (∃ e, e ∈ addedEvents w R ∧ e.isPartition = true)
      ∨ ∃ c, Step.addToMain shell.m_pInteractionCore.m_aSubsetsRest.length c
          ∈ stepsOf (addedEvents w R)) :
    ∃ (n : Nat) (fi2 : Nat → Int), cd = (n : Int) ∧ fi = some fi2 ∧ 1 ≤ n
      ∧ (∀ i, i < n → inRangeAt shell.m_pInteractionCore fi2 i
          ∧ 2 ≤ binsAt shell.m_pInteractionCore fi2 i)
      ∧ R.error = .Error_None
      ∧ stepsOf (addedEvents w R)
        = Step.requestMain
              (env.GetBinSize env.sizeofFloatMain env.sizeofUIntMain
                shell.m_pInteractionCore.m_bHessian
                (env.GetCountScores shell.m_pInteractionCore.m_cClasses))
              (binsProduct shell.m_pInteractionCore fi2 0 n
                + max (auxSum shell.m_pInteractionCore fi2 0 n) 4)
          :: Step.zeroMain
              (env.GetBinSize env.sizeofFloatMain env.sizeofUIntMain
                shell.m_pInteractionCore.m_bHessian
                (env.GetCountScores shell.m_pInteractionCore.m_cClasses)
                * binsProduct shell.m_pInteractionCore fi2 0 n)
          :: (subsetSteps env shell.m_pInteractionCore
                (env.GetCountScores shell.m_pInteractionCore.m_cClasses)
                (binsProduct shell.m_pInteractionCore fi2 0 n) 0
                (shell.m_pInteractionCore.m_subsetFirst :: shell.m_pInteractionCore.m_aSubsetsRest)
              ++ Step.zeroAux
                  (env.GetBinSize env.sizeofFloatMain env.sizeofUIntMain
                    shell.m_pInteractionCore.m_bHessian
                    (env.GetCountScores shell.m_pInteractionCore.m_cClasses)
                    * binsProduct shell.m_pInteractionCore fi2 0 n)
                  (env.GetBinSize env.sizeofFloatMain env.sizeofUIntMain
                    shell.m_pInteractionCore.m_bHessian
                    (env.GetCountScores shell.m_pInteractionCore.m_cClasses))
                  (max (auxSum shell.m_pInteractionCore fi2 0 n) 4)
                :: Step.totals n (binsFrom shell.m_pInteractionCore fi2 0 n)
                :: (if 2 = n then [Step.search n (binsFrom shell.m_pInteractionCore fi2 0 n)]
                    else []))
      ∧ (∀ st, st ∈ subsetSteps env shell.m_pInteractionCore
            (env.GetCountScores shell.m_pInteractionCore.m_cClasses)
            (binsProduct shell.m_pInteractionCore fi2 0 n) 0
            (shell.m_pInteractionCore.m_subsetFirst :: shell.m_pInteractionCore.m_aSubsetsRest) →
          st.isSubsetStep = true)
      ∧ ((∃ e, e ∈ addedEvents w R ∧ e.isPartition = true) → n = 2) := by
  have hsearch : ∀ L : List Step, stepsOf (addedEvents w R) = L →
      (∃ e, e ∈ addedEvents w R ∧ e.isPartition = true) → ∃ d a, Step.search d a ∈ L := by
    intro L hL ⟨e, he, hp⟩
    obtain ⟨d, a, hst⟩ := (step_search_iff e).mp hp
    exact ⟨d, a, by rw [← hL]; exact (mem_stepsOf _ _).mpr ⟨e, he, hst⟩⟩
  rcases calc_steps env alloc h w cd fi flags maxC minS avg R hR with
    ⟨hs, _⟩ | ⟨shell2, n, fi2, s, w1, hv, hcd, h1, _, hfi, hat,
      ⟨_, _, hs⟩ | ⟨_, l, hf, hs⟩ | ⟨he, hs⟩⟩
  · have hL := addsSteps_added hs
    rcases hpath with hp | ⟨c, hp⟩
    · obtain ⟨d, a, hm⟩ := hsearch _ hL hp
      simp at hm
    · rw [hL] at hp
      simp at hp
  · have hL := addsSteps_added hs
    rcases hpath with hp | ⟨c, hp⟩
    · obtain ⟨d, a, hm⟩ := hsearch _ hL hp
      simp at hm
    · rw [hL] at hp
      simp at hp
  · have hL := addsSteps_added hs
    have e2 : shell2 = shell := by
      rw [hvalid] at hv
      exact (Option.some.inj hv).symm
    subst e2
    obtain ⟨_, hsub, hadd, _, _⟩ := hf
    rcases hpath with hp | ⟨c, hp⟩
    · obtain ⟨d, a, hm⟩ := hsearch _ hL hp
      simp at hm
      exact Bool.noConfusion (hsub _ hm)
    · rw [hL] at hp
      simp at hp
      exact absurd (hadd _ c hp) (Nat.lt_irrefl _)
  · have hL := addsSteps_added hs
    have e2 : shell2 = shell := by
      rw [hvalid] at hv
      exact (Option.some.inj hv).symm
    subst e2
    obtain ⟨_, hr, hcT, hcA, _, hbins, _⟩ := shapeAt_inv env shell2.m_pInteractionCore fi2
      (storeOut avg env.k_illegalGainDouble) w n s w1 hat
    rw [hcT, hcA, hbins] at hL
    refine ⟨n, fi2, hcd, hfi, h1, hr, he, hL, ?_, ?_⟩
    · intro st hst
      exact (subsetSteps_mem _ _ _ _ _ _ _ hst).1
    · intro hp
      obtain ⟨d, a, hm⟩ := hsearch _ hL hp
      by_cases hd : 2 = n
      · exact hd.symm
      · rw [if_neg hd] at hm
        simp at hm
        exact Bool.noConfusion (subsetSteps_mem _ _ _ _ _ _ _ hm).1

/-- C27: for every call with a non-null output location, if the returned code is
not `Error_None` the output location holds the sentinel `k_illegalGainDouble`;
so a content other than the sentinel (0.0 or a computed gain) is there only
when the code is `Error_None`. The code is `Error_None`,
`Error_IllegalParamVal`, `Error_OutOfMemory` or the code that a kernel
`BinSumsInteraction` of a subset returned in this call, and a code other than
`Error_None` that a kernel returned in this call is the code of the call. -/
theorem C27_sentinel_on_every_error (env : Env) (alloc : Nat → Nat → Bool)
    (h : Option InteractionShell) (w : World) (cd : Int) (fi : Option (Nat → Int)) (flags : Nat)
    (maxC minS : Int) (v0 : Dbl) :
    ((CalcInteractionStrength env alloc h w cd fi flags maxC minS (some v0)).error
          ≠ .Error_None →
        (CalcInteractionStrength env alloc h w cd fi flags maxC minS (some v0)).avgInteractionStrengthOut
          = some env.k_illegalGainDouble)
    ∧ ((CalcInteractionStrength env alloc h w cd fi flags maxC minS (some v0)).avgInteractionStrengthOut
          ≠ some env.k_illegalGainDouble →
        (CalcInteractionStrength env alloc h w cd fi flags maxC minS (some v0)).error
          = .Error_None)
    ∧ ((CalcInteractionStrength env alloc h w cd fi flags maxC minS (some v0)).error
          = .Error_None
        ∨ (CalcInteractionStrength env alloc h w cd fi flags maxC minS (some v0)).error
          = .Error_IllegalParamVal
        ∨ (CalcInteractionStrength env alloc h w cd fi flags maxC minS (some v0)).error
          = .Error_OutOfMemory
        ∨ ∃ iSubset bridge,
            Event.binSums iSubset bridge
                (CalcInteractionStrength env alloc h w cd fi flags maxC minS (some v0)).error
              ∈ addedEvents w (CalcInteractionStrength env alloc h w cd fi flags maxC minS (some v0)))
    ∧ (∀ iSubset bridge e,
        Event.binSums iSubset bridge e
            ∈ addedEvents w (CalcInteractionStrength env alloc h w cd fi flags maxC minS (some v0)) →
        e ≠ .Error_None →
        (CalcInteractionStrength env alloc h w cd fi flags maxC minS (some v0)).error = e) := by
  generalize hR : CalcInteractionStrength env alloc h w cd fi flags maxC minS (some v0) = R
  have hkernel : ∀ (L : List Step), addsSteps w R.world L → ∀ iSubset bridge e,
      Event.binSums iSubset bridge e ∈ addedEvents w R → Step.kernel iSubset e ∈ L := by
    intro L hL iSubset bridge e hmem
    rw [← addsSteps_added hL]
    exact (mem_stepsOf _ _).mpr ⟨_, hmem, rfl⟩
  have hsent : R.avgInteractionStrengthOut = storeOut (some v0) env.k_illegalGainDouble →
      R.avgInteractionStrengthOut = some env.k_illegalGainDouble := fun e => e
  have hmain : (R.error ≠ .Error_None → R.avgInteractionStrengthOut = some env.k_illegalGainDouble)
      ∧ (R.error = .Error_None ∨ R.error = .Error_IllegalParamVal ∨ R.error = .Error_OutOfMemory
        ∨ ∃ iSubset bridge, Event.binSums iSubset bridge R.error ∈ addedEvents w R)
      ∧ (∀ iSubset bridge e, Event.binSums iSubset bridge e ∈ addedEvents w R →
          e ≠ .Error_None → R.error = e) := by
    rcases calc_steps env alloc h w cd fi flags maxC minS (some v0) R hR with
      ⟨hs, hcase⟩ | ⟨shell, n, fi2, s, w1, _, _, _, _, _, _,
        ⟨he, ho, hs⟩ | ⟨ho, l, hf, hs⟩ | ⟨he, hs⟩⟩
    · refine ⟨?_, ?_, ?_⟩
      · intro hne
        rcases hcase with ⟨he, _⟩ | ⟨_, ho⟩
        · exact absurd he hne
        · exact hsent ho
      · rcases hcase with ⟨he, _⟩ | ⟨he | he, _⟩
        · exact Or.inl he
        · exact Or.inr (Or.inl he)
        · exact Or.inr (Or.inr (Or.inl he))
      · intro iSubset bridge e hmem _
        have := hkernel _ hs iSubset bridge e hmem
        simp at this
    · refine ⟨fun _ => hsent ho, Or.inr (Or.inr (Or.inl he)), ?_⟩
      intro iSubset bridge e hmem _
      have := hkernel _ hs iSubset bridge e hmem
      simp at this
    · obtain ⟨hne, _, _, hk, hcode⟩ := hf
      refine ⟨fun _ => hsent ho, ?_, ?_⟩
      · rcases hcode with hc | ⟨k, hk2⟩
        · exact Or.inr (Or.inr (Or.inl hc))
        · have hin : Step.kernel k R.error ∈ stepsOf (addedEvents w R) := by
            rw [addsSteps_added hs]
            exact List.mem_cons_of_mem _ (List.mem_cons_of_mem _ hk2)
          obtain ⟨ev, hev, hst⟩ := (mem_stepsOf _ _).mp hin
          obtain ⟨bridge, hb⟩ := step_kernel_inv ev k R.error hst
          subst hb
          exact Or.inr (Or.inr (Or.inr ⟨k, bridge, hev⟩))
      · intro iSubset bridge e hmem hen
        have := hkernel _ hs iSubset bridge e hmem
        simp at this
        rcases hk iSubset e this with h0 | h0
        · exact absurd h0 hen
        · exact h0.symm
    · refine ⟨fun hne => absurd he hne, Or.inl he, ?_⟩
      intro iSubset bridge e hmem hen
      have := hkernel _ hs iSubset bridge e hmem
      simp at this
      exact absurd ((subsetSteps_mem _ _ _ _ _ _ _ this).2 iSubset e rfl) hen
  obtain ⟨m1, m2, m3⟩ := hmain
  refine ⟨m1, ?_, m2, m3⟩
  intro hne
  by_contra hc
  exact hne (m1 hc)

/-! ## The claims on sizing and order at concrete inputs -/

/-- The tuple (0, 1) over the concrete detector: the joint cardinality is 12, the
auxiliary need 1 + 3, a main bin has 64 bytes; the 16 bins and the 1024 bytes
fit in `size_t`, and the first step of the call is the request for 16 main
bins of 64 bytes. The steps of the call are listed. -/
theorem C23_main_buffer_sizing_witness :
    (12 + max 4 4 ≤ SIZE_MAX demoEnv ∧ 64 * (12 + max 4 4) ≤ SIZE_MAX demoEnv)
    ∧ (∃ rest, stepsOf (addedEvents demoWorld
            (CalcInteractionStrength demoEnv demoAlloc (some demoShell) demoWorld 2 (some (indexArray [0, 1])) 0 0 0 (some dblOne)))
          = Step.requestMain 64 (12 + max 4 4) :: rest
        ∧ ∀ a b, Step.requestMain a b ∉ rest)
    ∧ stepsOf (addedEvents demoWorld
          (CalcInteractionStrength demoEnv demoAlloc (some demoShell) demoWorld 2 (some (indexArray [0, 1])) 0 0 0 (some dblOne)))
        = [Step.requestMain 64 16, Step.zeroMain 768, Step.requestFast 768, Step.zeroFast 0 64 12,
            Step.kernel 0 ErrorEbm.Error_None, Step.addToMain 0 12, Step.zeroAux 768 64 4,
            Step.totals 2 [3, 4], Step.search 2 [3, 4]] :=
  ⟨⟨by decide, by decide⟩,
   (C23_main_buffer_sizing demoEnv demoAlloc (some demoShell) demoShell demoWorld 2
      (indexArray [0, 1]) 0 0 0 (some dblOne) 12 4 64
      (CalcInteractionStrength demoEnv demoAlloc (some demoShell) demoWorld 2 (some (indexArray [0, 1])) 0 0 0 (some dblOne))
      rfl (by decide) (by decide) (by decide) (by decide) (by decide) (by decide) (by decide)
      (by decide) (by decide) (by decide) (by decide) rfl).elim
      (fun _ hw => (hw.2.2 (by decide) (by decide)).1),
   by decide⟩

/-- The tuple (0, 1, 0) over the concrete detector, which has one subset: the
subset was added into the main buffer, so the call returned `Error_None`; its
steps are listed, with the totals build and without a search. -/
theorem C24_steps_in_order_witness :
    Step.addToMain demoShell.m_pInteractionCore.m_aSubsetsRest.length 36
        ∈ stepsOf (addedEvents demoWorld
            (CalcInteractionStrength demoEnv demoAlloc (some demoShell) demoWorld 3 (some (indexArray [0, 1, 0])) 0 0 0 (some dblOne)))
    ∧ (CalcInteractionStrength demoEnv demoAlloc (some demoShell) demoWorld 3 (some (indexArray [0, 1, 0])) 0 0 0 (some dblOne)).error
        = ErrorEbm.Error_None
    ∧ stepsOf (addedEvents demoWorld
          (CalcInteractionStrength demoEnv demoAlloc (some demoShell) demoWorld 3 (some (indexArray [0, 1, 0])) 0 0 0 (some dblOne)))
        = [Step.requestMain 64 52, Step.zeroMain 2304, Step.requestFast 2304,
            Step.zeroFast 0 64 36, Step.kernel 0 ErrorEbm.Error_None, Step.addToMain 0 36,
            Step.zeroAux 2304 64 16, Step.totals 3 [3, 4, 3]] :=
  ⟨by decide,
   (C24_steps_in_order demoEnv demoAlloc (some demoShell) demoShell demoWorld 3
      (some (indexArray [0, 1, 0])) 0 0 0 (some dblOne)
      (CalcInteractionStrength demoEnv demoAlloc (some demoShell) demoWorld 3 (some (indexArray [0, 1, 0])) 0 0 0 (some dblOne))
      rfl rfl (Or.inr ⟨36, by decide⟩)).elim
      (fun _ hn => hn.elim (fun _ hf => hf.2.2.2.2.1)),
   by decide⟩

/-! ## Calls on which every request and every kernel succeeds -/

/-- With an allocator that never fails, a shell whose fast pointer is null only at
capacity 0, and a request of at least 1 byte whose double fits in `size_t`, the
fast getter returns a buffer and stores it. -/
theorem GetInteractionFastBinsTemp_succeeds (env : Env) (alloc : Nat → Nat → Bool)
    (shell : InteractionShell) (w : World) (cBytes : Nat)
    (halloc : ∀ k x, alloc k x = true)
    (hptr : shell.m_aInteractionFastBinsTemp = none → shell.m_cBytesFastBins = 0)
    (hpos : 0 < cBytes) (hfit : 2 * cBytes ≤ SIZE_MAX env) :
    ∃ b, (GetInteractionFastBinsTemp env alloc shell w cBytes).1 = some b
      ∧ (GetInteractionFastBinsTemp env alloc shell w cBytes).2.1.m_aInteractionFastBinsTemp
        = some b := by
  by_cases hgrow : shell.m_cBytesFastBins < cBytes
  · rw [GetInteractionFastBinsTemp_grow env alloc shell w cBytes hgrow hfit,
      if_pos (halloc _ _)]
    exact ⟨_, rfl, rfl⟩
  · rw [GetInteractionFastBinsTemp_reuse env alloc shell w cBytes (by omega)]
    cases hp : shell.m_aInteractionFastBinsTemp with
    | none =>
      have := hptr hp
      omega
    | some b => exact ⟨b, rfl, rfl⟩

/-- With an allocator that never fails, a shell whose main pointer is null only at
capacity 0, and a request of at least 1 bin whose grown size fits in `size_t`,
the main getter returns a buffer and leaves the fast buffer as it was. -/
theorem GetInteractionMainBins_succeeds (env : Env) (alloc : Nat → Nat → Bool)
    (shell : InteractionShell) (w : World) (cBytesPerMainBin cMainBins : Nat)
    (halloc : ∀ k x, alloc k x = true)
    (hptr : shell.m_aInteractionMainBins = none → shell.m_cAllocatedMainBins = 0)
    (hpos : 0 < cMainBins)
    (hfit : cMainBins + (cMainBins / 4 + 16) ≤ SIZE_MAX env)
    (hfitB : cBytesPerMainBin * (cMainBins + (cMainBins / 4 + 16)) ≤ SIZE_MAX env) :
    ∃ b, (GetInteractionMainBins env alloc shell w cBytesPerMainBin cMainBins).1 = some b := by
  by_cases hgrow : shell.m_cAllocatedMainBins < cMainBins
  · rw [GetInteractionMainBins_grow env alloc shell w cBytesPerMainBin cMainBins hgrow,
      if_neg (by omega), if_neg (by omega), if_pos (halloc _ _)]
    exact ⟨_, rfl⟩
  · rw [GetInteractionMainBins_reuse env alloc shell w cBytesPerMainBin cMainBins (by omega)]
    cases hp : shell.m_aInteractionMainBins with
    | none =>
      have := hptr hp
      omega
    | some b => exact ⟨b, rfl⟩

/-- A pass of the subset loop falls through when the fast buffer can be had and
the kernel of the subset returns `Error_None`. -/
theorem subsetBody_succeeds (env : Env) (alloc : Nat → Nat → Bool) (core : InteractionCore)
    (fi : Nat → Int) (cDimensions cScores : Nat) (s : Shape) (iSubset : Nat)
    (subset : DataSubsetInteraction) (shell : InteractionShell) (w : World)
    (halloc : ∀ k x, alloc k x = true)
    (hptr : shell.m_aInteractionFastBinsTemp = none → shell.m_cBytesFastBins = 0)
    (hpos : 0 < cBytesPerFastBinOf env subset core.m_bHessian cScores * s.cTensorBins)
    (hfit : 2 * (cBytesPerFastBinOf env subset core.m_bHessian cScores * s.cTensorBins)
      ≤ SIZE_MAX env)
    (hk : ∀ bridge, subset.BinSumsInteraction bridge = ErrorEbm.Error_None) :
    ∃ sh w2, subsetBody env alloc core fi cDimensions cScores s iSubset subset shell w
        = .next sh w2
      ∧ (sh.m_aInteractionFastBinsTemp = none → sh.m_cBytesFastBins = 0) := by
  unfold subsetBody
  simp only
  generalize cBytesPerFastBinOf env subset core.m_bHessian cScores = cF at hpos hfit
  have hm : ¬ IsMultiplyError env cF s.cTensorBins = true := by
    unfold IsMultiplyError
    intro h
    have := of_decide_eq_true h
    omega
  rw [if_neg hm, mod_of_le_SIZE_MAX env (by omega : cF * s.cTensorBins ≤ SIZE_MAX env)]
  obtain ⟨b, hb, hst⟩ := GetInteractionFastBinsTemp_succeeds env alloc shell w
    (cF * s.cTensorBins) halloc hptr hpos hfit
  generalize GetInteractionFastBinsTemp env alloc shell w (cF * s.cTensorBins) = r at hb hst ⊢
  obtain ⟨o, shell2, w2⟩ := r
  simp only at hb hst
  subst hb
  simp only
  generalize packLoop env core subset fi (cDimensions - 1) 0 []
    (w2.emit (Event.zeroFast iSubset cF s.cTensorBins)) = p
  obtain ⟨ac, w3⟩ := p
  simp only
  have he : ¬ ErrorEbm.Error_None ≠ subset.BinSumsInteraction
      { m_cRuntimeRealDimensions := cDimensions, m_bHessian := core.m_bHessian,
        m_cScores := cScores, m_cSamples := subset.m_cSamples, m_acBins := s.acBins,
        m_acItemsPerBitPack := ac, m_aFastBins := b } := by
    rw [hk]
    exact fun hne => hne rfl
  rw [if_neg he]
  refine ⟨_, _, rfl, ?_⟩
  intro hnone
  rw [hst] at hnone
  exact Option.noConfusion hnone

/-- The subset loop falls through when, for every subset, the fast buffer can be
had and the kernel returns `Error_None`. -/
theorem subsetLoop_succeeds (env : Env) (alloc : Nat → Nat → Bool) (core : InteractionCore)
    (fi : Nat → Int) (cDimensions cScores : Nat) (s : Shape)
    (halloc : ∀ k x, alloc k x = true) :
    ∀ (others : List DataSubsetInteraction) (iSubset : Nat) (subset : DataSubsetInteraction)
      (shell : InteractionShell) (w : World),
      (shell.m_aInteractionFastBinsTemp = none → shell.m_cBytesFastBins = 0) →
      (∀ sub, sub ∈ subset :: others →
        0 < cBytesPerFastBinOf env sub core.m_bHessian cScores * s.cTensorBins
        ∧ 2 * (cBytesPerFastBinOf env sub core.m_bHessian cScores * s.cTensorBins) ≤ SIZE_MAX env
        ∧ ∀ bridge, sub.BinSumsInteraction bridge = ErrorEbm.Error_None) →
      ∃ sh w2, subsetLoop env alloc core fi cDimensions cScores s iSubset subset others shell w
        = .next sh w2 := by
  intro others
  induction others with
  | nil =>
    intro iSubset subset shell w hptr hsubs
    obtain ⟨hpos, hfit, hk⟩ := hsubs subset (List.mem_cons_self _ _)
    obtain ⟨sh, w2, hb, _⟩ := subsetBody_succeeds env alloc core fi cDimensions cScores s iSubset
      subset shell w halloc hptr hpos hfit hk
    exact ⟨sh, w2, by rw [subsetLoop_nil, hb]⟩
  | cons following others ih =>
    intro iSubset subset shell w hptr hsubs
    obtain ⟨hpos, hfit, hk⟩ := hsubs subset (List.mem_cons_self _ _)
    obtain ⟨sh, w2, hb, hptr2⟩ := subsetBody_succeeds env alloc core fi cDimensions cScores s
      iSubset subset shell w halloc hptr hpos hfit hk
    obtain ⟨sh3, w3, hl⟩ := ih (iSubset + 1) following sh w2 hptr2
      (fun sub hsub => hsubs sub (List.mem_cons_of_mem _ hsub))
    exact ⟨sh3, w3, by rw [subsetLoop_cons, hb]; exact hl⟩

/-- Lines 271-505 return `Error_None` and leave the output location as it was when
there are not 2 dimensions, the sizes fit, the allocator never fails, the shell
has no null pointer with a capacity, and every kernel returns `Error_None`. -/
theorem evaluateTensor_succeeds (env : Env) (alloc : Nat → Nat → Bool) (shell : InteractionShell)
    (core : InteractionCore) (fi : Nat → Int) (flags : Nat) (cSamplesLeafMin cDimensions : Nat)
    (out : Option Dbl) (s : Shape) (w : World)
    (hd : 2 ≠ cDimensions)
    (halloc : ∀ k x, alloc k x = true)
    (hmain : shell.m_aInteractionMainBins = none → shell.m_cAllocatedMainBins = 0)
    (hfast : shell.m_aInteractionFastBinsTemp = none → shell.m_cBytesFastBins = 0)
    (hfit : s.cTensorBins + max s.cAuxillaryBinsForBuildFastTotals 4
        + ((s.cTensorBins + max s.cAuxillaryBinsForBuildFastTotals 4) / 4 + 16) ≤ SIZE_MAX env)
    (hfitB : env.GetBinSize env.sizeofFloatMain env.sizeofUIntMain core.m_bHessian
          (env.GetCountScores core.m_cClasses)
        * (s.cTensorBins + max s.cAuxillaryBinsForBuildFastTotals 4
          + ((s.cTensorBins + max s.cAuxillaryBinsForBuildFastTotals 4) / 4 + 16)) ≤ SIZE_MAX env)
    (hsubs : ∀ sub, sub ∈ core.m_subsetFirst :: core.m_aSubsetsRest →
      0 < cBytesPerFastBinOf env sub core.m_bHessian (env.GetCountScores core.m_cClasses)
          * s.cTensorBins
      ∧ 2 * (cBytesPerFastBinOf env sub core.m_bHessian (env.GetCountScores core.m_cClasses)
          * s.cTensorBins) ≤ SIZE_MAX env
      ∧ ∀ bridge, sub.BinSumsInteraction bridge = ErrorEbm.Error_None) :
    (evaluateTensor env alloc shell core fi flags cSamplesLeafMin cDimensions out s w).error
        = .Error_None
      ∧ (evaluateTensor env alloc shell core fi flags cSamplesLeafMin cDimensions out s w).avgInteractionStrengthOut
        = out := by
  unfold evaluateTensor
  simp only [EbmMax_eq_max]
  generalize env.GetBinSize env.sizeofFloatMain env.sizeofUIntMain core.m_bHessian
    (env.GetCountScores core.m_cClasses) = cB at hfitB ⊢
  have h4 : 4 ≤ max s.cAuxillaryBinsForBuildFastTotals 4 := Nat.le_max_right _ _
  generalize max s.cAuxillaryBinsForBuildFastTotals 4 = cA at hfit hfitB h4 ⊢
  have hM : s.cTensorBins + cA ≤ SIZE_MAX env := by omega
  have hB : cB * (s.cTensorBins + cA) ≤ SIZE_MAX env :=
    le_trans (Nat.mul_le_mul_left cB (Nat.le_add_right _ _)) hfitB
  have ha : ¬ IsAddError env s.cTensorBins cA = true := by
    unfold IsAddError
    intro h
    have := of_decide_eq_true h
    omega
  rw [if_neg ha, mod_of_le_SIZE_MAX env hM]
  have hm : ¬ IsMultiplyError env cB (s.cTensorBins + cA) = true := by
    unfold IsMultiplyError
    intro h
    have := of_decide_eq_true h
    omega
  rw [if_neg hm]
  obtain ⟨b, hb⟩ := GetInteractionMainBins_succeeds env alloc shell w cB (s.cTensorBins + cA)
    halloc hmain (by omega) hfit hfitB
  obtain ⟨hf1, hf2, _, _, _⟩ := GetInteractionMainBins_step env alloc shell w cB
    (s.cTensorBins + cA) []
  generalize GetInteractionMainBins env alloc shell w cB (s.cTensorBins + cA) = r
    at hb hf1 hf2 ⊢
  obtain ⟨o, shell2, w2⟩ := r
  simp only at hb hf1 hf2
  subst hb
  simp only
  have hfast2 : shell2.m_aInteractionFastBinsTemp = none → shell2.m_cBytesFastBins = 0 := by
    rw [hf1, hf2]
    exact hfast
  obtain ⟨sh3, w3, hl⟩ := subsetLoop_succeeds env alloc core fi cDimensions
    (env.GetCountScores core.m_cClasses) s halloc core.m_aSubsetsRest 0 core.m_subsetFirst shell2
    (w2.emit (Event.zeroMain ((cB * s.cTensorBins) % 2 ^ env.cBitsSizeT))) hfast2 hsubs
  rw [hl]
  simp only [if_neg hd]
  trivial

/-! ## The claim on the dimension count -/

/-- The totals build is not an event of accumulation. -/
theorem step_totals_inv (e : Event) (d : Nat) (a : List Nat)
    (h : e.step = some (Step.totals d a)) : e.isAccumulation = false := by
  cases e <;> simp [Event.step] at h
  rfl

/-- C11: when `countDimensions` is not 2, so in particular for 1 and for 3 up to
`k_cDimensionsMax`, `PartitionTwoDimensionalInteraction` is not invoked: the
call adds no search event (the searcher is invoked only when
`countDimensions == 2`). And when such a call, on a valid handle, passes
validation, sizing and allocation and all its kernel calls succeed, that is
when the accumulation was completed (the last subset was added into the main
buffer), it returns `Error_None`, the output location holds the sentinel, and
its steps are exactly the request for the main buffer, the zeroing of the
tensor bins, the four steps of every subset, the zeroing of the auxiliary
bins and the totals build, with no search. Such calls are, among others,
those described from the inputs alone: a valid handle, a model that is not
degenerate, 1 to `k_cDimensionsMax` in-range features with at least 2 bins
whose joint cardinality is not above the effective ceiling, a main buffer and
fast buffers whose sizes fit in `size_t` (the sizes after growth, and fast
buffers of at least 1 byte), an allocator that never fails, a shell that has
no null pointer with a capacity, and kernels that return `Error_None`; for
these the call returns `Error_None` and the output location holds the
sentinel. -/
theorem C11_only_pairs_are_searched (env : Env) (alloc : Nat → Nat → Bool)
    (h : Option InteractionShell) (w : World) (cd : Int) (fi : Option (Nat → Int)) (flags : Nat)
    (maxC minS : Int) (avg : Option Dbl) (hcd : cd ≠ 2) :
    (∀ e, e ∈ addedEvents w (CalcInteractionStrength env alloc h w cd fi flags maxC minS avg) →
        e.isPartition = false)
    ∧ (∀ shell, GetInteractionShellFromHandle env h = some shell →
        (∃ c, Step.addToMain shell.m_pInteractionCore.m_aSubsetsRest.length c
          ∈ stepsOf (addedEvents w
              (CalcInteractionStrength env alloc h w cd fi flags maxC minS avg))) →
        (CalcInteractionStrength env alloc h w cd fi flags maxC minS avg).error = .Error_None
        ∧ (CalcInteractionStrength env alloc h w cd fi flags maxC minS avg).avgInteractionStrengthOut
            = storeOut avg env.k_illegalGainDouble
        ∧ ∃ (n : Nat) (fi2 : Nat → Int), cd = (n : Int) ∧ fi = some fi2
          ∧ stepsOf (addedEvents w
              (CalcInteractionStrength env alloc h w cd fi flags maxC minS avg))
            = Step.requestMain
                  (env.GetBinSize env.sizeofFloatMain env.sizeofUIntMain
                    shell.m_pInteractionCore.m_bHessian
                    (env.GetCountScores shell.m_pInteractionCore.m_cClasses))
                  (binsProduct shell.m_pInteractionCore fi2 0 n
                    + max (auxSum shell.m_pInteractionCore fi2 0 n) 4)
              :: Step.zeroMain
                  (env.GetBinSize env.sizeofFloatMain env.sizeofUIntMain
                    shell.m_pInteractionCore.m_bHessian
                    (env.GetCountScores shell.m_pInteractionCore.m_cClasses)
                    * binsProduct shell.m_pInteractionCore fi2 0 n)
              :: (subsetSteps env shell.m_pInteractionCore
                    (env.GetCountScores shell.m_pInteractionCore.m_cClasses)
                    (binsProduct shell.m_pInteractionCore fi2 0 n) 0
                    (shell.m_pInteractionCore.m_subsetFirst
                      :: shell.m_pInteractionCore.m_aSubsetsRest)
                  ++ [Step.zeroAux
                        (env.GetBinSize env.sizeofFloatMain env.sizeofUIntMain
                          shell.m_pInteractionCore.m_bHessian
                          (env.GetCountScores shell.m_pInteractionCore.m_cClasses)
                          * binsProduct shell.m_pInteractionCore fi2 0 n)
                        (env.GetBinSize env.sizeofFloatMain env.sizeofUIntMain
                          shell.m_pInteractionCore.m_bHessian
                          (env.GetCountScores shell.m_pInteractionCore.m_cClasses))
                        (max (auxSum shell.m_pInteractionCore fi2 0 n) 4),
                      Step.totals n (binsFrom shell.m_pInteractionCore fi2 0 n)]))
    ∧ (∀ (shell : InteractionShell) (n : Nat) (fi2 : Nat → Int),
        GetInteractionShellFromHandle env h = some shell → cd = (n : Int) → fi = some fi2 →
        1 ≤ n → n ≤ env.k_cDimensionsMax →
        shell.m_pInteractionCore.m_cClasses ≠ 0 → shell.m_pInteractionCore.m_cClasses ≠ 1 →
        shell.m_pInteractionCore.m_cSamples ≠ 0 →
        (∀ i, i < n → inRangeAt shell.m_pInteractionCore fi2 i
          ∧ 2 ≤ binsAt shell.m_pInteractionCore fi2 i) →
        binsProduct shell.m_pInteractionCore fi2 0 n ≤ cCardinalityMaxOf env maxC →
        binsProduct shell.m_pInteractionCore fi2 0 n
            + max (auxSum shell.m_pInteractionCore fi2 0 n) 4
            + ((binsProduct shell.m_pInteractionCore fi2 0 n
                + max (auxSum shell.m_pInteractionCore fi2 0 n) 4) / 4 + 16) ≤ SIZE_MAX env →
        env.GetBinSize env.sizeofFloatMain env.sizeofUIntMain shell.m_pInteractionCore.m_bHessian
              (env.GetCountScores shell.m_pInteractionCore.m_cClasses)
            * (binsProduct shell.m_pInteractionCore fi2 0 n
              + max (auxSum shell.m_pInteractionCore fi2 0 n) 4
              + ((binsProduct shell.m_pInteractionCore fi2 0 n
                  + max (auxSum shell.m_pInteractionCore fi2 0 n) 4) / 4 + 16)) ≤ SIZE_MAX env →
        (∀ k x, alloc k x = true) →
        (shell.m_aInteractionMainBins = none → shell.m_cAllocatedMainBins = 0) →
        (shell.m_aInteractionFastBinsTemp = none → shell.m_cBytesFastBins = 0) →
        (∀ sub, sub ∈ shell.m_pInteractionCore.m_subsetFirst
              :: shell.m_pInteractionCore.m_aSubsetsRest →
          0 < cBytesPerFastBinOf env sub shell.m_pInteractionCore.m_bHessian
                (env.GetCountScores shell.m_pInteractionCore.m_cClasses)
              * binsProduct shell.m_pInteractionCore fi2 0 n
          ∧ 2 * (cBytesPerFastBinOf env sub shell.m_pInteractionCore.m_bHessian
                (env.GetCountScores shell.m_pInteractionCore.m_cClasses)
              * binsProduct shell.m_pInteractionCore fi2 0 n) ≤ SIZE_MAX env
          ∧ ∀ bridge, sub.BinSumsInteraction bridge = ErrorEbm.Error_None) →
        (CalcInteractionStrength env alloc h w cd fi flags maxC minS avg).error = .Error_None
        ∧ (CalcInteractionStrength env alloc h w cd fi flags maxC minS avg).avgInteractionStrengthOut
            = storeOut avg env.k_illegalGainDouble) := by
  generalize hR : CalcInteractionStrength env alloc h w cd fi flags maxC minS avg = R
  refine ⟨?_, ?_, ?_⟩
  · intro e he
    rcases calc_added env alloc h w cd fi flags maxC minS avg R hR e he with
      hh | ⟨shell, n, fi2, s, _, hn, _, _, hcase⟩
    · cases e <;> simp_all [Event.isPartition, Event.isAccumulation]
    · rcases hcase with ⟨h2, _, _⟩ | ⟨_, _, hq⟩
      · exact absurd (by rw [hn, ← h2]; rfl) hcd
      · exact hq
  · intro shell hvalid ⟨c, hadd⟩
    rcases calc_steps env alloc h w cd fi flags maxC minS avg R hR with
      ⟨hs, _⟩ | ⟨shell2, n, fi2, s, w1, hv, hn, _, _, hfi, hat,
        ⟨_, _, hs⟩ | ⟨_, l, hf, hs⟩ | ⟨he, hs⟩⟩
    · rw [addsSteps_added hs] at hadd
      simp at hadd
    · rw [addsSteps_added hs] at hadd
      simp at hadd
    · have e2 : shell2 = shell := by
        rw [hvalid] at hv
        exact (Option.some.inj hv).symm
      subst e2
      obtain ⟨_, _, hlast, _, _⟩ := hf
      rw [addsSteps_added hs] at hadd
      simp at hadd
      exact absurd (hlast _ c hadd) (Nat.lt_irrefl _)
    · have e2 : shell2 = shell := by
        rw [hvalid] at hv
        exact (Option.some.inj hv).symm
      subst e2
      have hn2 : ¬ 2 = n := by
        intro e
        exact hcd (by rw [hn, ← e]; rfl)
      have hL := addsSteps_added hs
      rw [if_neg hn2] at hL
      obtain ⟨_, _, hcT, hcA, _, hbins, _⟩ := shapeAt_inv env shell2.m_pInteractionCore fi2
        (storeOut avg env.k_illegalGainDouble) w n s w1 hat
      have htot : Step.totals n s.acBins ∈ stepsOf (addedEvents w R) := by
        rw [hL]
        simp
      obtain ⟨ev, hev, hst⟩ := (mem_stepsOf _ _).mp htot
      have hout : R.avgInteractionStrengthOut = storeOut avg env.k_illegalGainDouble := by
        rcases calc_added env alloc h w cd fi flags maxC minS avg R hR ev hev with
          hh | ⟨_, n3, _, _, _, hn3, _, _, hcase⟩
        · rw [step_totals_inv ev _ _ hst] at hh
          exact Bool.noConfusion hh
        · rcases hcase with ⟨h2, _, _⟩ | ⟨_, ho, _⟩
          · exact absurd (by rw [hn3, ← h2]; rfl) hcd
          · exact ho
      rw [hcT, hcA, hbins] at hL
      exact ⟨he, hout, n, fi2, hn, hfi, hL⟩
  · intro shell n fi2 hvalid hn hfi h1 h2 hc0 hc1 hs hr hceil hfit hfitB halloc hmain hfast hsubs
    subst hn; subst hfi
    have hn2 : 2 ≠ n := by
      intro e
      exact hcd (by rw [← e]; rfl)
    obtain ⟨s, w1, hat, _, hE⟩ := calc_validated env alloc h shell w n fi2 flags maxC minS avg
      hvalid h1 h2 hc0 hc1 hs hr (by omega) hceil
    obtain ⟨_, _, hcT, hcA, _, _, _⟩ := shapeAt_inv env shell.m_pInteractionCore fi2
      (storeOut avg env.k_illegalGainDouble) w n s w1 hat
    rw [← hcT, ← hcA] at hfit hfitB
    rw [← hcT] at hsubs
    rw [← hR, hE]
    exact evaluateTensor_succeeds env alloc shell shell.m_pInteractionCore fi2 flags
      (cSamplesLeafMinOf env minS) n (storeOut avg env.k_illegalGainDouble) s w1 hn2 halloc
      hmain hfast hfit hfitB hsubs

/-- The tuples (0, 1, 0, 1) and (0) over the concrete detector, which has one
subset: the subset was added into the main buffer, the call returned success
and left the sentinel. For the tuple (0) the sentinel is had from the inputs
alone: every size fits, the allocator never fails, the shell is empty and the
kernel returns `Error_None`. -/
theorem C11_only_pairs_are_searched_witness :
    ((4 : Int) ≠ 2
      ∧ Step.addToMain demoShell.m_pInteractionCore.m_aSubsetsRest.length 144
          ∈ stepsOf (addedEvents demoWorld
              (CalcInteractionStrength demoEnv demoAlloc (some demoShell) demoWorld 4 (some (indexArray [0, 1, 0, 1])) 0 0 0 (some dblOne))))
    ∧ (CalcInteractionStrength demoEnv demoAlloc (some demoShell) demoWorld 4 (some (indexArray [0, 1, 0, 1])) 0 0 0 (some dblOne)).error
        = ErrorEbm.Error_None
    ∧ (CalcInteractionStrength demoEnv demoAlloc (some demoShell) demoWorld 4 (some (indexArray [0, 1, 0, 1])) 0 0 0 (some dblOne)).avgInteractionStrengthOut
        = some dblLowest
    ∧ ((1 : Int) ≠ 2
      ∧ Step.addToMain demoShell.m_pInteractionCore.m_aSubsetsRest.length 3
          ∈ stepsOf (addedEvents demoWorld
              (CalcInteractionStrength demoEnv demoAlloc (some demoShell) demoWorld 1 (some (indexArray [0])) 0 0 0 (some dblOne))))
    ∧ (CalcInteractionStrength demoEnv demoAlloc (some demoShell) demoWorld 1 (some (indexArray [0])) 0 0 0 (some dblOne)).error
        = ErrorEbm.Error_None
    ∧ (CalcInteractionStrength demoEnv demoAlloc (some demoShell) demoWorld 1 (some (indexArray [0])) 0 0 0 (some dblOne)).avgInteractionStrengthOut
        = some dblLowest :=
  ⟨⟨by decide, by decide⟩,
   ((C11_only_pairs_are_searched demoEnv demoAlloc (some demoShell) demoWorld 4
      (some (indexArray [0, 1, 0, 1])) 0 0 0 (some dblOne) (by decide)).2.1
      demoShell rfl ⟨144, by decide⟩).1,
   ((C11_only_pairs_are_searched demoEnv demoAlloc (some demoShell) demoWorld 4
      (some (indexArray [0, 1, 0, 1])) 0 0 0 (some dblOne) (by decide)).2.1
      demoShell rfl ⟨144, by decide⟩).2.1,
   ⟨by decide, by decide⟩,
   ((C11_only_pairs_are_searched demoEnv demoAlloc (some demoShell) demoWorld 1
      (some (indexArray [0])) 0 0 0 (some dblOne) (by decide)).2.1
      demoShell rfl ⟨3, by decide⟩).1,
   ((C11_only_pairs_are_searched demoEnv demoAlloc (some demoShell) demoWorld 1
      (some (indexArray [0])) 0 0 0 (some dblOne) (by decide)).2.2
      demoShell 1 (indexArray [0]) rfl rfl rfl (by decide) (by decide) (by decide) (by decide)
      (by decide) (by decide) (by decide) (by decide) (by decide) (fun _ _ => rfl)
      (fun _ => rfl) (fun _ => rfl)
      (fun sub hsub => by
        have e : sub = demoSubset := List.mem_singleton.mp hsub
        subst e
        exact ⟨by decide, by decide, fun _ => rfl⟩)).2⟩

end Ebm
